import Mathlib

/-! # Verification development for `tools/caffe.cpp`

A shallow embedding of the command-line driver of Caffe (`tools/caffe.cpp`):
the device resolver `get_gpus`, the signal mapping `GetRequestedAction`, the
weight transplant `CopyLayers`, the `train` / `data_server` commands, the dump
file naming `getFileName`, and the `collect` / `compare` traversals.

Conventions of the embedding.

* C++ strings are Lean `String`s; character-level code works on `String.data`.
  Where the code counts bytes (`snprintf` into a buffer of `FILENAME_MAX`
  bytes) the text is taken as its UTF-8 bytes, one character per byte (`c_str`).
* `int` values are `Int`s; the places where the 32-bit range matters
  (`boost::lexical_cast<int>`) check it explicitly.
* `LOG(FATAL)`, a failed `CHECK` and an uncaught exception all end the process;
  they are the `fatal` results below.
* The numeric engine (solver, net, layers) is outside `tools/caffe.cpp`; calls
  into it are recorded as events of a trace, in program order.
-/

namespace Caffe

/-! ## Results -/

/-- A computation that either yields a value or ends the process fatally. -/
inductive Res (α : Type) where
  | ok (a : α)
  | fatal
  deriving DecidableEq, Repr

/-- The values of `caffe::SolverAction::Enum` the driver names. -/
inductive SolverAction where
  | NONE
  | STOP
  | SNAPSHOT
  | UNKNOWN
  deriving DecidableEq, Repr

/-! ## Decimal conversions (`boost::lexical_cast`, `printf`) -/

/-- The character of a decimal digit `d < 10`. -/
def digitOf (d : Nat) : Char := Char.ofNat (48 + d)

/-- The value of a decimal digit character. -/
def digitVal (c : Char) : Nat := c.toNat - 48

/-- Whether a character is one of `0`..`9`. -/
def isDigit (c : Char) : Bool := decide (48 ≤ c.toNat ∧ c.toNat ≤ 57)

/-- Digits of `n`, most significant first, pushed in front of `acc`; `fuel`
bounds the number of digits produced. -/
def utoaAux : Nat → Nat → List Char → List Char
  | 0, _, acc => acc
  | fuel + 1, n, acc =>
    if n < 10 then digitOf n :: acc
    else utoaAux fuel (n / 10) (digitOf (n % 10) :: acc)

/-- Decimal digits of a natural number, without leading zeros (`0` is `"0"`). -/
def utoa (n : Nat) : List Char := utoaAux (n + 1) n []

/-- Decimal rendering of an `int`: a minus sign for negative values, then the
digits of the magnitude. This is what `boost::lexical_cast<string>(int)` and
`operator<<(int)` produce. -/
def itoa (v : Int) : List Char :=
  if v < 0 then '-' :: utoa v.natAbs else utoa v.toNat

/-- Value of a string of decimal digits, read left to right. -/
def digitsValue (cs : List Char) : Nat :=
  cs.foldl (fun acc c => acc * 10 + digitVal c) 0

/-- The unsigned core of `boost::lexical_cast` to an integer: the input must be
a non-empty run of decimal digits whose value fits the unsigned type (32 bits
here); anything else is a conversion failure. -/
def lcast_ret_unsigned (cs : List Char) : Option Nat :=
  if cs = [] then none
  else if cs.all isDigit then
    (if digitsValue cs < 2 ^ 32 then some (digitsValue cs) else none)
  else none

/-- The library conversion `boost::lexical_cast<int>(token)`: an optional
leading `+` or `-`, then a non-empty run of decimal digits, nothing else (no
blanks), and the value must fit a 32-bit `int`. `none` stands for the
`bad_lexical_cast` exception, which nothing in the driver catches. -/
def lexical_cast_int (token : List Char) : Option Int :=
  match token with
  | [] => none
  | c :: rest =>
    let has_minus := c = '-'
    let body := if has_minus ∨ c = '+' then rest else c :: rest
    match lcast_ret_unsigned body with
    | none => none
    | some v =>
      if has_minus then (if v ≤ 2 ^ 31 then some (-(v : Int)) else none)
      else (if v ≤ 2 ^ 31 - 1 then some (v : Int) else none)

/-- The library call `boost::split(out, input, boost::is_any_of(","))` with the
default `token_compress_off`: the input is cut at every delimiter, empty
tokens are kept, and an empty input gives one empty token. -/
def boost_split (isDelim : Char → Bool) : List Char → List (List Char)
  | [] => [[]]
  | c :: cs =>
    if isDelim c then [] :: boost_split isDelim cs
    else
      match boost_split isDelim cs with
      | [] => [[c]]
      | t :: ts => (c :: t) :: ts

/-- The predicate `boost::is_any_of(",")`. -/
def is_any_of_comma (c : Char) : Bool := c == ','

/-! ## Device resolver -/

/-- The loop `for (i = 0; i < strings.size(); ++i)
gpus->push_back(lexical_cast<int>(strings[i]))`; a failed conversion ends the
process. -/
def push_tokens : List (List Char) → List Int → Res (List Int)
  | [], gpus => .ok gpus
  | s :: rest, gpus =>
    match lexical_cast_int s with
    | none => .fatal
    | some d => push_tokens rest (gpus ++ [d])

/-- The function `get_gpus(vector<int>* gpus)`. `FLAGS_gpu` is the device flag,
`gpus` the vector as the caller passes it in, `deviceCount` the answer of
`cudaGetDeviceCount` (`none` when the query is fatal: a `CPU_ONLY` build, where
the branch is `NO_GPU`, or a failed `CUDA_CHECK`). -/
def get_gpus (deviceCount : Option Nat) (FLAGS_gpu : String) (gpus : List Int) :
    Res (List Int) :=
  if FLAGS_gpu = "all" then
    match deviceCount with
    | none => .fatal
    | some count => .ok ((List.range count).foldl (fun g (i : Nat) => g ++ [(i : Int)]) gpus)
  else if FLAGS_gpu.length ≠ 0 then
    push_tokens (boost_split is_any_of_comma FLAGS_gpu.data) gpus
  else
    if gpus.length = 0 then .ok gpus else .fatal

/-! ## Signal mapping -/

/-- The function `GetRequestedAction(flag_value)`: the three accepted strings,
`LOG(FATAL)` for anything else (the `return UNKNOWN` after it is not reached). -/
def GetRequestedAction (flag_value : String) : Res SolverAction :=
  if flag_value = "stop" then .ok SolverAction.STOP
  else if flag_value = "snapshot" then .ok SolverAction.SNAPSHOT
  else if flag_value = "none" then .ok SolverAction.NONE
  else .fatal


/-! ## Commands: flags, collaborators, traces -/

/-- The command-line flags the commands read (`DEFINE_string`, `DEFINE_int32`),
with the defaults of their definitions. -/
structure Flags where
  gpu : String := ""
  solver : String := ""
  model : String := ""
  level : Int := 0
  stage : String := ""
  snapshot : String := ""
  weights : String := ""
  sigint_effect : String := "stop"
  sighup_effect : String := "snapshot"
  param_server : String := ""
  listen_address : String := ""
  comm_threads : Int := 1
  engine : String := ""
  collect_dir : String := "collect_out"
  compare_output_dir : String := "compare_out"
  deriving DecidableEq, Repr

/-- The values of `SolverParameter_SolverMode` / `Caffe::Brew`. -/
inductive SolverMode where
  | CPU
  | GPU
  deriving DecidableEq, Repr

/-- The part of `caffe::SolverParameter` the driver reads or writes: the
solver mode, the optional `device_id` field (`has_device_id()`), and the rest
of the message as an uninterpreted value. -/
structure SolverParameter where
  solver_mode : SolverMode
  device_id : Option Int
  rest : Nat
  deriving DecidableEq, Repr

/-- Which of the solver's networks a call addresses: `solver->net()` or
`solver->test_nets()[j]`. -/
inductive NetRef where
  | net
  | test_net (j : Nat)
  deriving DecidableEq, Repr

/-- The calls a command makes into the engine, recorded in program order. -/
inductive Event where
  | ReadProtoFromTextFile (path : String)
  | ReadSolverParamsFromTextFileOrDie (path : String)
  | multiphase_train (solver : String)
  | set_mode (mode : SolverMode)
  | SetDevice (device : Int)
  | set_solver_count (count : Nat)
  | SignalHandler (sigint sighup : SolverAction)
  | CreateSolver (param : SolverParameter)
  | SetActionFunction
  | Restore (path : String)
  | CopyTrainedLayersFrom (target : NetRef) (model : String)
  | SynchronousNode_run (comm_threads : Int)
  | MlslSync_run
  | P2PSync_Run (gpus : List Int)
  | Solve
  | DataServer_run (listen_address param_server : String) (comm_threads : Int)
  deriving DecidableEq, Repr

/-- How a command ends: it returns an exit code, the process is ended by a
fatal log or failed check, or the run reaches undefined behaviour (a null
`FILE*` handed to `fprintf`, element 0 of an empty vector). -/
inductive Outcome where
  | exit (code : Int)
  | fatal
  | undefined
  deriving DecidableEq, Repr

/-- One run of a command: the engine calls made, and how the run ended. -/
structure Run where
  trace : List Event
  outcome : Outcome
  deriving DecidableEq, Repr

/-- The collaborators of `train` and `data_server` outside `tools/caffe.cpp`,
and the build configuration. -/
structure Env where
  /-- Whether the build defines `USE_MLSL`. -/
  USE_MLSL : Bool
  /-- Answer of the device-count query (see `get_gpus`). -/
  deviceCount : Option Nat
  /-- Parse of the solver file as a `SolverParameter`; `none` when
  `ReadProtoFromTextFile` returns false. -/
  ReadSolverParameter : String → Option SolverParameter
  /-- Whether the solver file parses as a `MultiPhaseSolverParameter`. -/
  ReadMultiPhase : String → Bool
  /-- Return value of `multiphase_train`. -/
  multiphase_train : String → String → Int → String → Int
  /-- The helper `use_flags` of `training_utils.hpp`, as a function of the
  configuration and the four flags passed to it. -/
  use_flags : SolverParameter → String → String → Int → String → SolverParameter
  /-- Result of `ReadSolverParamsFromTextFileOrDie`; `none` when it dies. -/
  ReadSolverParamsOrDie : String → Option SolverParameter
  /-- The value of `solver->test_nets().size()` for a solver created from a
  configuration. -/
  num_test_nets : SolverParameter → Nat

/-! ## Weight transplant -/

/-- The function `CopyLayers(solver, model_list)`. The solver is a state `S`;
`CopyTrainedLayersFrom target name` is the engine call
`target->CopyTrainedLayersFrom(name)` as a transformer of that state, and
`num_test_nets` is `solver->test_nets().size()`. -/
def CopyLayers {S : Type} (CopyTrainedLayersFrom : NetRef → String → S → S)
    (num_test_nets : Nat) (model_list : String) (solver : S) : S :=
  let model_names := (boost_split is_any_of_comma model_list.data).map String.mk
  model_names.foldl
    (fun s name =>
      (List.range num_test_nets).foldl
        (fun s j => CopyTrainedLayersFrom (NetRef.test_net j) name s)
        (CopyTrainedLayersFrom NetRef.net name s))
    solver

/-- The engine call seen as a trace: it appends one event. -/
def logCopy (target : NetRef) (name : String) (trace : List Event) : List Event :=
  trace ++ [Event.CopyTrainedLayersFrom target name]

/-- The networks a solver owns, each a map from layer name to the value of the
layer's parameters. -/
structure SolverNets (V : Type) where
  net : String → V
  test_nets : List (String → V)

/-- Modelled from the spec: `Net::CopyTrainedLayersFrom` is not part of
`tools/caffe.cpp`. A source defines some layers (`source L = some v`); applying
it overwrites exactly those layers of the network and leaves the others. -/
def overwriteLayers {V : Type} (source : String → Option V) (net : String → V) :
    String → V :=
  fun L => match source L with
    | some v => v
    | none => net L

/-- The engine call on the solver's networks: the addressed network is
overwritten from the source stored under `name`. -/
def applyCopy {V : Type} (models : String → String → Option V) :
    NetRef → String → SolverNets V → SolverNets V
  | NetRef.net, name, s => { s with net := overwriteLayers (models name) s.net }
  | NetRef.test_net j, name, s =>
    { s with test_nets := s.test_nets.modify (overwriteLayers (models name)) j }

/-- The value the spec gives a layer after a transplant from `names`: the value
given by the last source in the list that defines the layer, and the layer's
previous value when no source defines it. -/
def lastWins {V : Type} (models : String → String → Option V) (names : List String)
    (L : String) (previous : V) : V :=
  match names.reverse.find? (fun name => (models name L).isSome) with
  | some name => (models name L).getD previous
  | none => previous

/-! ## train -/

/-- Lines 271-279 of `train`: when the device flag is empty and the
configuration asks for GPU mode, the flag is set from the configuration's
`device_id`, or to `0` when the field is unset. -/
def train_gpu_flag (FLAGS_gpu : String) (solver_param : SolverParameter) : String :=
  if FLAGS_gpu.length = 0 ∧ solver_param.solver_mode = SolverMode.GPU then
    match solver_param.device_id with
    | some d => "" ++ String.mk (itoa d)
    | none => "" ++ String.mk (itoa 0)
  else FLAGS_gpu

/-- The name of the transport compiled into the build. -/
def compiledTransport (USE_MLSL : Bool) : String :=
  if USE_MLSL then "mlsl" else "mpi"

/-- Lines 321-356 of `train`: the choice of the synchronization strategy. -/
def train_dispatch (USE_MLSL : Bool) (F : Flags) (gpus : List Int) : Run :=
  if F.param_server ≠ "" then
    if (if USE_MLSL then F.param_server ≠ "mlsl" else F.param_server ≠ "mpi") then
      ⟨[], Outcome.exit 1⟩
    else
      ⟨(if USE_MLSL then
          (if F.param_server = "mlsl" then [Event.MlslSync_run] else [])
        else
          (if F.param_server = "mpi" then [Event.SynchronousNode_run F.comm_threads]
           else [])),
        Outcome.exit 0⟩
  else if gpus.length > 1 then ⟨[Event.P2PSync_Run gpus], Outcome.exit 0⟩
  else ⟨[Event.Solve], Outcome.exit 0⟩

/-- Lines 314-319 of `train` and 378-383 of `data_server`: restore from the
checkpoint, else transplant the weights, else nothing. -/
def restore_or_copy (F : Flags) (num_test_nets : Nat) : List Event :=
  if F.snapshot.length ≠ 0 then [Event.Restore F.snapshot]
  else if F.weights.length ≠ 0 then CopyLayers logCopy num_test_nets F.weights []
  else []

/-- Lines 283-303 of `train`: host mode for an empty device set, otherwise
the first device is written to the configuration and selected, and the solver
count is set to the number of devices. Returns the configuration and the calls
made. -/
def train_place (solver_param : SolverParameter) (gpus : List Int) :
    SolverParameter × List Event :=
  match gpus with
  | [] => (solver_param, [Event.set_mode SolverMode.CPU])
  | g0 :: _ =>
    ({ solver_param with device_id := some g0 },
     [Event.SetDevice g0, Event.set_mode SolverMode.GPU,
      Event.set_solver_count gpus.length])

/-- The command `train`. -/
def train (env : Env) (F : Flags) : Run :=
  if ¬ (F.solver.length > 0) then ⟨[], Outcome.fatal⟩
  else if ¬ (F.snapshot.length = 0 ∨ F.weights.length = 0) then ⟨[], Outcome.fatal⟩
  else
    match env.ReadSolverParameter F.solver with
    | none =>
      if env.ReadMultiPhase F.solver then
        ⟨[Event.ReadProtoFromTextFile F.solver, Event.ReadProtoFromTextFile F.solver,
          Event.multiphase_train F.solver],
         Outcome.exit (env.multiphase_train F.solver F.engine F.level F.stage)⟩
      else
        ⟨[Event.ReadProtoFromTextFile F.solver, Event.ReadProtoFromTextFile F.solver],
         Outcome.fatal⟩
    | some parsed =>
      let solver_param := env.use_flags parsed F.solver F.engine F.level F.stage
      let t0 := [Event.ReadProtoFromTextFile F.solver]
      match get_gpus env.deviceCount (train_gpu_flag F.gpu solver_param) [] with
      | Res.fatal => ⟨t0, Outcome.fatal⟩
      | Res.ok gpus =>
        let placed := train_place solver_param gpus
        let t1 := t0 ++ placed.2
        match GetRequestedAction F.sigint_effect, GetRequestedAction F.sighup_effect with
        | Res.ok sigint, Res.ok sighup =>
          let t2 := t1 ++ [Event.SignalHandler sigint sighup, Event.CreateSolver placed.1,
            Event.SetActionFunction]
          let t3 := t2 ++ restore_or_copy F (env.num_test_nets placed.1)
          let sync := train_dispatch env.USE_MLSL F gpus
          ⟨t3 ++ sync.trace, sync.outcome⟩
        | _, _ => ⟨t1, Outcome.fatal⟩

/-- The command `data_server`. -/
def data_server (env : Env) (F : Flags) : Run :=
  if ¬ (F.solver.length > 0) then ⟨[], Outcome.fatal⟩
  else if ¬ (F.snapshot.length = 0 ∨ F.weights.length = 0) then ⟨[], Outcome.fatal⟩
  else
    match env.ReadSolverParamsOrDie F.solver with
    | none => ⟨[Event.ReadSolverParamsFromTextFileOrDie F.solver], Outcome.fatal⟩
    | some solver_param =>
      let t0 := [Event.ReadSolverParamsFromTextFileOrDie F.solver]
      match GetRequestedAction F.sigint_effect, GetRequestedAction F.sighup_effect with
      | Res.ok sigint, Res.ok sighup =>
        let t1 := t0 ++ [Event.SignalHandler sigint sighup, Event.CreateSolver solver_param,
          Event.SetActionFunction]
        let t2 := t1 ++ restore_or_copy F (env.num_test_nets solver_param)
        ⟨t2 ++ [Event.DataServer_run F.listen_address F.param_server F.comm_threads],
         Outcome.exit 0⟩
      | _, _ => ⟨t0, Outcome.fatal⟩

/-- The events that run a training strategy. -/
def isStrategy : Event → Bool
  | Event.SynchronousNode_run _ => true
  | Event.MlslSync_run => true
  | Event.P2PSync_Run _ => true
  | Event.Solve => true
  | _ => false

/-- A sample environment: default build, two devices, every solver file parses
to a CPU-mode configuration, the solver owns one test network. -/
def sampleEnv : Env where
  USE_MLSL := false
  deviceCount := some 2
  ReadSolverParameter := fun _ => some ⟨SolverMode.CPU, none, 0⟩
  ReadMultiPhase := fun _ => false
  multiphase_train := fun _ _ _ _ => 0
  use_flags := fun p _ _ _ _ => p
  ReadSolverParamsOrDie := fun _ => some ⟨SolverMode.CPU, none, 0⟩
  num_test_nets := fun _ => 1

/-- The sample environment in a build with `USE_MLSL`. -/
def sampleEnvMlsl : Env := { sampleEnv with USE_MLSL := true }

/-- The sample environment with a solver file that does not parse as a
`SolverParameter` and is a multi-phase definition, whose training returns 0. -/
def sampleEnvMultiPhase : Env :=
  { sampleEnv with ReadSolverParameter := fun _ => none, ReadMultiPhase := fun _ => true }

/-- The events one source contributes to a transplant: the primary network
first, then the test networks in index order. -/
def copyEventsOf (num_test_nets : Nat) (name : String) : List Event :=
  Event.CopyTrainedLayersFrom NetRef.net name ::
    (List.range num_test_nets).map (fun j => Event.CopyTrainedLayersFrom (NetRef.test_net j) name)

/-- The events of `train` before the restore step: parsing, device placement,
signal handler and solver construction. -/
def isSetup : Event → Bool
  | Event.ReadProtoFromTextFile _ => true
  | Event.multiphase_train _ => true
  | Event.set_mode _ => true
  | Event.SetDevice _ => true
  | Event.set_solver_count _ => true
  | Event.SignalHandler _ _ => true
  | Event.CreateSolver _ => true
  | Event.SetActionFunction => true
  | _ => false

/-- Whether an event is the construction of the solver. -/
def isCreateSolver : Event → Bool
  | Event.CreateSolver _ => true
  | _ => false

/-- Tokens written one after the other with the separator `d` between them. -/
def joinWith (d : Char) : List (List Char) → List Char
  | [] => []
  | [t] => t
  | t :: t' :: ts => t ++ d :: joinWith d (t' :: ts)

/-- The comma-separated list of the given names, as typed on the command line. -/
def joinComma (names : List String) : String :=
  String.mk (joinWith ',' (names.map String.data))

/-- The device spec that lists the given identifiers: their decimal
renderings separated by commas (empty for the empty list). -/
def deviceSpec (ids : List Int) : String :=
  String.mk (joinWith ',' (ids.map itoa))

/-- Whether a 32-bit `int` can hold the value. -/
@[reducible] def fitsInt32 (v : Int) : Prop := -2 ^ 31 ≤ v ∧ v < 2 ^ 31

/-- Sample sources: `A` defines layers `L` and `M`, `B` defines `L` only. -/
def sampleModels : String → String → Option Nat
  | "A", "L" => some 1
  | "A", "M" => some 2
  | "B", "L" => some 3
  | _, _ => none


/-- The configuration `train` works with: the parsed solver file after
`use_flags`. -/
def train_config (env : Env) (F : Flags) (parsed : SolverParameter) : SolverParameter :=
  env.use_flags parsed F.solver F.engine F.level F.stage

/-- The events that select the execution mode and device. -/
def isPlacement : Event → Bool
  | Event.set_mode _ => true
  | Event.SetDevice _ => true
  | Event.set_solver_count _ => true
  | _ => false

/-- A sample environment whose solver files ask for GPU mode on device 3. -/
def sampleEnvGpu : Env :=
  { sampleEnv with ReadSolverParameter := fun _ => some ⟨SolverMode.GPU, some 3, 0⟩ }

/-! ## Dump files -/

/-- The constant `FILENAME_MAX` of `<stdio.h>`: the size of the name buffers
(4096 with glibc). -/
def FILENAME_MAX : Nat := 4096

/-- The UTF-8 encoding of a character, one character of the result per byte. -/
def utf8Bytes (c : Char) : List Char :=
  if c.toNat ≤ 0x7F then [c]
  else if c.toNat ≤ 0x7FF then
    [Char.ofNat (0xC0 + c.toNat / 0x40), Char.ofNat (0x80 + c.toNat % 0x40)]
  else if c.toNat ≤ 0xFFFF then
    [Char.ofNat (0xE0 + c.toNat / 0x1000), Char.ofNat (0x80 + c.toNat / 0x40 % 0x40),
     Char.ofNat (0x80 + c.toNat % 0x40)]
  else
    [Char.ofNat (0xF0 + c.toNat / 0x40000), Char.ofNat (0x80 + c.toNat / 0x1000 % 0x40),
     Char.ofNat (0x80 + c.toNat / 0x40 % 0x40), Char.ofNat (0x80 + c.toNat % 0x40)]

/-- The bytes of a string as `c_str()` hands them to `snprintf` and `fopen`: the
UTF-8 encoding of its text, one character per byte. The contents of a `char`
buffer and the paths handed to `fopen` for the dumps are kept in this form.
(Flag values and role names come from `argv` and from string literals; they
hold no NUL byte.) -/
def c_str (s : String) : List Char := s.data.flatMap utf8Bytes

/-- What `snprintf(buf, size, ...)` leaves in the buffer: the formatted output,
given one character per byte, cut to `size - 1` bytes. -/
def snprintf (size : Nat) (text : List Char) : List Char := text.take (size - 1)

/-- Digits padded on the left with `0` up to a given width. -/
def zeroPad (width : Nat) (digits : List Char) : List Char :=
  List.replicate (width - digits.length) '0' ++ digits

/-- The conversion `%04i` of `printf`: decimal, at least four characters wide,
padded with zeros after the sign. -/
def printf_04i (id : Int) : List Char :=
  if id < 0 then '-' :: zeroPad 3 (utoa id.natAbs) else zeroPad 4 (utoa id.toNat)

/-- The function `getFileName(file_name, is_target, name, id)`: the bytes it
writes into the buffer `file_name`. -/
def getFileName (is_target : Bool) (name : String) (id : Int) : String :=
  String.mk (snprintf FILENAME_MAX
    ((if is_target then "TGT" else "REF").data ++ c_str name ++ printf_04i id ++ ".bin".data))

/-- The four roles under which `collect` and `compare` write dumps. -/
def dumpRoles : List String := ["Fwrd", "Bwrd", "Grad", "Wght"]

/-- The function `getBinFilePath(file_path, name)`: the bytes it writes into
the buffer `file_path`, a path under the directory of the reference dumps.
`name` is the buffer `getFileName` filled. -/
def getBinFilePath (FLAGS_collect_dir : String) (name : String) : String :=
  String.mk (snprintf FILENAME_MAX (c_str FLAGS_collect_dir ++ "/".data ++ name.data))

/-- The size `sizeof(real_t)` of one element (`real_t` is `float`). -/
def sizeof_real_t : Nat := 4

/-- The state of the file system a traversal changes: the contents of the
files, as bytes, by path (`none`: no such file). -/
abbrev Files := String → Option (List Nat)

/-- The body of `saveToFile` after the name is built (lines 686-701): open
`path` with `w+b`, which empties the file; `fwrite` `count * sizeof(real_t)`
bytes of `data` to the stream; `fclose`, whose result is discarded; return
whether `fwrite` took every byte. `canOpen` says whether `fopen` succeeds,
`room` how many bytes `fwrite` takes before it fails, and `flushed` how many
bytes the stream gets into the file by the time it is closed. Returns the
result of `saveToFile` and the files afterwards. -/
def writeFile (canOpen : Bool) (room : Nat) (flushed : Nat) (path : String) (data : List Nat)
    (count : Nat) (files : Files) : Bool × Files :=
  if ¬ canOpen then (false, files)
  else
    let bytesToWrite := count * sizeof_real_t
    let bytesWritten := min bytesToWrite room
    (decide (bytesWritten = bytesToWrite),
     fun p => if p = path then some (data.take (min bytesWritten flushed)) else files p)

/-- The path `saveToFile` hands to `fopen`: `file_path + "/" + file_name`, with
`file_name` the buffer `getFileName` filled. -/
def dumpPath (file_path : String) (is_target : Bool) (pfx : String) (id : Int) : String :=
  String.mk (c_str file_path ++ "/".data ++ (getFileName is_target pfx id).data)

/-- The function `saveToFile(file_path, is_target, prefix, id, data, count)`;
`fopen_write`, `fwrite_room` and `fclose_flushed` are the answers of the file
system, by path. -/
def saveToFile (fopen_write : String → Bool) (fwrite_room : String → Nat)
    (fclose_flushed : String → Nat)
    (file_path : String) (is_target : Bool) (pfx : String) (id : Int)
    (data : List Nat) (count : Nat) (files : Files) : Bool × Files :=
  let file_name := getFileName is_target pfx id
  let path := String.mk (c_str file_path ++ "/".data ++ file_name.data)
  writeFile (fopen_write path) (fwrite_room path) (fclose_flushed path) path data count files

/-- The function `loadFromFile(file_path, data, count)`: open with `rb`, read up
to `count * sizeof(real_t)` bytes over the front of the buffer, close. Returns
the result of `loadFromFile` and the buffer afterwards. -/
def loadFromFile (files : Files) (file_path : String) (data : List Nat) (count : Nat) :
    Bool × List Nat :=
  match files file_path with
  | none => (false, data)
  | some content =>
    let bytesToRead := count * sizeof_real_t
    let bytesRead := min bytesToRead content.length
    (decide (bytesRead = bytesToRead), content.take bytesRead ++ data.drop bytesRead)

/-! ## collect and compare -/

/-- A blob as the traversals see it: its element count and the bytes of its
data and gradient buffers (`count * sizeof(real_t)` bytes each). -/
structure Blob where
  count : Nat
  cpu_data : List Nat
  cpu_diff : List Nat
  deriving DecidableEq, Repr

/-- The two buffers of a blob. -/
inductive Buf where
  | data
  | diff
  deriving DecidableEq, Repr

/-- What the net says about layer `i`: `layers[i]->type()`, `bottom_vecs[i]`,
`top_vecs[i]` and `bottom_need_backward[i]`. Blobs are named by number. -/
structure LayerRec where
  type : String
  bottom_vec : List Nat
  top_vec : List Nat
  bottom_need_backward : List Bool
  deriving DecidableEq, Repr

/-- The net built from the model file, as `collect` and `compare` use it: its
layers, its parameter blobs, and the forward and backward step of layer `i` as
transformers of the blobs. -/
structure Net where
  layers : List LayerRec
  params : List Nat
  Forward : Nat → (Nat → Blob) → (Nat → Blob)
  Backward : Nat → (Nat → Blob) → (Nat → Blob)

/-- The calls of a traversal, in program order. -/
inductive Step where
  | SetDevice (device : Int)
  | set_mode (mode : SolverMode)
  | create_directory (dir : String)
  | fopen_info (path : String)
  | caffe_set_diff (blob : Nat)
  | fprintf_info (line : String)
  | Forward (layer : Nat)
  | Backward (layer : Nat)
  | saveToFile (file_path : String) (is_target : Bool) (pfx : String) (id : Int)
      (blob : Nat) (buf : Buf)
  | loadFromFile (file_path : String) (blob : Nat) (buf : Buf)
  | fclose_info
  | proceedWithCompare (infoPath : String)
  | report_invalid_layer (key : String)
  | report_all_correct
  deriving DecidableEq, Repr

/-- How a call `boost::filesystem::create_directory(dir)` ends (the overload
without an `error_code`): it returns true when it created the directory,
returns false when the directory was there already, and throws
`filesystem_error` when the directory cannot be created. -/
inductive CreateResult where
  | created
  | not_created
  | throws
  deriving DecidableEq, Repr

/-- The path of the info file a traversal opens: `GPUInfo.txt` with a device,
`CPUInfo.txt` without, in the output directory. -/
def infoPath (dir : String) (use_gpu : Bool) : String :=
  if use_gpu then dir ++ "/" ++ "GPUInfo.txt" else dir ++ "/" ++ "CPUInfo.txt"

/-- The build configuration and the collaborators of `collect` and `compare`
outside `tools/caffe.cpp`. -/
structure HarnessEnv where
  /-- Whether the build defines `DETERMINISTIC`. -/
  DETERMINISTIC : Bool
  /-- Answer of the device-count query (see `get_gpus`). -/
  deviceCount : Option Nat
  /-- Answer of `boost::filesystem::exists(dir)`. -/
  dir_exists : String → Bool
  /-- How `boost::filesystem::create_directory(dir)` ends. -/
  create_directory : String → CreateResult
  /-- Whether `fopen(path, "w+b")` or `fopen(path, "w+t")` succeeds. -/
  fopen_write : String → Bool
  /-- How many bytes `fwrite` takes for the file before it fails. -/
  fwrite_room : String → Nat
  /-- How many of the bytes written to the stream are in the file once it is
  closed. -/
  fclose_flushed : String → Nat
  /-- A file can be opened for writing only in a directory that is there: no
  file opens in a directory that did not exist and could not be created. -/
  fopen_needs_dir : ∀ dir name, fopen_write (dir ++ "/" ++ name) = true →
    dir_exists dir = true ∨ create_directory dir = CreateResult.created ∨
      create_directory dir = CreateResult.not_created
  /-- The keys of the error dictionary `proceedWithCompare` fills, for an info
  path. -/
  proceedWithCompare : String → List String

/-- The state a traversal works on: the blobs of the net, the files, whether the
info `FILE*` is open (not null), the lines printed to it, and the calls made. -/
structure World where
  blobs : Nat → Blob
  files : Files
  infoOpen : Bool
  info : List String
  steps : List Step

/-- A traversal in progress, or ended with an outcome. -/
inductive Exec where
  | running (w : World)
  | halted (w : World) (o : Outcome)

/-- Sequencing: continue with `f` unless the traversal has ended. -/
def Exec.andThen (e : Exec) (f : World → Exec) : Exec :=
  match e with
  | Exec.running w => f w
  | Exec.halted w o => Exec.halted w o

/-- The state of a traversal, running or ended. -/
def Exec.world : Exec → World
  | Exec.running w => w
  | Exec.halted w _ => w

/-- A `for` loop whose index takes the values of `idx` in order. -/
def forLoop (idx : List Nat) (body : Nat → World → Exec) (w : World) : Exec :=
  idx.foldl (fun e i => e.andThen (body i)) (Exec.running w)

/-- Append a call to the record of calls. -/
def World.record (w : World) (s : Step) : World := { w with steps := w.steps ++ [s] }

/-- The buffer of a blob a call reads or writes. -/
def Blob.buffer (b : Blob) : Buf → List Nat
  | Buf.data => b.cpu_data
  | Buf.diff => b.cpu_diff

/-- A blob with one buffer replaced. -/
def Blob.setBuffer (b : Blob) : Buf → List Nat → Blob
  | Buf.data, bytes => { b with cpu_data := bytes }
  | Buf.diff, bytes => { b with cpu_diff := bytes }

/-- A call `saveToFile(dir, is_target, prefix, id, blob->cpu_data(), blob->count())`
(or `cpu_diff()`), whose result the traversals ignore. -/
def saveStep (env : HarnessEnv) (dir : String) (is_target : Bool) (pfx : String) (id : Int)
    (blob : Nat) (buf : Buf) (w : World) : World :=
  { w with
    files := (saveToFile env.fopen_write env.fwrite_room env.fclose_flushed dir is_target pfx id
      ((w.blobs blob).buffer buf) (w.blobs blob).count w.files).2,
    steps := w.steps ++ [Step.saveToFile dir is_target pfx id blob buf] }

/-- A call `loadFromFile(file_path, blob->mutable_cpu_data(), blob->count())`
(or `mutable_cpu_diff()`), whose result the traversals ignore. -/
def loadStep (file_path : String) (blob : Nat) (buf : Buf) (w : World) : World :=
  { w with
    blobs := fun k =>
      if k = blob then
        (w.blobs blob).setBuffer buf
          (loadFromFile w.files file_path ((w.blobs blob).buffer buf) (w.blobs blob).count).2
      else w.blobs k,
    steps := w.steps ++ [Step.loadFromFile file_path blob buf] }

/-- The effect of printing one line to an open info file. -/
def printLine (line : String) (w : World) : World :=
  { w with info := w.info ++ [line], steps := w.steps ++ [Step.fprintf_info line] }

/-- A call `fprintf(infoFile, ...)` printing one line; a null `infoFile` is
undefined behaviour. -/
def fprintf_info (line : String) (w : World) : Exec :=
  if w.infoOpen then Exec.running (printLine line w)
  else Exec.halted w Outcome.undefined

/-- The text `fprintf(infoFile, "<role>%04i %s\n", i, type)` prints. -/
def infoLine (role : String) (i : Int) (type : String) : String :=
  role ++ String.mk (printf_04i i) ++ " " ++ type ++ "\n"

/-- The call `caffe_set(blob->count(), 0.f, blob->mutable_cpu_diff())`. -/
def zeroDiff (blob : Nat) (w : World) : World :=
  { w with
    blobs := fun k =>
      if k = blob then
        { w.blobs blob with
          cpu_diff := List.replicate ((w.blobs blob).count * sizeof_real_t) 0 }
      else w.blobs k,
    steps := w.steps ++ [Step.caffe_set_diff blob] }

/-- The loop over the parameters that zeroes every gradient (lines 762-765 and
840-843). -/
def zeroParamDiffs (net : Net) (w : World) : World :=
  net.params.foldl (fun w blob => zeroDiff blob w) w

/-- The step `layers[i]->Forward(bottom_vecs[i], top_vecs[i])`. -/
def forwardStep (net : Net) (i : Nat) (w : World) : World :=
  { w with blobs := net.Forward i w.blobs, steps := w.steps ++ [Step.Forward i] }

/-- The step `layers[i]->Backward(top_vecs[i], bottom_need_backward[i],
bottom_vecs[i])`. -/
def backwardStep (net : Net) (i : Nat) (w : World) : World :=
  { w with blobs := net.Backward i w.blobs, steps := w.steps ++ [Step.Backward i] }

/-- The condition `bottom_need_backward[i].size() > 0 && bottom_need_backward[i][0]`. -/
def needsBackward (layer : LayerRec) : Bool :=
  match layer.bottom_need_backward with
  | [] => false
  | b :: _ => b

/-- Body of the forward loop of `collect` (lines 767-773). -/
def collect_forward (env : HarnessEnv) (F : Flags) (net : Net) (i : Nat) (w : World) : Exec :=
  match net.layers[i]? with
  | none => Exec.halted w Outcome.undefined
  | some layer =>
    (fprintf_info (infoLine "Fwrd" i layer.type) w).andThen fun w1 =>
      let w2 := forwardStep net i w1
      match layer.top_vec with
      | [] => Exec.halted w2 Outcome.undefined
      | top0 :: _ =>
        Exec.running (saveStep env F.collect_dir false "Fwrd" i top0 Buf.data w2)

/-- Body of the backward loop of `collect` (lines 775-783). -/
def collect_backward (env : HarnessEnv) (F : Flags) (net : Net) (i : Nat) (w : World) : Exec :=
  match net.layers[i]? with
  | none => Exec.halted w Outcome.undefined
  | some layer =>
    (fprintf_info (infoLine "Bwrd" i layer.type) w).andThen fun w1 =>
      let w2 := backwardStep net i w1
      if needsBackward layer then
        match layer.bottom_vec with
        | [] => Exec.halted w2 Outcome.undefined
        | bottom0 :: _ =>
          Exec.running (saveStep env F.collect_dir false "Bwrd" i bottom0 Buf.diff w2)
      else Exec.running w2

/-- Body of the parameter loop of `collect` (lines 786-791). -/
def collect_param (env : HarnessEnv) (F : Flags) (net : Net) (i : Nat) (w : World) : Exec :=
  match net.params[i]? with
  | none => Exec.halted w Outcome.undefined
  | some blob =>
    Exec.running
      (saveStep env F.collect_dir false "Wght" i blob Buf.data
        (saveStep env F.collect_dir false "Grad" i blob Buf.diff w))

/-- The call `fclose(infoFile)`; a null `infoFile` is undefined behaviour. -/
def fclose_info (w : World) : Exec :=
  if w.infoOpen then
    Exec.running { w with infoOpen := false, steps := w.steps ++ [Step.fclose_info] }
  else Exec.halted w Outcome.undefined

/-- Lines 730-740 and 808-818: resolve the device set and select the mode. -/
def harness_place (gpus : List Int) (w : World) : World :=
  match gpus with
  | [] => w.record (Step.set_mode SolverMode.CPU)
  | g0 :: _ => (w.record (Step.SetDevice g0)).record (Step.set_mode SolverMode.GPU)

/-- The calls by which `harness_place` selects the mode. -/
def placementSteps (gpus : List Int) : List Step :=
  match gpus with
  | [] => [Step.set_mode SolverMode.CPU]
  | g0 :: _ => [Step.SetDevice g0, Step.set_mode SolverMode.GPU]

/-- Lines 750-755 and 828-833: create the output directory when it does not
exist. When `create_directory` throws, nothing catches the exception and the
process is terminated; when it returns false the failure is logged and the run
goes on. -/
def harness_mkdir (env : HarnessEnv) (dir : String) (w : World) : Exec :=
  if ¬ env.dir_exists dir then
    match env.create_directory dir with
    | CreateResult.throws => Exec.halted (w.record (Step.create_directory dir)) Outcome.fatal
    | CreateResult.created => Exec.running (w.record (Step.create_directory dir))
    | CreateResult.not_created => Exec.running (w.record (Step.create_directory dir))
  else Exec.running w

/-- Lines 757-759 and 835-837: open the info file, `GPUInfo.txt` or
`CPUInfo.txt` by the device set; the result of `fopen` is not checked. -/
def harness_fopen (env : HarnessEnv) (dir : String) (use_gpu : Bool) (w : World) : World :=
  { w with infoOpen := env.fopen_write (infoPath dir use_gpu), info := [],
           steps := w.steps ++ [Step.fopen_info (infoPath dir use_gpu)] }

/-- Lines 750-759 and 828-837: look after the output directory, then open the
info file. -/
def harness_open (env : HarnessEnv) (dir : String) (use_gpu : Bool) (w : World) : Exec :=
  (harness_mkdir env dir w).andThen fun w1 => Exec.running (harness_fopen env dir use_gpu w1)

/-- The state in which a traversal starts when the directory step did not
throw: the directory looked after (`create_directory` called when it did not
exist) and the info file opened. -/
def harness_opened (env : HarnessEnv) (dir : String) (use_gpu : Bool) (w : World) : World :=
  harness_fopen env dir use_gpu
    (if ¬ env.dir_exists dir then w.record (Step.create_directory dir) else w)

/-- Lines 762-794 of `collect`: the traversal. -/
def collect_traverse (env : HarnessEnv) (F : Flags) (net : Net) (w : World) : Exec :=
  (((forLoop (List.range net.layers.length) (collect_forward env F net)
      (zeroParamDiffs net w)).andThen
    (forLoop (List.range net.layers.length).reverse (collect_backward env F net))).andThen
    (forLoop (List.range net.params.length) (collect_param env F net))).andThen
    fclose_info

/-- The command `collect`; `net` is the net built from `FLAGS_model` and `w` the
state at the start. -/
def collect (env : HarnessEnv) (F : Flags) (net : Net) (w : World) : Exec :=
  if ¬ env.DETERMINISTIC then Exec.halted w (Outcome.exit 1)
  else if ¬ (F.model.length > 0) then Exec.halted w Outcome.fatal
  else
    match get_gpus env.deviceCount F.gpu [] with
    | Res.fatal => Exec.halted w Outcome.fatal
    | Res.ok gpus =>
      let use_gpu := decide (gpus.length ≠ 0)
      (harness_open env F.collect_dir use_gpu (harness_place gpus w)).andThen fun w1 =>
        match collect_traverse env F net w1 with
        | Exec.running w2 => Exec.halted w2 (Outcome.exit 0)
        | Exec.halted w2 o => Exec.halted w2 o

/-- Body of the forward loop of `compare` (lines 845-860). -/
def compare_forward (env : HarnessEnv) (F : Flags) (net : Net) (i : Nat) (w : World) : Exec :=
  match net.layers[i]? with
  | none => Exec.halted w Outcome.undefined
  | some layer =>
    (fprintf_info (infoLine "Fwrd" i layer.type) w).andThen fun w1 =>
      let w2 := forwardStep net i w1
      match layer.top_vec with
      | [] => Exec.halted w2 Outcome.undefined
      | top0 :: _ =>
        let w3 := saveStep env F.compare_output_dir true "Fwrd" i top0 Buf.data w2
        let file_name := getFileName false "Fwrd" i
        let file_path := getBinFilePath F.collect_dir file_name
        Exec.running (loadStep file_path top0 Buf.data w3)

/-- Body of the backward loop of `compare` (lines 862-879). -/
def compare_backward (env : HarnessEnv) (F : Flags) (net : Net) (i : Nat) (w : World) : Exec :=
  match net.layers[i]? with
  | none => Exec.halted w Outcome.undefined
  | some layer =>
    (fprintf_info (infoLine "Bwrd" i layer.type) w).andThen fun w1 =>
      let w2 := backwardStep net i w1
      if needsBackward layer then
        match layer.bottom_vec with
        | [] => Exec.halted w2 Outcome.undefined
        | bottom0 :: _ =>
          let w3 := saveStep env F.compare_output_dir true "Bwrd" i bottom0 Buf.diff w2
          let file_name := getFileName false "Bwrd" i
          let file_path := getBinFilePath F.collect_dir file_name
          Exec.running (loadStep file_path bottom0 Buf.diff w3)
      else Exec.running w2

/-- Body of the parameter loop of `compare` (lines 882-890). -/
def compare_param (env : HarnessEnv) (F : Flags) (net : Net) (i : Nat) (w : World) : Exec :=
  match net.params[i]? with
  | none => Exec.halted w Outcome.undefined
  | some blob =>
    Exec.running
      (saveStep env F.compare_output_dir true "Wght" i blob Buf.data
        (saveStep env F.compare_output_dir true "Grad" i blob Buf.diff w))

/-- Lines 840-892 of `compare`: the traversal. -/
def compare_traverse (env : HarnessEnv) (F : Flags) (net : Net) (w : World) : Exec :=
  (((forLoop (List.range net.layers.length) (compare_forward env F net)
      (zeroParamDiffs net w)).andThen
    (forLoop (List.range net.layers.length).reverse (compare_backward env F net))).andThen
    (forLoop (List.range net.params.length) (compare_param env F net))).andThen
    fclose_info

/-- Lines 894-908 of `compare`: run the offline comparison on `CPUInfo.txt` of
the output directory and report the keys of the error dictionary, or that all
layers work. -/
def compare_report (env : HarnessEnv) (F : Flags) (w : World) : World :=
  let infoPath := F.compare_output_dir ++ "/" ++ "CPUInfo.txt"
  let errorsDictionary := env.proceedWithCompare infoPath
  let w1 := w.record (Step.proceedWithCompare infoPath)
  if errorsDictionary.length > 0 then
    errorsDictionary.foldl (fun w key => w.record (Step.report_invalid_layer key)) w1
  else w1.record Step.report_all_correct

/-- The command `compare`; `net` is the net built from `FLAGS_model` and `w` the
state at the start. -/
def compare (env : HarnessEnv) (F : Flags) (net : Net) (w : World) : Exec :=
  if ¬ env.DETERMINISTIC then Exec.halted w (Outcome.exit 1)
  else if ¬ (F.model.length > 0) then Exec.halted w Outcome.fatal
  else
    match get_gpus env.deviceCount F.gpu [] with
    | Res.fatal => Exec.halted w Outcome.fatal
    | Res.ok gpus =>
      let use_gpu := decide (gpus.length ≠ 0)
      (harness_open env F.compare_output_dir use_gpu (harness_place gpus w)).andThen fun w1 =>
        match compare_traverse env F net w1 with
        | Exec.running w2 => Exec.halted (compare_report env F w2) (Outcome.exit 0)
        | Exec.halted w2 o => Exec.halted w2 o

/-- A net is well formed when every layer has an output blob and every layer
whose first input needs a gradient has an input blob. -/
def Net.wellFormed (net : Net) : Prop :=
  ∀ layer ∈ net.layers, layer.top_vec ≠ [] ∧
    (needsBackward layer = true → layer.bottom_vec ≠ [])

instance (net : Net) : Decidable net.wellFormed := by
  unfold Net.wellFormed
  infer_instance

/-- A sample net of two layers and one parameter blob: a data layer writing
blob 0, and an inner-product layer from blob 0 to blob 1 with parameter blob 2
whose first input needs a gradient. Every blob holds one element. -/
def sampleNet : Net where
  layers :=
    [⟨"Data", [], [0], []⟩, ⟨"InnerProduct", [0], [1], [true]⟩]
  params := [2]
  Forward := fun i blobs k =>
    if k = i then { blobs k with cpu_data := [i + 1, 0, 0, 0] } else blobs k
  Backward := fun i blobs k =>
    if k + 1 = i then { blobs k with cpu_diff := [9, 9, 9, 9] } else blobs k

/-- A sample environment of the traversals: a `DETERMINISTIC` build, no device,
directories exist, every file can be written in full, no failing layer. -/
def sampleHarnessEnv : HarnessEnv where
  DETERMINISTIC := true
  deviceCount := none
  dir_exists := fun _ => true
  create_directory := fun _ => CreateResult.not_created
  fopen_write := fun _ => true
  fwrite_room := fun _ => 1000000
  fclose_flushed := fun _ => 1000000
  fopen_needs_dir := fun _ _ _ => Or.inl rfl
  proceedWithCompare := fun _ => []

/-- A sample start state: one-element blobs, and the reference dumps of the two
layers of the sample net in `collect_out`. -/
def sampleWorld : World where
  blobs := fun _ => ⟨1, [0, 0, 0, 0], [7, 7, 7, 7]⟩
  files := fun p =>
    if p = "collect_out/REFFwrd0000.bin" then some [10, 11, 12, 13]
    else if p = "collect_out/REFFwrd0001.bin" then some [20, 21, 22, 23]
    else if p = "collect_out/REFBwrd0001.bin" then some [30, 31, 32, 33]
    else none
  infoOpen := false
  info := []
  steps := []

/-- Layer `i` of the net (an empty record past the end). -/
def Net.layerAt (net : Net) (i : Nat) : LayerRec :=
  (net.layers[i]?).getD ⟨"", [], [], []⟩

/-- The first output blob `top_vecs[i][0]` of layer `i`. -/
def Net.top0 (net : Net) (i : Nat) : Nat := (net.layerAt i).top_vec.headD 0

/-- The first input blob `bottom_vecs[i][0]` of layer `i`. -/
def Net.bottom0 (net : Net) (i : Nat) : Nat := (net.layerAt i).bottom_vec.headD 0

/-- Parameter blob `j` of the net. -/
def Net.paramAt (net : Net) (j : Nat) : Nat := (net.params[j]?).getD 0

/-- The calls the spec gives the forward pass of collect for layer `i`: the
info line, the forward step, the reference dump `Fwrd i` of the first output. -/
def collectSpecForward (F : Flags) (net : Net) (i : Nat) : List Step :=
  [Step.fprintf_info (infoLine "Fwrd" i (net.layerAt i).type), Step.Forward i,
   Step.saveToFile F.collect_dir false "Fwrd" i (net.top0 i) Buf.data]

/-- The calls the spec gives the backward pass of collect for layer `i`: the
info line, the backward step, and the reference dump `Bwrd i` of the first
input gradient exactly when the need-gradient list is non-empty and its first
entry is true. -/
def collectSpecBackward (F : Flags) (net : Net) (i : Nat) : List Step :=
  [Step.fprintf_info (infoLine "Bwrd" i (net.layerAt i).type), Step.Backward i] ++
    (if (net.layerAt i).bottom_need_backward.length > 0 ∧
        (net.layerAt i).bottom_need_backward.head? = some true then
      [Step.saveToFile F.collect_dir false "Bwrd" i (net.bottom0 i) Buf.diff]
     else [])

/-- The calls the spec gives collect for parameter `j`: the reference dumps
`Grad j` and `Wght j`. -/
def collectSpecParam (F : Flags) (net : Net) (j : Nat) : List Step :=
  [Step.saveToFile F.collect_dir false "Grad" j (net.paramAt j) Buf.diff,
   Step.saveToFile F.collect_dir false "Wght" j (net.paramAt j) Buf.data]

/-- The traversal of collect as the spec words it: zero every parameter
gradient; layers first to last, forward; layers last to first, backward; then
the parameters by position; then the info file is closed. -/
def collectSpecSteps (F : Flags) (net : Net) : List Step :=
  net.params.map Step.caffe_set_diff ++
  (List.range net.layers.length).flatMap (collectSpecForward F net) ++
  (List.range net.layers.length).reverse.flatMap (collectSpecBackward F net) ++
  (List.range net.params.length).flatMap (collectSpecParam F net) ++
  [Step.fclose_info]

/-- The info file as the spec words it: one `Fwrd` line per layer in ascending
order, then one `Bwrd` line per layer in descending order. -/
def specInfoLines (net : Net) : List String :=
  (List.range net.layers.length).map
    (fun (i : Nat) => infoLine "Fwrd" i (net.layerAt i).type) ++
  (List.range net.layers.length).reverse.map
    (fun (i : Nat) => infoLine "Bwrd" i (net.layerAt i).type)

/-- Whether a call, if it writes a dump, writes it into `dir` with the given
target flag. -/
def Step.savesAs (dir : String) (is_target : Bool) : Step → Bool
  | Step.saveToFile d t _ _ _ _ => decide (d = dir ∧ t = is_target)
  | _ => true

/-- The effect of one pass of the forward loop of `collect`. -/
def collect_forward_eff (env : HarnessEnv) (F : Flags) (net : Net) (i : Nat) (w : World) :
    World :=
  saveStep env F.collect_dir false "Fwrd" i (net.top0 i) Buf.data
    (forwardStep net i (printLine (infoLine "Fwrd" i (net.layerAt i).type) w))

/-- The effect of one pass of the backward loop of `collect`. -/
def collect_backward_eff (env : HarnessEnv) (F : Flags) (net : Net) (i : Nat) (w : World) :
    World :=
  if needsBackward (net.layerAt i) then
    saveStep env F.collect_dir false "Bwrd" i (net.bottom0 i) Buf.diff
      (backwardStep net i (printLine (infoLine "Bwrd" i (net.layerAt i).type) w))
  else backwardStep net i (printLine (infoLine "Bwrd" i (net.layerAt i).type) w)

/-- The effect of one pass of the parameter loop of `collect`. -/
def collect_param_eff (env : HarnessEnv) (F : Flags) (net : Net) (j : Nat) (w : World) :
    World :=
  saveStep env F.collect_dir false "Wght" j (net.paramAt j) Buf.data
    (saveStep env F.collect_dir false "Grad" j (net.paramAt j) Buf.diff w)

/-- The path of the reference dump of a role and index, as `compare` builds it
with `getFileName` and `getBinFilePath`. -/
def refDumpPath (F : Flags) (role : String) (i : Int) : String :=
  getBinFilePath F.collect_dir (getFileName false role i)

/-- The path `saveToFile` opens for a target dump of a role and index. -/
def tgtDumpPath (F : Flags) (role : String) (i : Int) : String :=
  dumpPath F.compare_output_dir true role i

/-- The effect of one pass of the forward loop of `compare`. -/
def compare_forward_eff (env : HarnessEnv) (F : Flags) (net : Net) (i : Nat) (w : World) :
    World :=
  loadStep (refDumpPath F "Fwrd" i) (net.top0 i) Buf.data
    (saveStep env F.compare_output_dir true "Fwrd" i (net.top0 i) Buf.data
      (forwardStep net i (printLine (infoLine "Fwrd" i (net.layerAt i).type) w)))

/-- The effect of one pass of the backward loop of `compare`. -/
def compare_backward_eff (env : HarnessEnv) (F : Flags) (net : Net) (i : Nat) (w : World) :
    World :=
  if needsBackward (net.layerAt i) then
    loadStep (refDumpPath F "Bwrd" i) (net.bottom0 i) Buf.diff
      (saveStep env F.compare_output_dir true "Bwrd" i (net.bottom0 i) Buf.diff
        (backwardStep net i (printLine (infoLine "Bwrd" i (net.layerAt i).type) w)))
  else backwardStep net i (printLine (infoLine "Bwrd" i (net.layerAt i).type) w)

/-- The effect of one pass of the parameter loop of `compare`. -/
def compare_param_eff (env : HarnessEnv) (F : Flags) (net : Net) (j : Nat) (w : World) :
    World :=
  saveStep env F.compare_output_dir true "Wght" j (net.paramAt j) Buf.data
    (saveStep env F.compare_output_dir true "Grad" j (net.paramAt j) Buf.diff w)

/-- The calls the spec gives the forward pass of compare for layer `i`: those
of collect, with the dump written as target into the compare output directory
and then the reference dump `Fwrd i` loaded over the first output. -/
def compareSpecForward (F : Flags) (net : Net) (i : Nat) : List Step :=
  [Step.fprintf_info (infoLine "Fwrd" i (net.layerAt i).type), Step.Forward i,
   Step.saveToFile F.compare_output_dir true "Fwrd" i (net.top0 i) Buf.data,
   Step.loadFromFile (refDumpPath F "Fwrd" i) (net.top0 i) Buf.data]

/-- The calls the spec gives the backward pass of compare for layer `i`. -/
def compareSpecBackward (F : Flags) (net : Net) (i : Nat) : List Step :=
  [Step.fprintf_info (infoLine "Bwrd" i (net.layerAt i).type), Step.Backward i] ++
    (if (net.layerAt i).bottom_need_backward.length > 0 ∧
        (net.layerAt i).bottom_need_backward.head? = some true then
      [Step.saveToFile F.compare_output_dir true "Bwrd" i (net.bottom0 i) Buf.diff,
       Step.loadFromFile (refDumpPath F "Bwrd" i) (net.bottom0 i) Buf.diff]
     else [])

/-- The calls the spec gives compare for parameter `j`. -/
def compareSpecParam (F : Flags) (net : Net) (j : Nat) : List Step :=
  [Step.saveToFile F.compare_output_dir true "Grad" j (net.paramAt j) Buf.diff,
   Step.saveToFile F.compare_output_dir true "Wght" j (net.paramAt j) Buf.data]

/-- The traversal of compare as the spec words it. -/
def compareSpecSteps (F : Flags) (net : Net) : List Step :=
  net.params.map Step.caffe_set_diff ++
  (List.range net.layers.length).flatMap (compareSpecForward F net) ++
  (List.range net.layers.length).reverse.flatMap (compareSpecBackward F net) ++
  (List.range net.params.length).flatMap (compareSpecParam F net) ++
  [Step.fclose_info]

/-- A dump call without its directory and target flag: role, index, blob and
buffer. -/
def Step.dumpOf : Step → Option (String × Int × Nat × Buf)
  | Step.saveToFile _ _ p i b bf => some (p, i, b, bf)
  | _ => none

/-- The state after the passes of a loop for the indices `pre`: the state in
which the next pass starts. -/
def stateBefore (eff : Nat → World → World) (pre : List Nat) (w : World) : World :=
  pre.foldl (fun w j => eff j w) w

/-- The state after the passes of a loop for the indices `pre` and then for
`i`: the state in which the pass after that of `i` starts. -/
def stateAfter (eff : Nat → World → World) (pre : List Nat) (i : Nat) (w : World) : World :=
  eff i (stateBefore eff pre w)

/-- A dump that gets into its file in full: the file opens, `fwrite` takes
`count * sizeof(real_t)` bytes, and the stream has them in the file when it is
closed. -/
def canWrite (env : HarnessEnv) (path : String) (count : Nat) : Prop :=
  env.fopen_write path = true ∧ count * sizeof_real_t ≤ env.fwrite_room path ∧
    count * sizeof_real_t ≤ env.fclose_flushed path

/-- The blobs after the forward steps of the layers `idx`, in that order. -/
def forwardBlobs (net : Net) (idx : List Nat) (blobs : Nat → Blob) : Nat → Blob :=
  idx.foldl (fun b i => net.Forward i b) blobs

/-- The blobs after the backward steps of the layers `idx`, in that order. -/
def backwardBlobs (net : Net) (idx : List Nat) (blobs : Nat → Blob) : Nat → Blob :=
  idx.foldl (fun b i => net.Backward i b) blobs

/-- The state of `collect` when its forward loop is over. -/
def collectAfterForward (env : HarnessEnv) (F : Flags) (net : Net) (w : World) : World :=
  (List.range net.layers.length).foldl (fun w i => collect_forward_eff env F net i w)
    (zeroParamDiffs net w)

/-- The state of `collect` when its backward loop is over. -/
def collectAfterBackward (env : HarnessEnv) (F : Flags) (net : Net) (w : World) : World :=
  (List.range net.layers.length).reverse.foldl (fun w i => collect_backward_eff env F net i w)
    (collectAfterForward env F net w)

/-- The state of `collect` when its parameter loop is over. -/
def collectAfterParams (env : HarnessEnv) (F : Flags) (net : Net) (w : World) : World :=
  (List.range net.params.length).foldl (fun w j => collect_param_eff env F net j w)
    (collectAfterBackward env F net w)

/-- The state of `compare` when its forward loop is over. -/
def compareAfterForward (env : HarnessEnv) (F : Flags) (net : Net) (w : World) : World :=
  (List.range net.layers.length).foldl (fun w i => compare_forward_eff env F net i w)
    (zeroParamDiffs net w)

/-- The part of a dump path that tells target from reference dumps: with the
extension and the index digits taken off the end, the seven characters before
them, read backwards. -/
def pathTag (path : List Char) : List Char :=
  ((path.reverse.drop 4).dropWhile isDigit).take 7

/-- The paths of the reference dumps: those `compare` can build for a dump
role and an index of type `int` that is not negative. -/
def isRefPath (F : Flags) (p : String) : Prop :=
  ∃ r ∈ dumpRoles, ∃ i : Int, 0 ≤ i ∧ i < 2 ^ 31 ∧ p = refDumpPath F r i

/-- The calls that end `compare` as the spec words them: the offline
comparison on `CPUInfo.txt` of the output directory, then every key of the
error dictionary reported as failing, or the report that all layers work when
the dictionary is empty. -/
def compareReportSteps (env : HarnessEnv) (F : Flags) : List Step :=
  Step.proceedWithCompare (F.compare_output_dir ++ "/" ++ "CPUInfo.txt") ::
    (if (env.proceedWithCompare (F.compare_output_dir ++ "/" ++ "CPUInfo.txt")).length > 0 then
      (env.proceedWithCompare (F.compare_output_dir ++ "/" ++ "CPUInfo.txt")).map
        Step.report_invalid_layer
     else [Step.report_all_correct])

/-- The state in which the traversal of `compare` starts: the mode selected,
the output directory looked after, the info file opened. -/
def compareStart (env : HarnessEnv) (F : Flags) (gpus : List Int) (w : World) : World :=
  harness_opened env F.compare_output_dir (decide (gpus.length ≠ 0)) (harness_place gpus w)

/-- How a traversal ended, if it has. -/
def Exec.outcome : Exec → Option Outcome
  | Exec.running _ => none
  | Exec.halted _ o => some o

/-- The sample start state without any reference dump on disk. -/
def sampleWorldNoRef : World := { sampleWorld with files := fun _ => none }

/-- The sample start state with a reference dump `REFFwrd0000.bin` of two
bytes, shorter than the one-element output of layer 0. -/
def sampleWorldShortRef : World :=
  { sampleWorld with
    files := fun p => if p = "collect_out/REFFwrd0000.bin" then some [10, 11] else none }

/-- The sample environment on a disk where no file can be opened for writing. -/
def sampleHarnessEnvNoWrite : HarnessEnv :=
  { sampleHarnessEnv with
    fopen_write := fun p => decide (p = "compare_out/CPUInfo.txt")
    fopen_needs_dir := fun _ _ _ => Or.inl rfl }

/-- The calls that report the result of the comparison. -/
def Step.isReport : Step → Bool
  | Step.report_invalid_layer _ => true
  | Step.report_all_correct => true
  | _ => false

/-- The sample environment with an offline comparison that finds the layer
`ip1` failing. -/
def sampleHarnessEnvFailing : HarnessEnv :=
  { sampleHarnessEnv with proceedWithCompare := fun _ => ["ip1"] }

/-- The sample environment on a disk where the output directory does not exist
and cannot be created, so that no file in it can be opened. -/
def sampleHarnessEnvNoDir : HarnessEnv :=
  { sampleHarnessEnv with
    dir_exists := fun _ => false
    create_directory := fun _ => CreateResult.throws
    fopen_write := fun _ => false
    fopen_needs_dir := fun _ _ h => Bool.noConfusion h }

/-- A traversal that is still running or has ended in undefined behaviour:
the only ways the loops of `collect` and `compare` can go. -/
def Exec.runningOrUndefined (e : Exec) : Prop :=
  e.outcome = none ∨ e.outcome = some Outcome.undefined

/-- The calls that name an info file: opening the one the run writes, and
handing one to the offline comparison. -/
def Step.namesInfoFile : Step → Bool
  | Step.fopen_info _ => true
  | Step.proceedWithCompare _ => true
  | _ => false

/-- The sample environment with two devices. -/
def sampleHarnessEnvGpu : HarnessEnv := { sampleHarnessEnv with deviceCount := some 2 }

/-! ## Command registry and main -/

/-- The functions registered with `RegisterBrewFunction`. -/
inductive BrewFunction where
  | device_query
  | train
  | data_server
  | test
  | time
  | collect
  | compare
  deriving DecidableEq, Repr

/-- The map `g_brew_map` after the static registrations of the file, in the
order of the `RegisterBrewFunction` lines: each maps the name of a function to
the function. -/
def g_brew_map : List (String × BrewFunction) :=
  [("device_query", BrewFunction.device_query), ("train", BrewFunction.train),
   ("data_server", BrewFunction.data_server), ("test", BrewFunction.test),
   ("time", BrewFunction.time), ("collect", BrewFunction.collect),
   ("compare", BrewFunction.compare)]

/-- The function `GetBrewFunction(name)`: the registered function, or
`LOG(FATAL)` for a name that is not in the map. -/
def GetBrewFunction (name : String) : Res BrewFunction :=
  match g_brew_map.lookup name with
  | some f => Res.ok f
  | none => Res.fatal

/-- How a call of a command function ends: it returns a value, the process
ends inside it, or it throws the Python error `bp::error_already_set`. -/
inductive CallResult where
  | returned (ret : Int)
  | ended (o : Outcome)
  | python_error
  deriving DecidableEq, Repr

/-- The function `main`, after `GlobalInit` has taken the flags out of `argv`:
with exactly one positional argument the command of that name is called and its
value returned; a Python error is caught and turned into 1 in a build with
`WITH_PYTHON_LAYER`, and is an uncaught exception otherwise. With any other
number of arguments the usage is shown and 0 returned. -/
def main (WITH_PYTHON_LAYER : Bool) (call : BrewFunction → CallResult) (argv : List String) :
    Outcome :=
  match argv with
  | [_, name] =>
    match GetBrewFunction name with
    | Res.fatal => Outcome.fatal
    | Res.ok f =>
      match call f with
      | CallResult.returned ret => Outcome.exit ret
      | CallResult.ended o => o
      | CallResult.python_error =>
        if WITH_PYTHON_LAYER then Outcome.exit 1 else Outcome.fatal
  | _ => Outcome.exit 0

/-- The names of the seven commands. -/
def commandNames : List String :=
  ["train", "test", "time", "data_server", "device_query", "collect", "compare"]

/-! # Theorems -/

/-! ## Evaluations on concrete inputs -/

theorem get_gpus_examples :
    get_gpus none "0,2,5" [] = Res.ok [0, 2, 5] ∧
    get_gpus (some 3) "all" [] = Res.ok [0, 1, 2] ∧
    get_gpus (some 3) "0,,1" [] = Res.fatal ∧
    get_gpus (some 3) "0,a" [] = Res.fatal ∧
    get_gpus (some 1) "2147483648" [] = Res.fatal := by
  decide

theorem getFileName_examples :
    getFileName false "Fwrd" 4 = "REFFwrd0004.bin" ∧
    getFileName true "Bwrd" 12345 = "TGTBwrd12345.bin" ∧
    printf_04i (-5) = "-005".data ∧
    itoa (-120) = "-120".data := by
  decide

/-! ## Decimal digits -/

theorem digitOf_facts : ∀ d, d < 10 →
    isDigit (digitOf d) = true ∧ digitVal (digitOf d) = d ∧
    digitOf d ≠ ',' ∧ digitOf d ≠ '-' ∧ digitOf d ≠ '+' ∧ digitOf d ≠ 'a' := by
  decide

theorem utoaAux_acc (fuel : Nat) : ∀ (n : Nat) (acc : List Char),
    utoaAux fuel n acc = utoaAux fuel n [] ++ acc := by
  induction fuel with
  | zero => intro n acc; simp [utoaAux]
  | succ f ih =>
    intro n acc
    simp only [utoaAux]
    split
    · simp
    · rw [ih (n / 10) (digitOf (n % 10) :: acc), ih (n / 10) [digitOf (n % 10)]]
      simp

theorem utoaAux_fuel : ∀ (n f g : Nat) (acc : List Char), n < f → n < g →
    utoaAux f n acc = utoaAux g n acc := by
  intro n
  induction n using Nat.strong_induction_on with
  | _ n ih =>
    intro f g acc hf hg
    cases f with
    | zero => omega
    | succ f =>
      cases g with
      | zero => omega
      | succ g =>
        simp only [utoaAux]
        split
        · rfl
        · exact ih (n / 10) (by omega) f g _ (by omega) (by omega)

theorem utoa_small {n : Nat} (h : n < 10) : utoa n = [digitOf n] := by
  simp [utoa, utoaAux, h]

theorem utoa_step {n : Nat} (h : 10 ≤ n) :
    utoa n = utoa (n / 10) ++ [digitOf (n % 10)] := by
  have h1 : ¬ n < 10 := by omega
  unfold utoa
  rw [utoaAux, if_neg h1, utoaAux_acc]
  rw [utoaAux_fuel (n / 10) n (n / 10 + 1) [] (by omega) (by omega)]

theorem digitsValue_append (a : List Char) (c : Char) :
    digitsValue (a ++ [c]) = digitsValue a * 10 + digitVal c := by
  simp [digitsValue, List.foldl_append]

theorem digitsValue_utoa (n : Nat) : digitsValue (utoa n) = n := by
  induction n using Nat.strong_induction_on with
  | _ n ih =>
    by_cases h : n < 10
    · rw [utoa_small h]
      simp [digitsValue, (digitOf_facts n h).2.1]
    · rw [utoa_step (by omega), digitsValue_append, ih (n / 10) (by omega),
        (digitOf_facts (n % 10) (Nat.mod_lt _ (by omega))).2.1]
      omega

theorem utoa_all (p : Char → Prop) (hp : ∀ d, d < 10 → p (digitOf d)) (n : Nat) :
    ∀ c ∈ utoa n, p c := by
  induction n using Nat.strong_induction_on with
  | _ n ih =>
    by_cases h : n < 10
    · rw [utoa_small h]
      intro c hc
      simp at hc
      subst hc
      exact hp n h
    · rw [utoa_step (by omega)]
      intro c hc
      rcases List.mem_append.1 hc with h1 | h1
      · exact ih (n / 10) (by omega) c h1
      · simp at h1
        subst h1
        exact hp _ (Nat.mod_lt _ (by omega))

theorem utoa_ne_nil (n : Nat) : utoa n ≠ [] := by
  by_cases h : n < 10
  · rw [utoa_small h]; simp
  · rw [utoa_step (by omega)]; simp

theorem utoa_isDigit (n : Nat) : (utoa n).all isDigit = true := by
  rw [List.all_eq_true]
  exact utoa_all (fun c => isDigit c = true) (fun d hd => (digitOf_facts d hd).1) n

theorem lcast_ret_unsigned_utoa {n : Nat} (h : n < 2 ^ 32) :
    lcast_ret_unsigned (utoa n) = some n := by
  unfold lcast_ret_unsigned
  rw [if_neg (utoa_ne_nil n), if_pos (utoa_isDigit n), digitsValue_utoa, if_pos h]

theorem utoa_head (n : Nat) : ∃ d rest, d < 10 ∧ utoa n = digitOf d :: rest := by
  induction n using Nat.strong_induction_on with
  | _ n ih =>
    by_cases h : n < 10
    · exact ⟨n, [], h, utoa_small h⟩
    · obtain ⟨d, rest, hd, he⟩ := ih (n / 10) (by omega)
      exact ⟨d, rest ++ [digitOf (n % 10)], hd, by rw [utoa_step (by omega), he]; rfl⟩

theorem lexical_cast_int_itoa {v : Int} (hlo : -2 ^ 31 ≤ v) (hhi : v < 2 ^ 31) :
    lexical_cast_int (itoa v) = some v := by
  unfold itoa
  by_cases hneg : v < 0
  · rw [if_pos hneg]
    have hn : v.natAbs < 2 ^ 32 := by omega
    simp only [lexical_cast_int, true_or, if_true, lcast_ret_unsigned_utoa hn]
    have h2 : v.natAbs ≤ 2 ^ 31 := by omega
    rw [if_pos h2]
    congr 1
    omega
  · rw [if_neg hneg]
    obtain ⟨d, rest, hd, he⟩ := utoa_head v.toNat
    have hn : v.toNat < 2 ^ 32 := by omega
    have hu := lcast_ret_unsigned_utoa hn
    rw [he] at hu ⊢
    have f := digitOf_facts d hd
    simp only [lexical_cast_int, f.2.2.2.1, f.2.2.2.2.1, false_or, if_false, hu]
    have h2 : v.toNat ≤ 2 ^ 31 - 1 := by omega
    rw [if_pos h2]
    congr 1
    omega

/-! ## train: shape of a run -/

theorem train_dispatch_trace_cases (m : Bool) (F : Flags) (gpus : List Int) :
    (train_dispatch m F gpus).trace = [] ∨
    (train_dispatch m F gpus).trace = [Event.MlslSync_run] ∨
    (train_dispatch m F gpus).trace = [Event.SynchronousNode_run F.comm_threads] ∨
    (train_dispatch m F gpus).trace = [Event.P2PSync_Run gpus] ∨
    (train_dispatch m F gpus).trace = [Event.Solve] := by
  unfold train_dispatch
  by_cases h1 : F.param_server = ""
  · by_cases h2 : gpus.length > 1 <;> simp [h1, h2]
  · cases m
    · by_cases h3 : F.param_server = "mpi" <;> simp [h1, h3]
    · by_cases h3 : F.param_server = "mlsl" <;> simp [h1, h3]

theorem CopyLayers_inner_log (name : String) (k : Nat) (tr : List Event) :
    (List.range k).foldl (fun s j => logCopy (NetRef.test_net j) name s) tr =
      tr ++ (List.range k).map (fun j => Event.CopyTrainedLayersFrom (NetRef.test_net j) name) := by
  induction k with
  | zero => simp
  | succ k ih =>
    rw [List.range_succ, List.foldl_append, ih]
    simp [logCopy]

theorem CopyLayers_outer_log (k : Nat) (names : List String) (tr : List Event) :
    names.foldl
      (fun s name =>
        (List.range k).foldl (fun s j => logCopy (NetRef.test_net j) name s)
          (logCopy NetRef.net name s)) tr =
      tr ++ names.flatMap (copyEventsOf k) := by
  induction names generalizing tr with
  | nil => simp
  | cons n ns ih =>
    simp only [List.foldl_cons, List.flatMap_cons]
    rw [ih, CopyLayers_inner_log]
    simp [logCopy, copyEventsOf]

theorem CopyLayers_log (k : Nat) (model_list : String) (tr : List Event) :
    CopyLayers logCopy k model_list tr =
      tr ++ ((boost_split is_any_of_comma model_list.data).map String.mk).flatMap
        (copyEventsOf k) := by
  unfold CopyLayers
  exact CopyLayers_outer_log k _ tr

theorem restore_or_copy_mem (F : Flags) (k : Nat) (e : Event)
    (he : e ∈ restore_or_copy F k) :
    (e = Event.Restore F.snapshot ∧ F.snapshot.length ≠ 0) ∨
    ((∃ r n, e = Event.CopyTrainedLayersFrom r n) ∧ F.snapshot.length = 0 ∧
      F.weights.length ≠ 0) := by
  unfold restore_or_copy at he
  split at he
  · left
    simp at he
    exact ⟨he, by assumption⟩
  · split at he
    · right
      rw [CopyLayers_log] at he
      simp only [List.nil_append, List.mem_flatMap] at he
      obtain ⟨n, _, hn⟩ := he
      refine ⟨?_, by omega, by assumption⟩
      simp only [copyEventsOf, List.mem_cons, List.mem_map] at hn
      rcases hn with h | ⟨j, _, h⟩
      · exact ⟨_, _, h⟩
      · exact ⟨_, _, h.symm⟩
    · simp at he

theorem train_place_setup (sp : SolverParameter) (gpus : List Int) :
    ∀ e ∈ (train_place sp gpus).2, isSetup e = true := by
  cases gpus <;> simp [train_place, isSetup]

theorem train_run_eq (env : Env) (F : Flags) (sp : SolverParameter)
    (gpus : List Int) (a b : SolverAction)
    (hsolver : F.solver.length > 0)
    (hexcl : F.snapshot.length = 0 ∨ F.weights.length = 0)
    (hparse : env.ReadSolverParameter F.solver = some sp)
    (hgpus : get_gpus env.deviceCount
      (train_gpu_flag F.gpu (env.use_flags sp F.solver F.engine F.level F.stage)) [] =
        Res.ok gpus)
    (hint : GetRequestedAction F.sigint_effect = Res.ok a)
    (hhup : GetRequestedAction F.sighup_effect = Res.ok b) :
    train env F =
      ⟨[Event.ReadProtoFromTextFile F.solver] ++
          (train_place (env.use_flags sp F.solver F.engine F.level F.stage) gpus).2 ++
          [Event.SignalHandler a b,
           Event.CreateSolver
             (train_place (env.use_flags sp F.solver F.engine F.level F.stage) gpus).1,
           Event.SetActionFunction] ++
          restore_or_copy F (env.num_test_nets
            (train_place (env.use_flags sp F.solver F.engine F.level F.stage) gpus).1) ++
          (train_dispatch env.USE_MLSL F gpus).trace,
        (train_dispatch env.USE_MLSL F gpus).outcome⟩ := by
  unfold train
  rw [if_neg (not_not.2 hsolver), if_neg (not_not.2 hexcl)]
  simp only [hparse, hgpus, hint, hhup]

theorem train_reaches_dispatch (env : Env) (F : Flags) (sp : SolverParameter)
    (gpus : List Int) (a b : SolverAction)
    (hsolver : F.solver.length > 0)
    (hexcl : F.snapshot.length = 0 ∨ F.weights.length = 0)
    (hparse : env.ReadSolverParameter F.solver = some sp)
    (hgpus : get_gpus env.deviceCount
      (train_gpu_flag F.gpu (env.use_flags sp F.solver F.engine F.level F.stage)) [] =
        Res.ok gpus)
    (hint : GetRequestedAction F.sigint_effect = Res.ok a)
    (hhup : GetRequestedAction F.sighup_effect = Res.ok b) :
    ∃ pre, (∀ e ∈ pre, isStrategy e = false) ∧
      train env F = ⟨pre ++ (train_dispatch env.USE_MLSL F gpus).trace,
        (train_dispatch env.USE_MLSL F gpus).outcome⟩ := by
  rw [train_run_eq env F sp gpus a b hsolver hexcl hparse hgpus hint hhup]
  refine ⟨_, ?_, rfl⟩
  intro e he
  simp only [List.mem_append, List.mem_cons, List.mem_singleton, List.not_mem_nil,
    or_false] at he
  rcases he with ((h | h) | h) | h
  · subst h; rfl
  · have := train_place_setup _ _ e h
    cases e <;> simp_all [isSetup, isStrategy]
  · rcases h with h | h | h <;> subst h <;> rfl
  · rcases restore_or_copy_mem F _ e h with ⟨h1, _⟩ | ⟨⟨r, n, h1⟩, _⟩ <;> subst h1 <;> rfl

theorem string_length_zero (s : String) : s.length = 0 ↔ s = "" := by
  constructor
  · intro h
    apply String.ext
    exact List.length_eq_zero.1 h
  · intro h
    subst h
    rfl

theorem train_trace_shape (env : Env) (F : Flags) :
    ∃ pre mid post, (train env F).trace = pre ++ mid ++ post ∧
      (∀ e ∈ pre, isSetup e = true) ∧
      (mid = [] ∨ ∃ k, mid = restore_or_copy F k) ∧
      (post = [] ∨ ∃ gpus, post = (train_dispatch env.USE_MLSL F gpus).trace) := by
  have triv : ∀ tr : List Event, (∀ e ∈ tr, isSetup e = true) →
      ∃ pre mid post, tr = pre ++ mid ++ post ∧
      (∀ e ∈ pre, isSetup e = true) ∧
      (mid = [] ∨ ∃ k, mid = restore_or_copy F k) ∧
      (post = [] ∨ ∃ gpus, post = (train_dispatch env.USE_MLSL F gpus).trace) :=
    fun tr h => ⟨tr, [], [], by simp, h, Or.inl rfl, Or.inl rfl⟩
  unfold train
  split
  · exact triv _ (by simp)
  split
  · exact triv _ (by simp)
  split
  · split
    · exact triv _ (by simp [isSetup])
    · exact triv _ (by simp [isSetup])
  · rename_i parsed _
    dsimp only
    split
    · exact triv _ (by simp [isSetup])
    · rename_i gpus _
      have hplaced := train_place_setup
        (env.use_flags parsed F.solver F.engine F.level F.stage) gpus
      split
      · refine ⟨_, _, _, rfl, ?_, Or.inr ⟨_, rfl⟩, Or.inr ⟨_, rfl⟩⟩
        intro e he
        simp only [List.mem_append, List.mem_cons, List.mem_singleton, List.not_mem_nil,
          or_false] at he
        rcases he with (h | h) | h
        · subst h; rfl
        · exact hplaced e h
        · rcases h with h | h | h <;> subst h <;> rfl
      · apply triv
        intro e he
        simp only [List.mem_append, List.mem_cons, List.mem_singleton, List.not_mem_nil,
          or_false] at he
        rcases he with h | h
        · subst h; rfl
        · exact hplaced e h

theorem train_dispatch_transport (m : Bool) (F : Flags) (gpus : List Int)
    (h : F.param_server ≠ "") :
    ∀ e ∈ (train_dispatch m F gpus).trace,
      e = Event.MlslSync_run ∨ e = Event.SynchronousNode_run F.comm_threads := by
  unfold train_dispatch
  rw [if_pos h]
  cases m
  · by_cases h3 : F.param_server = "mpi" <;> simp [h3]
  · by_cases h3 : F.param_server = "mlsl" <;> simp [h3]

/-- C1. Strategy selection in `train`. With an empty transport string, a run
that reaches the strategy choice with resolved device set `gpus` runs exactly
`Solve()` when `gpus` has 0 or 1 entries and exactly `P2PSync::Run(gpus)`, with
the full device list in resolved order, when it has 2 or more; with a
non-empty transport string no run of `train`, whatever the device set, runs
`Solve()` or a peer-to-peer synchronizer. -/
theorem train_strategy_selection (env : Env) (F : Flags) :
    (∀ (sp : SolverParameter) (gpus : List Int) (a b : SolverAction),
      F.solver.length > 0 →
      (F.snapshot.length = 0 ∨ F.weights.length = 0) →
      env.ReadSolverParameter F.solver = some sp →
      get_gpus env.deviceCount
        (train_gpu_flag F.gpu (env.use_flags sp F.solver F.engine F.level F.stage)) [] =
          Res.ok gpus →
      GetRequestedAction F.sigint_effect = Res.ok a →
      GetRequestedAction F.sighup_effect = Res.ok b →
      F.param_server = "" →
      (gpus.length ≤ 1 → (train env F).trace.filter isStrategy = [Event.Solve]) ∧
      (2 ≤ gpus.length →
        (train env F).trace.filter isStrategy = [Event.P2PSync_Run gpus])) ∧
    (F.param_server ≠ "" →
      ∀ e ∈ (train env F).trace, e ≠ Event.Solve ∧ ∀ g, e ≠ Event.P2PSync_Run g) := by
  constructor
  · intro sp gpus a b h1 h2 h3 h4 h5 h6 hps
    obtain ⟨pre, hpre, htr⟩ := train_reaches_dispatch env F sp gpus a b h1 h2 h3 h4 h5 h6
    have hf : pre.filter isStrategy = [] := by
      rw [List.filter_eq_nil_iff]
      intro e he
      simp [hpre e he]
    rw [htr]
    simp only [List.filter_append, hf, List.nil_append]
    constructor
    · intro hl
      have : ¬ gpus.length > 1 := by omega
      simp [train_dispatch, hps, this, isStrategy]
    · intro hl
      have : gpus.length > 1 := by omega
      simp [train_dispatch, hps, this, isStrategy]
  · intro hps e he
    obtain ⟨pre, mid, post, htr, hpre, hmid, hpost⟩ := train_trace_shape env F
    rw [htr] at he
    simp only [List.mem_append] at he
    rcases he with (he | he) | he
    · have := hpre e he
      constructor
      · intro h; subst h; simp [isSetup] at this
      · intro g h; subst h; simp [isSetup] at this
    · rcases hmid with hmid | ⟨k, hmid⟩
      · subst hmid; simp at he
      · subst hmid
        rcases restore_or_copy_mem F k e he with ⟨h, _⟩ | ⟨⟨r, n, h⟩, _⟩ <;> subst h <;> simp
    · rcases hpost with hpost | ⟨gpus, hpost⟩
      · subst hpost; simp at he
      · subst hpost
        rcases train_dispatch_transport _ F gpus hps e he with h | h <;> subst h <;> simp

/-- Witness for C1: two devices and no transport give the peer-to-peer run. -/
theorem train_strategy_selection_witness :
    (train sampleEnv { solver := "s.prototxt", gpu := "0,1" }).trace.filter isStrategy =
      [Event.P2PSync_Run [0, 1]] :=
  ((train_strategy_selection sampleEnv { solver := "s.prototxt", gpu := "0,1" }).1
    ⟨SolverMode.CPU, none, 0⟩ [0, 1] SolverAction.STOP SolverAction.SNAPSHOT
    (by decide) (by decide) rfl (by decide) (by decide) (by decide) (by decide)).2
    (by decide)

/-- C2, as stated, fails in a build with `USE_MLSL`: for the compiled-in name
`mlsl` the one synchronizer run is `MlslSync`, built from the solver alone; the
communication-thread count does not reach it, and changing the count changes
nothing in the run. It also fails for a run that does not reach the strategy
choice: with a solver file that is a multi-phase definition, `train` hands over
to `multiphase_train` and returns its value, here 0, without looking at the
transport name, here `tcp`, which no build compiles in. -/
theorem train_transport_validation_counterexample :
    (train sampleEnvMlsl
        { solver := "s.prototxt", param_server := "mlsl", comm_threads := 4 }).trace.filter
      isStrategy = [Event.MlslSync_run] ∧
    train sampleEnvMlsl { solver := "s.prototxt", param_server := "mlsl", comm_threads := 4 } =
      train sampleEnvMlsl { solver := "s.prototxt", param_server := "mlsl", comm_threads := 8 } ∧
    train sampleEnvMultiPhase { solver := "s.prototxt", param_server := "tcp" } =
      ⟨[Event.ReadProtoFromTextFile "s.prototxt", Event.ReadProtoFromTextFile "s.prototxt",
        Event.multiphase_train "s.prototxt"], Outcome.exit 0⟩ := by
  decide

/-- C2, amended. For a run of `train` that reaches the strategy choice (the
solver file parses as a `SolverParameter`, the device set resolves, both signal
effects are valid) with a
non-empty transport name: if the name is the transport compiled into the build,
exactly one distributed synchronizer is run and `train` returns 0; the
synchronizer is `SynchronousNode` with the communication-thread count in the
default build (`mpi`) and `MlslSync`, without the count, in a `USE_MLSL` build
(`mlsl`). For every other non-empty name `train` returns 1 and runs no
synchronizer and no `Solve()`. -/
theorem train_transport_validation (env : Env) (F : Flags) (sp : SolverParameter)
    (gpus : List Int) (a b : SolverAction)
    (hsolver : F.solver.length > 0)
    (hexcl : F.snapshot.length = 0 ∨ F.weights.length = 0)
    (hparse : env.ReadSolverParameter F.solver = some sp)
    (hgpus : get_gpus env.deviceCount
      (train_gpu_flag F.gpu (env.use_flags sp F.solver F.engine F.level F.stage)) [] =
        Res.ok gpus)
    (hint : GetRequestedAction F.sigint_effect = Res.ok a)
    (hhup : GetRequestedAction F.sighup_effect = Res.ok b)
    (hps : F.param_server ≠ "") :
    (F.param_server = compiledTransport env.USE_MLSL →
      (train env F).trace.filter isStrategy =
        [if env.USE_MLSL then Event.MlslSync_run
         else Event.SynchronousNode_run F.comm_threads] ∧
      (train env F).outcome = Outcome.exit 0) ∧
    (F.param_server ≠ compiledTransport env.USE_MLSL →
      (train env F).trace.filter isStrategy = [] ∧
      (train env F).outcome = Outcome.exit 1) := by
  obtain ⟨pre, hpre, htr⟩ :=
    train_reaches_dispatch env F sp gpus a b hsolver hexcl hparse hgpus hint hhup
  have hf : pre.filter isStrategy = [] := by
    rw [List.filter_eq_nil_iff]
    intro e he
    simp [hpre e he]
  rw [htr]
  simp only [List.filter_append, hf, List.nil_append]
  cases hm : env.USE_MLSL
  · constructor
    · intro h
      have h3 : F.param_server = "mpi" := by simpa [compiledTransport] using h
      simp [train_dispatch, h3, isStrategy]
    · intro h
      have h3 : F.param_server ≠ "mpi" := by simpa [compiledTransport] using h
      simp [train_dispatch, hps, h3]
  · constructor
    · intro h
      have h3 : F.param_server = "mlsl" := by simpa [compiledTransport] using h
      simp [train_dispatch, h3, isStrategy]
    · intro h
      have h3 : F.param_server ≠ "mlsl" := by simpa [compiledTransport] using h
      simp [train_dispatch, hps, h3]

/-- Witness for C2: the default build with `--param_server=mpi` and four
communication threads. -/
theorem train_transport_validation_witness :
    (train sampleEnv
        { solver := "s.prototxt", param_server := "mpi", comm_threads := 4 }).trace.filter
      isStrategy = [Event.SynchronousNode_run 4] ∧
    (train sampleEnv
        { solver := "s.prototxt", param_server := "mpi", comm_threads := 4 }).outcome =
      Outcome.exit 0 :=
  (train_transport_validation sampleEnv
    { solver := "s.prototxt", param_server := "mpi", comm_threads := 4 }
    ⟨SolverMode.CPU, none, 0⟩ [] SolverAction.STOP SolverAction.SNAPSHOT
    (by decide) (by decide) rfl (by decide) (by decide) (by decide) (by decide)).1
    (by decide)

/-! ## Restore / weights exclusivity -/

theorem data_server_trace_shape (env : Env) (F : Flags) :
    ∃ pre mid post, (data_server env F).trace = pre ++ mid ++ post ∧
      (∀ e ∈ pre, ∀ p r n, e ≠ Event.Restore p ∧ e ≠ Event.CopyTrainedLayersFrom r n) ∧
      (mid = [] ∨ ∃ k, mid = restore_or_copy F k) ∧
      (∀ e ∈ post, ∀ p r n, e ≠ Event.Restore p ∧ e ≠ Event.CopyTrainedLayersFrom r n) := by
  have triv : ∀ tr : List Event,
      (∀ e ∈ tr, ∀ p r n, e ≠ Event.Restore p ∧ e ≠ Event.CopyTrainedLayersFrom r n) →
      ∃ pre mid post, tr = pre ++ mid ++ post ∧
      (∀ e ∈ pre, ∀ p r n, e ≠ Event.Restore p ∧ e ≠ Event.CopyTrainedLayersFrom r n) ∧
      (mid = [] ∨ ∃ k, mid = restore_or_copy F k) ∧
      (∀ e ∈ post, ∀ p r n, e ≠ Event.Restore p ∧ e ≠ Event.CopyTrainedLayersFrom r n) :=
    fun tr h => ⟨tr, [], [], by simp, h, Or.inl rfl, by simp⟩
  unfold data_server
  split
  · exact triv _ (by simp)
  split
  · exact triv _ (by simp)
  split
  · exact triv _ (by simp)
  · dsimp only
    split
    · exact ⟨_, _, _, rfl, by simp, Or.inr ⟨_, rfl⟩, by simp⟩
    · exact triv _ (by simp)

/-- In a run of `train` or `data_server`, a restore or transplant event comes
from the restore step of the command. -/
theorem restore_events_origin (env : Env) (F : Flags) (run : Run)
    (hrun : run = train env F ∨ run = data_server env F) (e : Event)
    (he : e ∈ run.trace)
    (hk : (∃ p, e = Event.Restore p) ∨ ∃ r n, e = Event.CopyTrainedLayersFrom r n) :
    ∃ k, e ∈ restore_or_copy F k := by
  rcases hrun with hrun | hrun
  · subst hrun
    obtain ⟨pre, mid, post, htr, hpre, hmid, hpost⟩ := train_trace_shape env F
    rw [htr] at he
    simp only [List.mem_append] at he
    rcases he with (he | he) | he
    · have := hpre e he
      rcases hk with ⟨p, h⟩ | ⟨r, n, h⟩ <;> subst h <;> simp [isSetup] at this
    · rcases hmid with hmid | ⟨k, hmid⟩
      · subst hmid; simp at he
      · exact ⟨k, hmid ▸ he⟩
    · rcases hpost with hpost | ⟨gpus, hpost⟩
      · subst hpost; simp at he
      · subst hpost
        rcases train_dispatch_trace_cases env.USE_MLSL F gpus with h | h | h | h | h <;>
          rw [h] at he <;> simp at he <;> subst he <;>
          rcases hk with ⟨p, h⟩ | ⟨r, n, h⟩ <;> simp at h
  · subst hrun
    obtain ⟨pre, mid, post, htr, hpre, hmid, hpost⟩ := data_server_trace_shape env F
    rw [htr] at he
    simp only [List.mem_append] at he
    rcases he with (he | he) | he
    · rcases hk with ⟨p, h⟩ | ⟨r, n, h⟩
      · exact absurd h (hpre e he p NetRef.net "").1
      · exact absurd h (hpre e he "" r n).2
    · rcases hmid with hmid | ⟨k, hmid⟩
      · subst hmid; simp at he
      · exact ⟨k, hmid ▸ he⟩
    · rcases hk with ⟨p, h⟩ | ⟨r, n, h⟩
      · exact absurd h (hpost e he p NetRef.net "").1
      · exact absurd h (hpost e he "" r n).2

/-- C3. Restore/weights exclusivity. When both the checkpoint path and the
weights list are non-empty, `train` and `data_server` end fatally with an empty
trace: before the solver configuration is parsed and before a solver is
constructed. In every run of either command, `Restore` is called only with the
checkpoint path and only when that path is non-empty, a transplant call is made
only when the checkpoint path is empty and the weights list is non-empty, and
no run contains both. -/
theorem restore_weights_exclusive (env : Env) (F : Flags) (run : Run)
    (hrun : run = train env F ∨ run = data_server env F) :
    (F.snapshot ≠ "" → F.weights ≠ "" → run = ⟨[], Outcome.fatal⟩) ∧
    (∀ p, Event.Restore p ∈ run.trace → p = F.snapshot ∧ F.snapshot ≠ "") ∧
    (∀ r n, Event.CopyTrainedLayersFrom r n ∈ run.trace →
      F.snapshot = "" ∧ F.weights ≠ "") ∧
    ¬ ((∃ p, Event.Restore p ∈ run.trace) ∧
       ∃ r n, Event.CopyTrainedLayersFrom r n ∈ run.trace) := by
  have hR : ∀ p, Event.Restore p ∈ run.trace → p = F.snapshot ∧ F.snapshot ≠ "" := by
    intro p hp
    obtain ⟨k, hk⟩ := restore_events_origin env F run hrun _ hp (Or.inl ⟨p, rfl⟩)
    rcases restore_or_copy_mem F k _ hk with ⟨h1, h2⟩ | ⟨⟨r, n, h1⟩, _⟩
    · exact ⟨by simpa using h1, fun h => h2 ((string_length_zero _).2 h)⟩
    · simp at h1
  have hC : ∀ r n, Event.CopyTrainedLayersFrom r n ∈ run.trace →
      F.snapshot = "" ∧ F.weights ≠ "" := by
    intro r n hp
    obtain ⟨k, hk⟩ := restore_events_origin env F run hrun _ hp (Or.inr ⟨r, n, rfl⟩)
    rcases restore_or_copy_mem F k _ hk with ⟨h1, _⟩ | ⟨_, h2, h3⟩
    · simp at h1
    · exact ⟨(string_length_zero _).1 h2, fun h => h3 ((string_length_zero _).2 h)⟩
  refine ⟨?_, hR, hC, ?_⟩
  · intro hs hw
    have hs1 : F.snapshot.length ≠ 0 := fun h => hs ((string_length_zero _).1 h)
    have hw1 : F.weights.length ≠ 0 := fun h => hw ((string_length_zero _).1 h)
    have hboth : ¬ (F.snapshot.length = 0 ∨ F.weights.length = 0) := by
      intro h; rcases h with h | h
      · exact hs1 h
      · exact hw1 h
    rcases hrun with hrun | hrun <;> subst hrun
    · unfold train
      by_cases h0 : F.solver.length > 0
      · rw [if_neg (not_not.2 h0), if_pos hboth]
      · rw [if_pos h0]
    · unfold data_server
      by_cases h0 : F.solver.length > 0
      · rw [if_neg (not_not.2 h0), if_pos hboth]
      · rw [if_pos h0]
  · rintro ⟨⟨p, hp⟩, r, n, hc⟩
    exact (hR p hp).2 (hC r n hc).1

/-- Witness for C3: `train` with both a checkpoint and weights. -/
theorem restore_weights_exclusive_witness :
    train sampleEnv { solver := "s.prototxt", snapshot := "it.solverstate", weights := "w" } =
      ⟨[], Outcome.fatal⟩ :=
  (restore_weights_exclusive sampleEnv
    { solver := "s.prototxt", snapshot := "it.solverstate", weights := "w" } _
    (Or.inl rfl)).1 (by decide) (by decide)

/-! ## Signal mapping -/

theorem mem_of_mem_takeWhile_not (q : Event → Bool) (x : Event) (hq : q x = true)
    (post : List Event) (e : Event) :
    ∀ pre : List Event, e ∈ (pre ++ x :: post).takeWhile (fun y => !q y) → e ∈ pre := by
  intro pre
  induction pre with
  | nil => intro h; simp [List.takeWhile, hq] at h
  | cons c cs ih =>
    intro h
    rw [List.cons_append, List.takeWhile_cons] at h
    split at h
    · rcases List.mem_cons.1 h with h1 | h1
      · exact h1 ▸ List.mem_cons_self _ _
      · exact List.mem_cons_of_mem _ (ih h1)
    · simp at h

theorem train_createSolver_inv (env : Env) (F : Flags) (p : SolverParameter)
    (hp : Event.CreateSolver p ∈ (train env F).trace) :
    ∃ sp gpus a b, F.solver.length > 0 ∧
      (F.snapshot.length = 0 ∨ F.weights.length = 0) ∧
      env.ReadSolverParameter F.solver = some sp ∧
      get_gpus env.deviceCount
        (train_gpu_flag F.gpu (env.use_flags sp F.solver F.engine F.level F.stage)) [] =
          Res.ok gpus ∧
      GetRequestedAction F.sigint_effect = Res.ok a ∧
      GetRequestedAction F.sighup_effect = Res.ok b := by
  unfold train at hp
  split at hp
  · simp at hp
  rename_i h1
  split at hp
  · simp at hp
  rename_i h2
  split at hp
  · split at hp <;> simp at hp
  · rename_i parsed hparse
    dsimp only at hp
    split at hp
    · simp at hp
    · rename_i gpus hgpus
      split at hp
      · rename_i a b ha hb
        exact ⟨parsed, gpus, a, b, not_not.1 h1, not_not.1 h2, hparse, hgpus, ha, hb⟩
      · exfalso
        simp only [List.mem_append, List.mem_cons, List.mem_singleton, List.not_mem_nil,
          or_false] at hp
        rcases hp with h | h
        · simp at h
        · have := train_place_setup _ _ _ h
          cases gpus <;> simp [train_place] at h

/-- C5. Signal mapping. `GetRequestedAction` maps `"stop"`, `"snapshot"` and
`"none"` to `STOP`, `SNAPSHOT` and `NONE`; every other string (the empty
string, other letter case, surrounding blanks) is fatal; `UNKNOWN` is never a
result. In `train`, wherever the solver is constructed, both the SIGINT and the
SIGHUP string have been resolved through this mapping and the signal handler
built from the two results comes earlier in the run. -/
theorem signal_mapping (env : Env) (F : Flags) :
    GetRequestedAction "stop" = Res.ok SolverAction.STOP ∧
    GetRequestedAction "snapshot" = Res.ok SolverAction.SNAPSHOT ∧
    GetRequestedAction "none" = Res.ok SolverAction.NONE ∧
    (∀ s, s ≠ "stop" → s ≠ "snapshot" → s ≠ "none" → GetRequestedAction s = Res.fatal) ∧
    (∀ s, GetRequestedAction s ≠ Res.ok SolverAction.UNKNOWN) ∧
    (∀ pre p post, (train env F).trace = pre ++ Event.CreateSolver p :: post →
      ∃ a b, GetRequestedAction F.sigint_effect = Res.ok a ∧
        GetRequestedAction F.sighup_effect = Res.ok b ∧
        Event.SignalHandler a b ∈ pre) := by
  refine ⟨by decide, by decide, by decide, ?_, ?_, ?_⟩
  · intro s h1 h2 h3
    simp [GetRequestedAction, h1, h2, h3]
  · intro s
    unfold GetRequestedAction
    split
    · simp
    split
    · simp
    split <;> simp
  · intro pre p post htr
    have hmem : Event.CreateSolver p ∈ (train env F).trace := by
      rw [htr]; simp
    obtain ⟨sp, gpus, a, b, h1, h2, h3, h4, h5, h6⟩ := train_createSolver_inv env F p hmem
    refine ⟨a, b, h5, h6, ?_⟩
    apply mem_of_mem_takeWhile_not isCreateSolver (Event.CreateSolver p) rfl post
    rw [← htr, train_run_eq env F sp gpus a b h1 h2 h3 h4 h5 h6]
    dsimp only
    have hpre : ∀ e ∈ [Event.ReadProtoFromTextFile F.solver] ++
        (train_place (env.use_flags sp F.solver F.engine F.level F.stage) gpus).2,
        (fun y => !isCreateSolver y) e = true := by
      intro e he
      rcases List.mem_append.1 he with h | h
      · simp at h; subst h; rfl
      · cases gpus <;> simp [train_place] at h
        · subst h; rfl
        · rcases h with h | h | h <;> subst h <;> rfl
    simp only [List.append_assoc]
    rw [← List.append_assoc, List.takeWhile_append_of_pos hpre]
    simp [List.takeWhile, isCreateSolver]

/-- Witness for C5: capitalised, padded and empty signal strings are fatal. -/
theorem signal_mapping_witness :
    GetRequestedAction "Stop" = Res.fatal ∧ GetRequestedAction " stop" = Res.fatal ∧
      GetRequestedAction "" = Res.fatal :=
  ⟨(signal_mapping sampleEnv {}).2.2.2.1 "Stop" (by decide) (by decide) (by decide),
   (signal_mapping sampleEnv {}).2.2.2.1 " stop" (by decide) (by decide) (by decide),
   (signal_mapping sampleEnv {}).2.2.2.1 "" (by decide) (by decide) (by decide)⟩

/-! ## Splitting and joining -/

theorem boost_split_ne_nil (p : Char → Bool) (cs : List Char) : boost_split p cs ≠ [] := by
  cases cs with
  | nil => simp [boost_split]
  | cons c cs =>
    unfold boost_split
    split
    · simp
    · split <;> simp

theorem boost_split_token (p : Char → Bool) (t : List Char)
    (ht : ∀ c ∈ t, p c = false) : boost_split p t = [t] := by
  induction t with
  | nil => rfl
  | cons c cs ih =>
    have hc : p c = false := ht c (List.mem_cons_self _ _)
    have := ih (fun x hx => ht x (List.mem_cons_of_mem _ hx))
    simp [boost_split, hc, this]

theorem boost_split_append (p : Char → Bool) (d : Char) (hd : p d = true)
    (t rest : List Char) (ht : ∀ c ∈ t, p c = false) :
    boost_split p (t ++ d :: rest) = t :: boost_split p rest := by
  induction t with
  | nil => simp [boost_split, hd]
  | cons c cs ih =>
    have hc : p c = false := ht c (List.mem_cons_self _ _)
    have := ih (fun x hx => ht x (List.mem_cons_of_mem _ hx))
    simp [boost_split, hc, this]

theorem boost_split_joinWith (p : Char → Bool) (d : Char) (hd : p d = true) :
    ∀ ts : List (List Char), ts ≠ [] → (∀ t ∈ ts, ∀ c ∈ t, p c = false) →
      boost_split p (joinWith d ts) = ts := by
  intro ts
  induction ts with
  | nil => intro h; exact absurd rfl h
  | cons t rest ih =>
    intro _ hts
    cases rest with
    | nil => exact boost_split_token p t (hts t (List.mem_cons_self _ _))
    | cons t' ts' =>
      rw [joinWith, boost_split_append p d hd t _ (hts t (List.mem_cons_self _ _)),
        ih (by simp) (fun x hx => hts x (List.mem_cons_of_mem _ hx))]

theorem split_joinComma (names : List String) (hne : names ≠ [])
    (hcomma : ∀ n ∈ names, ',' ∉ n.data) :
    (boost_split is_any_of_comma (joinComma names).data).map String.mk = names := by
  unfold joinComma
  rw [boost_split_joinWith is_any_of_comma ',' rfl]
  · rw [List.map_map]
    conv_rhs => rw [← List.map_id names]
    apply List.map_congr_left
    intro a _
    rfl
  · simpa using hne
  · intro t ht c hc
    simp only [List.mem_map] at ht
    obtain ⟨n, hn, rfl⟩ := ht
    have : c ≠ ',' := fun h => hcomma n hn (h ▸ hc)
    simp [is_any_of_comma, this]

/-! ## Weight transplant -/

theorem modify_at_length {α : Type} (f : α → α) (a : α) (l2 : List α) :
    ∀ l1 : List α, List.modify f l1.length (l1 ++ a :: l2) = l1 ++ f a :: l2 := by
  intro l1
  induction l1 with
  | nil => simp
  | cons c cs ih => simp [ih]

theorem applyCopy_inner {V : Type} (models : String → String → Option V) (name : String)
    (s : SolverNets V) : ∀ m, m ≤ s.test_nets.length →
    (List.range m).foldl (fun s j => applyCopy models (NetRef.test_net j) name s) s =
      { net := s.net,
        test_nets := (s.test_nets.take m).map (overwriteLayers (models name)) ++
          s.test_nets.drop m } := by
  intro m
  induction m with
  | zero => intro _; simp
  | succ m ih =>
    intro hm
    have hlt : m < s.test_nets.length := hm
    rw [List.range_succ, List.foldl_append, ih (by omega)]
    simp only [List.foldl_cons, List.foldl_nil, applyCopy]
    congr 1
    rw [List.drop_eq_getElem_cons hlt]
    have hlen : ((s.test_nets.take m).map (overwriteLayers (models name))).length = m := by
      simp [Nat.min_eq_left (Nat.le_of_lt hlt)]
    have := modify_at_length (overwriteLayers (models name)) s.test_nets[m]
      (s.test_nets.drop (m + 1)) ((s.test_nets.take m).map (overwriteLayers (models name)))
    rw [hlen] at this
    rw [this]
    have e : List.take (m + 1) s.test_nets = List.take m s.test_nets ++ [s.test_nets[m]] := by
      rw [List.take_succ, List.getElem?_eq_getElem hlt]
      rfl
    rw [e, List.map_append]
    simp

theorem applyCopy_step {V : Type} (models : String → String → Option V) (name : String)
    (s : SolverNets V) :
    (List.range s.test_nets.length).foldl
        (fun s j => applyCopy models (NetRef.test_net j) name s)
        (applyCopy models NetRef.net name s) =
      { net := overwriteLayers (models name) s.net,
        test_nets := s.test_nets.map (overwriteLayers (models name)) } := by
  have := applyCopy_inner models name (applyCopy models NetRef.net name s)
    s.test_nets.length (Nat.le_refl _)
  simp only [applyCopy] at this ⊢
  rw [this]
  simp

theorem applyCopy_outer {V : Type} (models : String → String → Option V) :
    ∀ (names : List String) (s : SolverNets V) (k : Nat), k = s.test_nets.length →
    names.foldl
      (fun s name =>
        (List.range k).foldl (fun s j => applyCopy models (NetRef.test_net j) name s)
          (applyCopy models NetRef.net name s)) s =
      { net := names.foldl (fun net name => overwriteLayers (models name) net) s.net,
        test_nets := s.test_nets.map
          (fun t => names.foldl (fun net name => overwriteLayers (models name) net) t) } := by
  intro names
  induction names with
  | nil => intro s k _; simp
  | cons n ns ih =>
    intro s k hk
    subst hk
    rw [List.foldl_cons, applyCopy_step, ih _ _ (by simp)]
    simp [List.map_map, Function.comp_def]

theorem foldl_overwrite_lastWins {V : Type} (models : String → String → Option V)
    (L : String) (net : String → V) (names : List String) :
    names.foldl (fun net name => overwriteLayers (models name) net) net L =
      lastWins models names L (net L) := by
  induction names using List.reverseRecOn with
  | nil => simp [lastWins]
  | append_singleton ns n ih =>
    rw [List.foldl_append]
    simp only [List.foldl_cons, List.foldl_nil, overwriteLayers, lastWins,
      List.reverse_append, List.reverse_cons, List.reverse_nil, List.nil_append,
      List.singleton_append, List.find?_cons]
    cases h : models n L with
    | some v => simp [h]
    | none =>
      simp only [Option.isSome_none]
      rw [ih]
      rfl

/-- C4. Weight transplant order. For a comma-separated list of sources
`s1,...,sn`, `CopyLayers` calls `CopyTrainedLayersFrom(si)` on the primary
network and then on each test network in index order, for `i = 1..n` in listed
order. With each call overwriting exactly the layers its source defines, every
layer of the primary network and of each test network ends with the value given
by the last listed source that defines it, and keeps its value when none does. -/
theorem CopyLayers_order_last_wins {V : Type} (models : String → String → Option V)
    (names : List String) (hne : names ≠ []) (hcomma : ∀ n ∈ names, ',' ∉ n.data)
    (s : SolverNets V) (k : Nat) (tr : List Event) :
    CopyLayers logCopy k (joinComma names) tr = tr ++ names.flatMap (copyEventsOf k) ∧
    (∀ L, (CopyLayers (applyCopy models) s.test_nets.length (joinComma names) s).net L =
      lastWins models names L (s.net L)) ∧
    (∀ (j : Nat) (L : String),
      ((CopyLayers (applyCopy models) s.test_nets.length (joinComma names) s).test_nets[j]?).map
          (fun (t : String → V) => t L) =
        (s.test_nets[j]?).map (fun (t : String → V) => lastWins models names L (t L))) := by
  refine ⟨?_, ?_, ?_⟩
  · rw [CopyLayers_log, split_joinComma names hne hcomma]
  · intro L
    unfold CopyLayers
    simp only [split_joinComma names hne hcomma]
    rw [applyCopy_outer models names s _ rfl]
    exact foldl_overwrite_lastWins models L s.net names
  · intro j L
    unfold CopyLayers
    simp only [split_joinComma names hne hcomma]
    rw [applyCopy_outer models names s _ rfl]
    simp only [List.getElem?_map, Option.map_map]
    congr 1
    funext t
    exact foldl_overwrite_lastWins models L t names

/-- Witness for C4: sources `A,B` both defining `L`; the primary network ends
with the value of `B`. -/
theorem CopyLayers_order_last_wins_witness :
    (CopyLayers (applyCopy sampleModels) 1 "A,B"
      ⟨fun _ => 0, [fun _ => 0]⟩).net "L" = 3 :=
  (CopyLayers_order_last_wins sampleModels ["A", "B"] (by decide) (by decide)
    ⟨fun _ => 0, [fun _ => 0]⟩ 0 []).2.1 "L"

/-! ## Device resolver -/

theorem push_range (count : Nat) (gpus : List Int) :
    (List.range count).foldl (fun g (i : Nat) => g ++ [(i : Int)]) gpus =
      gpus ++ (List.range count).map (fun (i : Nat) => (i : Int)) := by
  induction count with
  | zero => simp
  | succ k ih =>
    rw [List.range_succ, List.foldl_append, ih]
    simp

theorem push_tokens_itoa (ids : List Int) (hfit : ∀ d ∈ ids, fitsInt32 d) :
    ∀ gpus, push_tokens (ids.map itoa) gpus = Res.ok (gpus ++ ids) := by
  induction ids with
  | nil => intro gpus; simp [push_tokens]
  | cons d ds ih =>
    intro gpus
    have hd := hfit d (List.mem_cons_self _ _)
    simp only [List.map_cons, push_tokens, lexical_cast_int_itoa hd.1 hd.2]
    rw [ih (fun x hx => hfit x (List.mem_cons_of_mem _ hx))]
    simp

theorem itoa_no_comma (v : Int) : ∀ c ∈ itoa v, is_any_of_comma c = false := by
  have hu : ∀ n : Nat, ∀ c ∈ utoa n, is_any_of_comma c = false :=
    fun n => utoa_all (fun c => is_any_of_comma c = false)
      (fun d hd => by simp [is_any_of_comma, (digitOf_facts d hd).2.2.1]) n
  unfold itoa
  split
  · intro c hc
    rcases List.mem_cons.1 hc with h | h
    · subst h; decide
    · exact hu _ c h
  · exact hu _

theorem itoa_head (v : Int) : ∃ c rest, itoa v = c :: rest ∧ c ≠ 'a' := by
  unfold itoa
  split
  · exact ⟨'-', _, rfl, by decide⟩
  · obtain ⟨d, rest, hd, he⟩ := utoa_head v.toNat
    exact ⟨digitOf d, rest, he, (digitOf_facts d hd).2.2.2.2.2⟩

theorem joinWith_head (d : Char) (t : List Char) (ts : List (List Char)) (c : Char)
    (rest : List Char) (ht : t = c :: rest) :
    ∃ rest', joinWith d (t :: ts) = c :: rest' := by
  subst ht
  cases ts with
  | nil => exact ⟨rest, rfl⟩
  | cons t' ts' => exact ⟨_, rfl⟩

theorem deviceSpec_cons (d : Int) (ds : List Int) :
    deviceSpec (d :: ds) ≠ "all" ∧ (deviceSpec (d :: ds)).length ≠ 0 := by
  obtain ⟨c, rest, hc, hne⟩ := itoa_head d
  obtain ⟨rest', hj⟩ := joinWith_head ',' (itoa d) (ds.map itoa) c rest hc
  unfold deviceSpec
  rw [List.map_cons, hj]
  constructor
  · intro h
    have h2 := congrArg String.data h
    have h3 : c = 'a' := by
      have : (c :: rest') = ['a', 'l', 'l'] := h2
      exact (List.cons.inj this).1
    exact hne h3
  · simp [String.length]

theorem get_gpus_empty (deviceCount : Option Nat) :
    get_gpus deviceCount "" [] = Res.ok [] := by
  unfold get_gpus
  rw [if_neg (by decide), if_neg (by decide), if_pos (by decide)]

theorem get_gpus_all (count : Nat) :
    get_gpus (some count) "all" [] =
      Res.ok ((List.range count).map (fun (i : Nat) => (i : Int))) := by
  have h : get_gpus (some count) "all" [] =
      Res.ok ((List.range count).foldl (fun g (i : Nat) => g ++ [(i : Int)]) []) := by
    simp [get_gpus]
  rw [h, push_range]
  simp

theorem get_gpus_deviceSpec (deviceCount : Option Nat) (ids : List Int)
    (hfit : ∀ d ∈ ids, fitsInt32 d) :
    get_gpus deviceCount (deviceSpec ids) [] = Res.ok ids := by
  cases ids with
  | nil => exact get_gpus_empty deviceCount
  | cons d ds =>
    obtain ⟨h1, h2⟩ := deviceSpec_cons d ds
    unfold get_gpus
    rw [if_neg h1, if_pos h2]
    have hs : boost_split is_any_of_comma (deviceSpec (d :: ds)).data =
        (d :: ds).map itoa := by
      unfold deviceSpec
      apply boost_split_joinWith is_any_of_comma ',' rfl
      · simp
      · intro t ht
        obtain ⟨v, _, rfl⟩ := List.mem_map.1 ht
        exact itoa_no_comma v
    rw [hs, push_tokens_itoa _ hfit]
    simp

/-- C6. Device spec parsing. Called with an empty output list, `get_gpus` gives
the empty list for the empty spec, `[0, 1, ..., count-1]` for the spec `all`
when the device-count query answers `count`, and for the comma-separated
decimal list of any `int` identifiers `d1,...,dn` exactly `[d1,...,dn]`, in the
same order and of the same length. -/
theorem get_gpus_parsing (deviceCount : Option Nat) (count : Nat) (ids : List Int)
    (hfit : ∀ d ∈ ids, fitsInt32 d) :
    get_gpus deviceCount "" [] = Res.ok [] ∧
    get_gpus (some count) "all" [] = Res.ok ((List.range count).map (fun (i : Nat) => (i : Int))) ∧
    get_gpus deviceCount (deviceSpec ids) [] = Res.ok ids ∧
    get_gpus deviceCount "0,2,5" [] = Res.ok [0, 2, 5] := by
  refine ⟨get_gpus_empty deviceCount, get_gpus_all count,
    get_gpus_deviceSpec deviceCount ids hfit, ?_⟩
  have h := get_gpus_deviceSpec deviceCount [0, 2, 5] (by decide)
  have hs : deviceSpec [0, 2, 5] = "0,2,5" := by decide
  rwa [hs] at h

/-- Witness for C6: the spec of the identifiers 0, 2, 5. -/
theorem get_gpus_parsing_witness :
    get_gpus (some 8) (deviceSpec [0, 2, 5]) [] = Res.ok [0, 2, 5] :=
  (get_gpus_parsing (some 8) 8 [0, 2, 5] (by decide)).2.2.1

theorem push_tokens_fatal_iff (ts : List (List Char)) :
    ∀ gpus, push_tokens ts gpus = Res.fatal ↔ ∃ t ∈ ts, lexical_cast_int t = none := by
  induction ts with
  | nil => intro gpus; simp [push_tokens]
  | cons t rest ih =>
    intro gpus
    unfold push_tokens
    cases h : lexical_cast_int t with
    | none => simp [h]
    | some d => simp [h, ih]

theorem push_tokens_ok (ts : List (List Char)) :
    ∀ gpus g, push_tokens ts gpus = Res.ok g →
      ∃ vals, g = gpus ++ vals ∧ ts.map lexical_cast_int = vals.map some := by
  induction ts with
  | nil =>
    intro gpus g h
    simp only [push_tokens, Res.ok.injEq] at h
    exact ⟨[], by simp [h], rfl⟩
  | cons t rest ih =>
    intro gpus g h
    unfold push_tokens at h
    cases ht : lexical_cast_int t with
    | none => simp [ht] at h
    | some d =>
      simp only [ht] at h
      obtain ⟨vals, hg, hv⟩ := ih _ _ h
      exact ⟨d :: vals, by simp [hg], by simp [ht, hv]⟩

theorem lcast_ret_unsigned_nondigit (cs : List Char) (c : Char) (hc : c ∈ cs)
    (hd : isDigit c = false) : lcast_ret_unsigned cs = none := by
  unfold lcast_ret_unsigned
  split
  · rfl
  · have : ¬ (cs.all isDigit = true) := by
      rw [List.all_eq_true]
      intro h
      have := h c hc
      simp [hd] at this
    rw [if_neg this]

theorem lexical_cast_int_invalid (t : List Char)
    (h : t = [] ∨ ∃ c ∈ t, isDigit c = false ∧ c ≠ '-' ∧ c ≠ '+') :
    lexical_cast_int t = none := by
  rcases h with h | ⟨c, hc, hd, hm, hp⟩
  · subst h; rfl
  · cases t with
    | nil => simp at hc
    | cons c0 rest =>
      have hbody : lcast_ret_unsigned (if c0 = '-' ∨ c0 = '+' then rest else c0 :: rest) =
          none := by
        apply lcast_ret_unsigned_nondigit _ c _ hd
        rcases List.mem_cons.1 hc with h1 | h1
        · subst h1
          rw [if_neg (by simp [hm, hp])]
          exact List.mem_cons_self _ _
        · split
          · exact h1
          · exact List.mem_cons_of_mem _ h1
      simp only [lexical_cast_int, hbody]

/-- C7, as stated, fails: `get_gpus` checks neither the range of an identifier
nor that identifiers differ. With one device available, `"0,0"` gives the
repeated set `[0, 0]`, `"7"` gives `[7]`, above the device count, and `"-1"`
gives the negative identifier `[-1]`; none of them is fatal. -/
theorem get_gpus_validity_counterexample :
    get_gpus (some 1) "0,0" [] = Res.ok [0, 0] ∧
    get_gpus (some 1) "7" [] = Res.ok [7] ∧
    get_gpus (some 1) "-1" [] = Res.ok [-1] ∧
    ¬ (∀ (count : Nat) (spec : String),
        get_gpus (some count) spec [] = Res.fatal ∨
        ∃ g, get_gpus (some count) spec [] = Res.ok g ∧
          (∀ d ∈ g, 0 ≤ d ∧ d < (count : Int)) ∧ g.Nodup) := by
  refine ⟨by decide, by decide, by decide, ?_⟩
  intro h
  rcases h 1 "0,0" with h1 | ⟨g, h1, _, h3⟩
  · exact absurd h1 (by decide)
  · have hg : g = [0, 0] := by
      have h2 : get_gpus (some 1) "0,0" [] = Res.ok [0, 0] := by decide
      rw [h2] at h1
      exact (Res.ok.inj h1).symm
    subst hg
    exact absurd h3 (by decide)

/-- C7, amended. For the empty spec `get_gpus` returns the empty set. For the
spec `all`, the device set it returns has identifiers that are non-negative,
below the device count and pairwise distinct. For any other non-empty spec,
`get_gpus` is fatal exactly when some comma-separated token is not a decimal
`int`, and otherwise returns the values of the tokens as written, with no check
of range or distinctness: the spec written from any list of `int` identifiers
gives back that list. A token is not a decimal `int`, in particular, when it is
empty or contains a character that is neither a digit nor a sign. -/
theorem get_gpus_validity (deviceCount : Option Nat) (FLAGS_gpu : String) :
    get_gpus deviceCount "" [] = Res.ok [] ∧
    (∀ (count : Nat) (g : List Int), get_gpus (some count) "all" [] = Res.ok g →
      (∀ d ∈ g, 0 ≤ d ∧ d < (count : Int)) ∧ g.Nodup) ∧
    (FLAGS_gpu ≠ "all" → FLAGS_gpu ≠ "" →
      (get_gpus deviceCount FLAGS_gpu [] = Res.fatal ↔
        ∃ t ∈ boost_split is_any_of_comma FLAGS_gpu.data, lexical_cast_int t = none) ∧
      (∀ g, get_gpus deviceCount FLAGS_gpu [] = Res.ok g →
        (boost_split is_any_of_comma FLAGS_gpu.data).map lexical_cast_int = g.map some)) ∧
    (∀ ids : List Int, (∀ d ∈ ids, fitsInt32 d) →
      get_gpus deviceCount (deviceSpec ids) [] = Res.ok ids) ∧
    (∀ t : List Char, (t = [] ∨ ∃ c ∈ t, isDigit c = false ∧ c ≠ '-' ∧ c ≠ '+') →
      lexical_cast_int t = none) := by
  refine ⟨get_gpus_empty deviceCount, ?_, ?_, get_gpus_deviceSpec deviceCount,
    lexical_cast_int_invalid⟩
  · intro count g h
    rw [get_gpus_all] at h
    have hg : g = (List.range count).map (fun (i : Nat) => (i : Int)) :=
      (Res.ok.inj h).symm
    subst hg
    constructor
    · intro d hd
      obtain ⟨i, hi, rfl⟩ := List.mem_map.1 hd
      have := List.mem_range.1 hi
      omega
    · exact (List.nodup_range count).map (fun a b h => by simpa using h)
  · intro hall hne
    have hlen : FLAGS_gpu.length ≠ 0 := fun h => hne ((string_length_zero _).1 h)
    unfold get_gpus
    rw [if_neg hall, if_pos hlen]
    constructor
    · exact push_tokens_fatal_iff _ []
    · intro g hg
      obtain ⟨vals, h1, h2⟩ := push_tokens_ok _ _ _ hg
      simp only [List.nil_append] at h1
      rw [h1, h2]

/-- Witness for C7: the spec `0,x` has a token with a letter and is fatal. -/
theorem get_gpus_validity_witness :
    get_gpus (some 4) "0,x" [] = Res.fatal :=
  ((get_gpus_validity (some 4) "0,x").2.2.1 (by decide) (by decide)).1.2
    ⟨['x'], by decide, (get_gpus_validity (some 4) "0,x").2.2.2.2 ['x']
      (Or.inr ⟨'x', by decide, by decide, by decide, by decide⟩)⟩

/-! ## Dump file naming -/

theorem utoa_length_le (k : Nat) : ∀ n, n < 10 ^ (k + 1) → (utoa n).length ≤ k + 1 := by
  induction k with
  | zero =>
    intro n hn
    rw [utoa_small (by simpa using hn)]
    simp
  | succ k ih =>
    intro n hn
    by_cases h : n < 10
    · rw [utoa_small h]; simp
    · rw [utoa_step (by omega)]
      have h1 : n / 10 < 10 ^ (k + 1) := by
        rw [Nat.div_lt_iff_lt_mul (by decide)]
        rw [pow_succ] at hn
        exact hn
      have := ih (n / 10) h1
      simp only [List.length_append, List.length_singleton]
      omega

theorem digitsValue_zeros (k : Nat) (ds : List Char) :
    digitsValue (List.replicate k '0' ++ ds) = digitsValue ds := by
  induction k with
  | zero => simp
  | succ k ih =>
    rw [List.replicate_succ, List.cons_append]
    unfold digitsValue at ih ⊢
    rw [List.foldl_cons]
    have : (0 * 10 + digitVal '0') = 0 := by decide
    rw [this]
    exact ih

theorem zeroPad_utoa_inj (w n m : Nat) (h : zeroPad w (utoa n) = zeroPad w (utoa m)) :
    n = m := by
  have := congrArg digitsValue h
  unfold zeroPad at this
  rwa [digitsValue_zeros, digitsValue_zeros, digitsValue_utoa, digitsValue_utoa] at this

theorem zeroPad_length_le (w : Nat) (ds : List Char) :
    (zeroPad w ds).length ≤ max w ds.length := by
  unfold zeroPad
  simp only [List.length_append, List.length_replicate]
  omega

theorem char_val_le (c : Char) (n : Nat) (h : n < UInt32.size) :
    (c.val ≤ UInt32.ofNatCore n h) ↔ c.toNat ≤ n := by
  rw [UInt32.le_def, BitVec.le_def]
  rfl

theorem utf8Bytes_length (c : Char) : (utf8Bytes c).length = c.utf8Size := by
  unfold utf8Bytes Char.utf8Size
  simp only [char_val_le]
  split_ifs <;> rfl

theorem utf8ByteSize_go (l : List Char) :
    String.utf8ByteSize.go l = (l.flatMap utf8Bytes).length := by
  induction l with
  | nil => rfl
  | cons c cs ih =>
    simp only [String.utf8ByteSize.go, List.flatMap_cons, List.length_append, ih,
      utf8Bytes_length]
    omega

/-- The length of the bytes of a string is its size in UTF-8. -/
theorem c_str_length (s : String) : (c_str s).length = s.utf8ByteSize := by
  cases s with
  | mk l => simp only [c_str, String.utf8ByteSize, utf8ByteSize_go]

/-- The bytes of a dump role are its characters. -/
theorem c_str_role : ∀ r ∈ dumpRoles, c_str r = r.data := by decide

theorem getFileName_data (is_target : Bool) (name : String) (id : Int)
    (h0 : 0 ≤ id) (h1 : id < 2 ^ 31) (hname : name.utf8ByteSize + 18 ≤ FILENAME_MAX) :
    (getFileName is_target name id).data =
      (if is_target then "TGT" else "REF").data ++ c_str name ++
        zeroPad 4 (utoa id.toNat) ++ ".bin".data := by
  have hneg : ¬ id < 0 := by omega
  unfold getFileName snprintf printf_04i
  rw [if_neg hneg]
  dsimp only
  apply List.take_of_length_le
  have hlen : (utoa id.toNat).length ≤ 10 :=
    utoa_length_le 9 id.toNat (by omega)
  have hz := zeroPad_length_le 4 (utoa id.toNat)
  have hp : (if is_target then "TGT" else "REF").data.length = 3 := by
    cases is_target <;> rfl
  have hb : ".bin".data.length = 4 := rfl
  have hn : (c_str name).length = name.utf8ByteSize := c_str_length name
  simp only [List.length_append, hp, hb, hn]
  unfold FILENAME_MAX at hname ⊢
  omega

/-- The name of a dump of one of the four roles, for an index of type `int`
that is not negative. -/
theorem getFileName_role_data (is_target : Bool) (r : String) (hr : r ∈ dumpRoles) (id : Int)
    (h0 : 0 ≤ id) (h1 : id < 2 ^ 31) :
    (getFileName is_target r id).data =
      (if is_target then "TGT" else "REF").data ++ r.data ++
        zeroPad 4 (utoa id.toNat) ++ ".bin".data := by
  have hsmall : ∀ r ∈ dumpRoles, r.utf8ByteSize + 18 ≤ FILENAME_MAX := by decide
  rw [getFileName_data is_target r id h0 h1 (hsmall r hr), c_str_role r hr]

/-- Equal dump names come from equal triples. -/
theorem getFileName_inj (a b : Bool) (r1 r2 : String) (i1 i2 : Int)
    (hr1 : r1 ∈ dumpRoles) (hr2 : r2 ∈ dumpRoles)
    (h1 : 0 ≤ i1 ∧ i1 < 2 ^ 31) (h2 : 0 ≤ i2 ∧ i2 < 2 ^ 31)
    (h : getFileName a r1 i1 = getFileName b r2 i2) : a = b ∧ r1 = r2 ∧ i1 = i2 := by
  have len4 : ∀ r ∈ dumpRoles, r.data.length = 4 := by decide
  have hp : ∀ t : Bool, (if t then "TGT" else "REF").data.length = 3 := by decide
  have hdat := congrArg String.data h
  rw [getFileName_role_data a r1 hr1 i1 h1.1 h1.2,
    getFileName_role_data b r2 hr2 i2 h2.1 h2.2] at hdat
  simp only [List.append_assoc] at hdat
  obtain ⟨hpre, hrest⟩ := List.append_inj hdat (by rw [hp a, hp b])
  obtain ⟨hrole, hrest2⟩ := List.append_inj hrest (by rw [len4 r1 hr1, len4 r2 hr2])
  have hdig := List.append_cancel_right hrest2
  have hidx := zeroPad_utoa_inj 4 _ _ hdig
  refine ⟨?_, String.ext hrole, by omega⟩
  cases a <;> cases b <;> first | rfl | exact absurd hpre (by decide)

/-- C8. Dump file naming. For an index `0 <= id` of type `int` and a role that
fits the buffer, `getFileName` gives `TGT` or `REF`, then the role, then the
index in decimal zero-padded to at least four digits, then `.bin`; the name is
a function of the triple alone. On the four roles `Fwrd`, `Bwrd`, `Grad`,
`Wght` the map is injective: equal names come from equal triples, so a target
name is never a reference name and no two indices share a name. -/
theorem getFileName_injective (t1 t2 : Bool) (r1 r2 : String) (i1 i2 : Int)
    (hr1 : r1 ∈ dumpRoles) (hr2 : r2 ∈ dumpRoles)
    (h1 : 0 ≤ i1 ∧ i1 < 2 ^ 31) (h2 : 0 ≤ i2 ∧ i2 < 2 ^ 31) :
    getFileName t1 r1 i1 =
      String.mk ((if t1 then "TGT" else "REF").data ++ r1.data ++
        zeroPad 4 (utoa i1.toNat) ++ ".bin".data) ∧
    getFileName false "Fwrd" 4 = "REFFwrd0004.bin" ∧
    (getFileName t1 r1 i1 = getFileName t2 r2 i2 → t1 = t2 ∧ r1 = r2 ∧ i1 = i2) ∧
    getFileName true r1 i1 ≠ getFileName false r2 i2 := by
  refine ⟨String.ext (getFileName_role_data t1 r1 hr1 i1 h1.1 h1.2), by decide,
    getFileName_inj t1 t2 r1 r2 i1 i2 hr1 hr2 h1 h2, ?_⟩
  intro h
  exact absurd (getFileName_inj true false r1 r2 i1 i2 hr1 hr2 h1 h2 h).1 (by decide)

/-- Witness for C8: index 10000 and index 1000 of the same role and kind get
different names. -/
theorem getFileName_injective_witness :
    decide (getFileName false "Fwrd" 10000 = getFileName false "Fwrd" 1000) = false :=
  decide_eq_false (fun h =>
    absurd ((getFileName_injective false false "Fwrd" "Fwrd" 10000 1000 (by decide) (by decide)
      (by decide) (by decide)).2.2.1 h).2.2 (by decide))
/-! ## Dump paths and the files a dump call touches -/

theorem dumpPath_data (dir : String) (t : Bool) (r : String) (j : Int) :
    (dumpPath dir t r j).data = c_str dir ++ ['/'] ++ (getFileName t r j).data := rfl

/-- In one directory, equal dump paths come from equal triples. -/
theorem dumpPath_inj (dir : String) (a b : Bool) (r1 r2 : String) (i1 i2 : Int)
    (hr1 : r1 ∈ dumpRoles) (hr2 : r2 ∈ dumpRoles)
    (h1 : 0 ≤ i1 ∧ i1 < 2 ^ 31) (h2 : 0 ≤ i2 ∧ i2 < 2 ^ 31)
    (h : dumpPath dir a r1 i1 = dumpPath dir b r2 i2) : a = b ∧ r1 = r2 ∧ i1 = i2 := by
  have hd := congrArg String.data h
  rw [dumpPath_data, dumpPath_data] at hd
  exact getFileName_inj a b r1 r2 i1 i2 hr1 hr2 h1 h2 (String.ext (List.append_cancel_left hd))

theorem writeFile_other (canOpen : Bool) (room flushed : Nat) (path : String)
    (data : List Nat) (count : Nat) (files : Files) (q : String) (hq : q ≠ path) :
    (writeFile canOpen room flushed path data count files).2 q = files q := by
  unfold writeFile
  split
  · rfl
  · exact if_neg hq

theorem writeFile_exact (room flushed : Nat) (path : String) (data : List Nat) (count : Nat)
    (files : Files) (hroom : count * sizeof_real_t ≤ room)
    (hflush : count * sizeof_real_t ≤ flushed)
    (hshape : data.length = count * sizeof_real_t) :
    (writeFile true room flushed path data count files).2 path = some data := by
  unfold writeFile
  simp only [Bool.not_eq_true, Bool.true_eq_false, if_false, Nat.min_eq_left hroom,
    Nat.min_eq_left hflush, if_true]
  rw [← hshape, List.take_length]
  simp

theorem saveStep_files (env : HarnessEnv) (dir : String) (t : Bool) (r : String) (j : Int)
    (b : Nat) (bf : Buf) (w : World) :
    (saveStep env dir t r j b bf w).files =
      (writeFile (env.fopen_write (dumpPath dir t r j)) (env.fwrite_room (dumpPath dir t r j))
        (env.fclose_flushed (dumpPath dir t r j)) (dumpPath dir t r j)
        ((w.blobs b).buffer bf) (w.blobs b).count w.files).2 := rfl

/-- A dump call leaves every file but its own alone. -/
theorem saveStep_files_other (env : HarnessEnv) (dir : String) (t : Bool) (r : String)
    (j : Int) (b : Nat) (bf : Buf) (w : World) (q : String) (hq : q ≠ dumpPath dir t r j) :
    (saveStep env dir t r j b bf w).files q = w.files q := by
  rw [saveStep_files]
  exact writeFile_other _ _ _ _ _ _ _ q hq

/-- A dump call that gets into its file in full leaves the buffer in it. -/
theorem saveStep_files_self (env : HarnessEnv) (dir : String) (t : Bool) (r : String)
    (j : Int) (b : Nat) (bf : Buf) (w : World)
    (hcan : canWrite env (dumpPath dir t r j) (w.blobs b).count)
    (hshape : ((w.blobs b).buffer bf).length = (w.blobs b).count * sizeof_real_t) :
    (saveStep env dir t r j b bf w).files (dumpPath dir t r j) =
      some ((w.blobs b).buffer bf) := by
  rw [saveStep_files, hcan.1]
  exact writeFile_exact _ _ _ _ _ _ hcan.2.1 hcan.2.2 hshape

theorem saveStep_blobs (env : HarnessEnv) (dir : String) (t : Bool) (r : String) (j : Int)
    (b : Nat) (bf : Buf) (w : World) : (saveStep env dir t r j b bf w).blobs = w.blobs := rfl

theorem foldl_blobs (eff : Nat → World → World) (g : Nat → (Nat → Blob) → (Nat → Blob))
    (h : ∀ i w, (eff i w).blobs = g i w.blobs) (idx : List Nat) :
    ∀ w, (idx.foldl (fun w i => eff i w) w).blobs = idx.foldl (fun b i => g i b) w.blobs := by
  induction idx with
  | nil => intro w; rfl
  | cons i rest ih =>
    intro w
    rw [List.foldl_cons, List.foldl_cons, ih, h]

theorem foldl_files_keep (eff : Nat → World → World) (q : String) (idx : List Nat)
    (h : ∀ j ∈ idx, ∀ w, (eff j w).files q = w.files q) :
    ∀ w, (idx.foldl (fun w j => eff j w) w).files q = w.files q := by
  induction idx with
  | nil => intro w; rfl
  | cons j rest ih =>
    intro w
    rw [List.foldl_cons, ih (fun k hk => h k (List.mem_cons_of_mem _ hk)),
      h j (List.mem_cons_self _ _)]

/-- When the directory step does not throw, the run goes on from the state
with the info file opened. -/
theorem harness_open_running (env : HarnessEnv) (dir : String) (g : Bool) (w : World)
    (hopen : env.fopen_write (infoPath dir g) = true) :
    harness_open env dir g w = Exec.running (harness_opened env dir g w) := by
  have hdir : env.dir_exists dir = true ∨ env.create_directory dir = CreateResult.created ∨
      env.create_directory dir = CreateResult.not_created := by
    cases g
    · exact env.fopen_needs_dir dir "CPUInfo.txt" hopen
    · exact env.fopen_needs_dir dir "GPUInfo.txt" hopen
  unfold harness_open harness_mkdir harness_opened
  by_cases hd : env.dir_exists dir = true
  · simp [hd, Exec.andThen]
  · rcases hdir with h | h | h
    · exact absurd h hd
    · simp [hd, h, Exec.andThen]
    · simp [hd, h, Exec.andThen]

theorem harness_opened_fields (env : HarnessEnv) (dir : String) (g : Bool) (gpus : List Int)
    (w : World) :
    (harness_opened env dir g (harness_place gpus w)).files = w.files ∧
    (harness_opened env dir g (harness_place gpus w)).blobs = w.blobs ∧
    (harness_opened env dir g (harness_place gpus w)).info = [] ∧
    (harness_opened env dir g (harness_place gpus w)).infoOpen =
      env.fopen_write (infoPath dir g) := by
  unfold harness_opened harness_fopen harness_place World.record
  cases gpus <;> by_cases hd : env.dir_exists dir = true <;> simp [hd]

/-! ## Loops of the traversals -/

theorem foldl_halted (body : Nat → World → Exec) (w : World) (o : Outcome) (idx : List Nat) :
    idx.foldl (fun e i => e.andThen (body i)) (Exec.halted w o) = Exec.halted w o := by
  induction idx with
  | nil => rfl
  | cons i rest ih => simpa [List.foldl_cons, Exec.andThen] using ih

theorem forLoop_cons (body : Nat → World → Exec) (i : Nat) (idx : List Nat) (w : World) :
    forLoop (i :: idx) body w = (body i w).andThen (forLoop idx body) := by
  unfold forLoop
  rw [List.foldl_cons]
  show List.foldl (fun e i => e.andThen (body i)) (body i w) idx = _
  cases h : body i w with
  | running w1 => rfl
  | halted w1 o => exact foldl_halted body w1 o idx

/-- A loop whose body never ends the run, under an invariant, is the fold of
the effect of the body. -/
theorem forLoop_pure (body : Nat → World → Exec) (eff : Nat → World → World)
    (Inv : World → Prop) (idx : List Nat)
    (hstep : ∀ i ∈ idx, ∀ w, Inv w → body i w = Exec.running (eff i w) ∧ Inv (eff i w)) :
    ∀ w, Inv w →
      forLoop idx body w = Exec.running (idx.foldl (fun w i => eff i w) w) ∧
      Inv (idx.foldl (fun w i => eff i w) w) := by
  induction idx with
  | nil => intro w hw; exact ⟨rfl, hw⟩
  | cons i rest ih =>
    intro w hw
    obtain ⟨h1, h2⟩ := hstep i (List.mem_cons_self _ _) w hw
    rw [forLoop_cons, h1]
    exact ih (fun j hj => hstep j (List.mem_cons_of_mem _ hj)) (eff i w) h2

theorem foldl_steps (eff : Nat → World → World) (ev : Nat → List Step)
    (h : ∀ i w, (eff i w).steps = w.steps ++ ev i) (idx : List Nat) :
    ∀ w, (idx.foldl (fun w i => eff i w) w).steps = w.steps ++ idx.flatMap ev := by
  induction idx with
  | nil => intro w; simp
  | cons i rest ih =>
    intro w
    rw [List.foldl_cons, ih, h]
    simp

theorem foldl_info (eff : Nat → World → World) (ln : Nat → List String)
    (h : ∀ i w, (eff i w).info = w.info ++ ln i) (idx : List Nat) :
    ∀ w, (idx.foldl (fun w i => eff i w) w).info = w.info ++ idx.flatMap ln := by
  induction idx with
  | nil => intro w; simp
  | cons i rest ih =>
    intro w
    rw [List.foldl_cons, ih, h]
    simp

theorem flatMap_single {α β : Type} (f : α → β) (l : List α) :
    l.flatMap (fun i => [f i]) = l.map f := by
  induction l with
  | nil => rfl
  | cons a l ih => simp [List.flatMap_cons, ih]

theorem flatMap_empty {α β : Type} (l : List α) :
    l.flatMap (fun _ => ([] : List β)) = [] := by
  induction l with
  | nil => rfl
  | cons a l ih => simp [List.flatMap_cons, ih]

theorem layerAt_of_getElem? (net : Net) (i : Nat) (layer : LayerRec)
    (h : net.layers[i]? = some layer) : net.layerAt i = layer := by
  simp [Net.layerAt, h]

theorem needsBackward_iff (layer : LayerRec) :
    needsBackward layer = true ↔
      (layer.bottom_need_backward.length > 0 ∧
        layer.bottom_need_backward.head? = some true) := by
  unfold needsBackward
  cases layer.bottom_need_backward with
  | nil => simp
  | cons b bs => simp

/-! ## collect -/

theorem collect_forward_run (env : HarnessEnv) (F : Flags) (net : Net) (hwf : net.wellFormed)
    (i : Nat) (hi : i < net.layers.length) (w : World) (hw : w.infoOpen = true) :
    collect_forward env F net i w = Exec.running (collect_forward_eff env F net i w) ∧
      (collect_forward_eff env F net i w).infoOpen = true := by
  have hget : net.layers[i]? = some net.layers[i] := List.getElem?_eq_getElem hi
  have hl := layerAt_of_getElem? net i _ hget
  have htop := (hwf _ (List.getElem_mem hi)).1
  unfold collect_forward
  rw [hget]
  simp only [fprintf_info, hw, if_true, Exec.andThen]
  constructor
  · cases ht : net.layers[i].top_vec with
    | nil => exact absurd ht htop
    | cons t ts =>
      simp only [collect_forward_eff, Net.top0, hl, ht, List.headD_cons]
  · simpa [collect_forward_eff, saveStep, forwardStep, printLine] using hw

theorem collect_backward_run (env : HarnessEnv) (F : Flags) (net : Net) (hwf : net.wellFormed)
    (i : Nat) (hi : i < net.layers.length) (w : World) (hw : w.infoOpen = true) :
    collect_backward env F net i w = Exec.running (collect_backward_eff env F net i w) ∧
      (collect_backward_eff env F net i w).infoOpen = true := by
  have hget : net.layers[i]? = some net.layers[i] := List.getElem?_eq_getElem hi
  have hl := layerAt_of_getElem? net i _ hget
  have hbot := (hwf _ (List.getElem_mem hi)).2
  unfold collect_backward
  rw [hget]
  simp only [fprintf_info, hw, if_true, Exec.andThen]
  unfold collect_backward_eff
  rw [hl]
  by_cases hn : needsBackward net.layers[i] = true
  · rw [if_pos hn, if_pos hn]
    cases hb : net.layers[i].bottom_vec with
    | nil => exact absurd hb (hbot hn)
    | cons b bs =>
      refine ⟨by simp only [Net.bottom0, hl, hb, List.headD_cons], ?_⟩
      simpa [saveStep, backwardStep, printLine] using hw
  · rw [if_neg hn, if_neg hn]
    exact ⟨rfl, by simpa [backwardStep, printLine] using hw⟩

theorem collect_param_run (env : HarnessEnv) (F : Flags) (net : Net)
    (j : Nat) (hj : j < net.params.length) (w : World) (hw : w.infoOpen = true) :
    collect_param env F net j w = Exec.running (collect_param_eff env F net j w) ∧
      (collect_param_eff env F net j w).infoOpen = true := by
  have hget : net.params[j]? = some net.params[j] := List.getElem?_eq_getElem hj
  unfold collect_param
  rw [hget]
  refine ⟨by simp [collect_param_eff, Net.paramAt, hget], ?_⟩
  simpa [collect_param_eff, saveStep] using hw

theorem zeroParamDiffs_fields (net : Net) (w : World) :
    (zeroParamDiffs net w).steps = w.steps ++ net.params.map Step.caffe_set_diff ∧
    (zeroParamDiffs net w).info = w.info ∧
    (zeroParamDiffs net w).infoOpen = w.infoOpen := by
  unfold zeroParamDiffs
  generalize net.params = ps
  induction ps generalizing w with
  | nil => simp
  | cons b bs ih =>
    rw [List.foldl_cons]
    obtain ⟨h1, h2, h3⟩ := ih (zeroDiff b w)
    rw [h1, h2, h3]
    simp [zeroDiff]

theorem zeroParamDiffs_blobs (ps : List Nat) : ∀ (w : World) (k : Nat),
    (ps.foldl (fun w blob => zeroDiff blob w) w).blobs k =
      if k ∈ ps then
        { w.blobs k with cpu_diff := List.replicate ((w.blobs k).count * sizeof_real_t) 0 }
      else w.blobs k := by
  induction ps with
  | nil => intro w k; simp
  | cons b bs ih =>
    intro w k
    rw [List.foldl_cons, ih]
    by_cases hkb : k = b
    · subst hkb
      by_cases hk : k ∈ bs <;> simp [hk, zeroDiff]
    · by_cases hk : k ∈ bs <;> simp [hk, hkb, zeroDiff]

theorem zeroParamDiffs_files (net : Net) (w : World) :
    (zeroParamDiffs net w).files = w.files := by
  unfold zeroParamDiffs
  generalize net.params = ps
  induction ps generalizing w with
  | nil => rfl
  | cons b bs ih =>
    rw [List.foldl_cons, ih]
    rfl

theorem collect_forward_eff_fields (env : HarnessEnv) (F : Flags) (net : Net) (i : Nat)
    (w : World) :
    (collect_forward_eff env F net i w).steps = w.steps ++ collectSpecForward F net i ∧
    (collect_forward_eff env F net i w).info =
      w.info ++ [infoLine "Fwrd" i (net.layerAt i).type] := by
  simp [collect_forward_eff, saveStep, forwardStep, printLine, collectSpecForward]

theorem collect_backward_eff_fields (env : HarnessEnv) (F : Flags) (net : Net) (i : Nat)
    (w : World) :
    (collect_backward_eff env F net i w).steps = w.steps ++ collectSpecBackward F net i ∧
    (collect_backward_eff env F net i w).info =
      w.info ++ [infoLine "Bwrd" i (net.layerAt i).type] := by
  unfold collect_backward_eff collectSpecBackward
  by_cases hn : needsBackward (net.layerAt i) = true
  · rw [if_pos hn, if_pos ((needsBackward_iff _).1 hn)]
    simp [saveStep, backwardStep, printLine]
  · rw [if_neg hn, if_neg (fun h => hn ((needsBackward_iff _).2 h))]
    simp [backwardStep, printLine]

theorem collect_param_eff_fields (env : HarnessEnv) (F : Flags) (net : Net) (j : Nat)
    (w : World) :
    (collect_param_eff env F net j w).steps = w.steps ++ collectSpecParam F net j ∧
    (collect_param_eff env F net j w).info = w.info ++ [] := by
  simp [collect_param_eff, saveStep, collectSpecParam]

theorem collectSpecSteps_savesAs (F : Flags) (net : Net) :
    ∀ s ∈ collectSpecSteps F net, Step.savesAs F.collect_dir false s = true := by
  intro s hs
  simp only [collectSpecSteps, List.mem_append, List.mem_map, List.mem_flatMap,
    List.mem_singleton] at hs
  rcases hs with (((⟨_, _, h⟩ | ⟨_, _, h⟩) | ⟨_, _, h⟩) | ⟨_, _, h⟩) | h
  · subst h; rfl
  · simp only [collectSpecForward, List.mem_cons, List.mem_singleton, List.not_mem_nil,
      or_false] at h
    rcases h with h | h | h <;> subst h <;> simp [Step.savesAs]
  · simp only [collectSpecBackward, List.mem_append, List.mem_cons, List.mem_singleton,
      List.not_mem_nil, or_false] at h
    rcases h with (h | h) | h
    · subst h; rfl
    · subst h; rfl
    · split at h
      · simp only [List.mem_singleton] at h
        subst h
        simp [Step.savesAs]
      · simp at h
  · simp only [collectSpecParam, List.mem_cons, List.mem_singleton, List.not_mem_nil,
      or_false] at h
    rcases h with h | h <;> subst h <;> simp [Step.savesAs]
  · subst h; rfl

/-! ## collect: the state the traversal leaves -/

/-- The traversal of `collect` from a state with the info file open: it runs to
the end, through the states the three loops leave, and closes the info file. -/
theorem collect_traverse_eq (env : HarnessEnv) (F : Flags) (net : Net)
    (hwf : net.wellFormed) (w : World) (hw : w.infoOpen = true) :
    collect_traverse env F net w =
      Exec.running { collectAfterParams env F net w with
        infoOpen := false,
        steps := (collectAfterParams env F net w).steps ++ [Step.fclose_info] } := by
  obtain ⟨_, _, z3⟩ := zeroParamDiffs_fields net w
  have hz : (zeroParamDiffs net w).infoOpen = true := by rw [z3, hw]
  obtain ⟨f1, f2⟩ := forLoop_pure (collect_forward env F net) (collect_forward_eff env F net)
    (fun w => w.infoOpen = true) (List.range net.layers.length)
    (fun i hi w hw => collect_forward_run env F net hwf i (List.mem_range.1 hi) w hw)
    (zeroParamDiffs net w) hz
  obtain ⟨b1, b2⟩ := forLoop_pure (collect_backward env F net) (collect_backward_eff env F net)
    (fun w => w.infoOpen = true) (List.range net.layers.length).reverse
    (fun i hi w hw =>
      collect_backward_run env F net hwf i (List.mem_range.1 (List.mem_reverse.1 hi)) w hw)
    _ f2
  obtain ⟨p1, p2⟩ := forLoop_pure (collect_param env F net) (collect_param_eff env F net)
    (fun w => w.infoOpen = true) (List.range net.params.length)
    (fun j hj w hw => collect_param_run env F net j (List.mem_range.1 hj) w hw)
    _ b2
  unfold collect_traverse
  rw [f1]
  simp only [Exec.andThen]
  rw [b1]
  simp only [Exec.andThen]
  rw [p1]
  simp only [Exec.andThen, fclose_info]
  rw [if_pos p2]
  rfl

theorem collectAfterParams_steps (env : HarnessEnv) (F : Flags) (net : Net) (w : World) :
    (collectAfterParams env F net w).steps ++ [Step.fclose_info] =
      w.steps ++ collectSpecSteps F net ∧
    (collectAfterParams env F net w).info = w.info ++ specInfoLines net := by
  obtain ⟨z1, z2, _⟩ := zeroParamDiffs_fields net w
  unfold collectAfterParams collectAfterBackward collectAfterForward
  constructor
  · rw [foldl_steps _ _ (fun i w => (collect_param_eff_fields env F net i w).1),
      foldl_steps _ _ (fun i w => (collect_backward_eff_fields env F net i w).1),
      foldl_steps _ _ (fun i w => (collect_forward_eff_fields env F net i w).1), z1]
    simp [collectSpecSteps]
  · rw [foldl_info _ _ (fun i w => (collect_param_eff_fields env F net i w).2),
      foldl_info _ _ (fun i w => (collect_backward_eff_fields env F net i w).2),
      foldl_info _ _ (fun i w => (collect_forward_eff_fields env F net i w).2), z2]
    rw [flatMap_single, flatMap_single, flatMap_empty]
    simp [specInfoLines]

theorem collect_forward_eff_blobs (env : HarnessEnv) (F : Flags) (net : Net) (i : Nat)
    (w : World) : (collect_forward_eff env F net i w).blobs = net.Forward i w.blobs := rfl

theorem collect_backward_eff_blobs (env : HarnessEnv) (F : Flags) (net : Net) (i : Nat)
    (w : World) : (collect_backward_eff env F net i w).blobs = net.Backward i w.blobs := by
  unfold collect_backward_eff
  split <;> rfl

theorem collect_param_eff_blobs (env : HarnessEnv) (F : Flags) (net : Net) (j : Nat)
    (w : World) : (collect_param_eff env F net j w).blobs = w.blobs := rfl

theorem collectAfterForward_blobs (env : HarnessEnv) (F : Flags) (net : Net) (w : World) :
    (collectAfterForward env F net w).blobs =
      forwardBlobs net (List.range net.layers.length) (zeroParamDiffs net w).blobs := by
  unfold collectAfterForward forwardBlobs
  exact foldl_blobs _ _ (collect_forward_eff_blobs env F net) _ _

theorem collectAfterBackward_blobs (env : HarnessEnv) (F : Flags) (net : Net) (w : World) :
    (collectAfterBackward env F net w).blobs =
      backwardBlobs net (List.range net.layers.length).reverse
        (forwardBlobs net (List.range net.layers.length) (zeroParamDiffs net w).blobs) := by
  unfold collectAfterBackward backwardBlobs
  rw [foldl_blobs _ _ (collect_backward_eff_blobs env F net), collectAfterForward_blobs]

theorem collectAfterParams_blobs (env : HarnessEnv) (F : Flags) (net : Net) (w : World) :
    (collectAfterParams env F net w).blobs =
      backwardBlobs net (List.range net.layers.length).reverse
        (forwardBlobs net (List.range net.layers.length) (zeroParamDiffs net w).blobs) := by
  unfold collectAfterParams
  rw [foldl_blobs _ (fun _ b => b) (collect_param_eff_blobs env F net),
    collectAfterBackward_blobs]
  generalize List.range net.params.length = l
  induction l with
  | nil => rfl
  | cons a l ih => exact ih

/-- Zeroing the parameter gradients looks at the blobs only. -/
theorem zeroParamDiffs_blobs_congr (net : Net) (w1 w2 : World) (h : w1.blobs = w2.blobs) :
    (zeroParamDiffs net w1).blobs = (zeroParamDiffs net w2).blobs := by
  funext k
  unfold zeroParamDiffs
  rw [zeroParamDiffs_blobs, zeroParamDiffs_blobs, h]

/-- Two dumps of one directory with different roles or indices have different
paths. -/
theorem dumpPath_ne (dir : String) (t : Bool) (r1 r2 : String) (j1 j2 : Nat)
    (hr1 : r1 ∈ dumpRoles) (hr2 : r2 ∈ dumpRoles) (h1 : j1 < 2 ^ 31) (h2 : j2 < 2 ^ 31)
    (hne : r1 ≠ r2 ∨ j1 ≠ j2) : dumpPath dir t r1 j1 ≠ dumpPath dir t r2 j2 := by
  intro h
  obtain ⟨_, hr, hj⟩ := dumpPath_inj dir t t r1 r2 j1 j2 hr1 hr2
    ⟨by omega, by exact_mod_cast h1⟩ ⟨by omega, by exact_mod_cast h2⟩ h
  rcases hne with hne | hne
  · exact hne hr
  · exact hne (by exact_mod_cast hj)

theorem collect_forward_eff_other (env : HarnessEnv) (F : Flags) (net : Net) (i : Nat)
    (w : World) (q : String) (hq : q ≠ dumpPath F.collect_dir false "Fwrd" i) :
    (collect_forward_eff env F net i w).files q = w.files q := by
  unfold collect_forward_eff
  rw [saveStep_files_other _ _ _ _ _ _ _ _ q hq]
  rfl

theorem collect_backward_eff_other (env : HarnessEnv) (F : Flags) (net : Net) (i : Nat)
    (w : World) (q : String) (hq : q ≠ dumpPath F.collect_dir false "Bwrd" i) :
    (collect_backward_eff env F net i w).files q = w.files q := by
  unfold collect_backward_eff
  split
  · rw [saveStep_files_other _ _ _ _ _ _ _ _ q hq]
    rfl
  · rfl

theorem collect_param_eff_other (env : HarnessEnv) (F : Flags) (net : Net) (j : Nat)
    (w : World) (q : String) (hg : q ≠ dumpPath F.collect_dir false "Grad" j)
    (hw : q ≠ dumpPath F.collect_dir false "Wght" j) :
    (collect_param_eff env F net j w).files q = w.files q := by
  unfold collect_param_eff
  rw [saveStep_files_other _ _ _ _ _ _ _ _ q hw, saveStep_files_other _ _ _ _ _ _ _ _ q hg]

theorem split_not_mem (n : Nat) (pre post : List Nat) (i : Nat) (l : List Nat)
    (hl : l = List.range n ∨ l = (List.range n).reverse)
    (h : l = pre ++ i :: post) : i < n ∧ (∀ j ∈ pre, j ≠ i ∧ j < n) ∧ ∀ j ∈ post, j ≠ i ∧ j < n := by
  have hnd : l.Nodup := by
    rcases hl with hl | hl
    · rw [hl]; exact List.nodup_range n
    · rw [hl]; exact List.nodup_reverse.2 (List.nodup_range n)
  have hmem : ∀ j ∈ l, j < n := by
    intro j hj
    rcases hl with hl | hl
    · rw [hl] at hj; exact List.mem_range.1 hj
    · rw [hl] at hj; exact List.mem_range.1 (List.mem_reverse.1 hj)
  rw [h] at hnd hmem
  have hnd2 := List.nodup_append.1 hnd
  have hcons := List.nodup_cons.1 hnd2.2.1
  refine ⟨hmem i (by simp), ?_, ?_⟩
  · intro j hj
    refine ⟨?_, hmem j (by simp [hj])⟩
    intro hji
    subst hji
    exact hnd2.2.2 hj (List.mem_cons_self _ _)
  · intro j hj
    refine ⟨?_, hmem j (by simp [hj])⟩
    intro hji
    subst hji
    exact hcons.1 hj

/-- At the end of the loops of `collect` the reference dump `Fwrd i` holds the
first output of layer `i` as its forward step left it. -/
theorem collect_files_fwrd (env : HarnessEnv) (F : Flags) (net : Net) (w : World)
    (hn : net.layers.length ≤ 2 ^ 31) (hp : net.params.length ≤ 2 ^ 31)
    (pre post : List Nat) (i : Nat) (hsplit : List.range net.layers.length = pre ++ i :: post)
    (hshape :
      (net.Forward i (forwardBlobs net pre (zeroParamDiffs net w).blobs)
        (net.top0 i)).cpu_data.length =
      (net.Forward i (forwardBlobs net pre (zeroParamDiffs net w).blobs)
        (net.top0 i)).count * sizeof_real_t)
    (hcan : canWrite env (dumpPath F.collect_dir false "Fwrd" i)
      (net.Forward i (forwardBlobs net pre (zeroParamDiffs net w).blobs) (net.top0 i)).count) :
    (collectAfterParams env F net w).files (dumpPath F.collect_dir false "Fwrd" i) =
      some (net.Forward i (forwardBlobs net pre (zeroParamDiffs net w).blobs)
        (net.top0 i)).cpu_data := by
  obtain ⟨hi, _, hpost⟩ := split_not_mem _ pre post i _ (Or.inl rfl) hsplit
  unfold collectAfterParams
  rw [foldl_files_keep _ _ _ (fun j hj w =>
    collect_param_eff_other env F net j w _
      (dumpPath_ne _ _ _ _ _ _ (by decide) (by decide) (by omega)
        (by have := List.mem_range.1 hj; omega) (Or.inl (by decide)))
      (dumpPath_ne _ _ _ _ _ _ (by decide) (by decide) (by omega)
        (by have := List.mem_range.1 hj; omega) (Or.inl (by decide))))]
  unfold collectAfterBackward
  rw [foldl_files_keep _ _ _ (fun j hj w =>
    collect_backward_eff_other env F net j w _
      (dumpPath_ne _ _ _ _ _ _ (by decide) (by decide) (by omega)
        (by have := List.mem_range.1 (List.mem_reverse.1 hj); omega) (Or.inl (by decide))))]
  unfold collectAfterForward
  rw [hsplit, List.foldl_append, List.foldl_cons]
  rw [foldl_files_keep _ _ _ (fun j hj w =>
    collect_forward_eff_other env F net j w _
      (dumpPath_ne _ _ _ _ _ _ (by decide) (by decide) (by omega)
        (by have := (hpost j hj).2; omega) (Or.inr (fun h => (hpost j hj).1 h.symm))))]
  have hb : (pre.foldl (fun w i => collect_forward_eff env F net i w)
      (zeroParamDiffs net w)).blobs = forwardBlobs net pre (zeroParamDiffs net w).blobs :=
    foldl_blobs _ _ (collect_forward_eff_blobs env F net) _ _
  unfold collect_forward_eff
  have hw2 : (forwardStep net i (printLine (infoLine "Fwrd" i (net.layerAt i).type)
      (pre.foldl (fun w i => collect_forward_eff env F net i w) (zeroParamDiffs net w)))).blobs =
      net.Forward i (forwardBlobs net pre (zeroParamDiffs net w).blobs) := by
    rw [← hb]; rfl
  have := saveStep_files_self env F.collect_dir false "Fwrd" i (net.top0 i) Buf.data
    (forwardStep net i (printLine (infoLine "Fwrd" i (net.layerAt i).type)
      (pre.foldl (fun w i => collect_forward_eff env F net i w) (zeroParamDiffs net w))))
    (by rw [hw2]; exact hcan) (by rw [hw2]; exact hshape)
  rw [hw2] at this
  exact this

/-- At the end of the loops of `collect` the reference dump `Bwrd i` of a layer
whose first input needs a gradient holds that gradient as the backward step of
the layer left it. -/
theorem collect_files_bwrd (env : HarnessEnv) (F : Flags) (net : Net) (w : World)
    (hn : net.layers.length ≤ 2 ^ 31) (hp : net.params.length ≤ 2 ^ 31)
    (pre post : List Nat) (i : Nat)
    (hsplit : (List.range net.layers.length).reverse = pre ++ i :: post)
    (hneed : needsBackward (net.layerAt i) = true)
    (hshape :
      (net.Backward i (backwardBlobs net pre (collectAfterForward env F net w).blobs)
        (net.bottom0 i)).cpu_diff.length =
      (net.Backward i (backwardBlobs net pre (collectAfterForward env F net w).blobs)
        (net.bottom0 i)).count * sizeof_real_t)
    (hcan : canWrite env (dumpPath F.collect_dir false "Bwrd" i)
      (net.Backward i (backwardBlobs net pre (collectAfterForward env F net w).blobs)
        (net.bottom0 i)).count) :
    (collectAfterParams env F net w).files (dumpPath F.collect_dir false "Bwrd" i) =
      some (net.Backward i (backwardBlobs net pre (collectAfterForward env F net w).blobs)
        (net.bottom0 i)).cpu_diff := by
  obtain ⟨hi, _, hpost⟩ := split_not_mem _ pre post i _ (Or.inr rfl) hsplit
  unfold collectAfterParams
  rw [foldl_files_keep _ _ _ (fun j hj w =>
    collect_param_eff_other env F net j w _
      (dumpPath_ne _ _ _ _ _ _ (by decide) (by decide) (by omega)
        (by have := List.mem_range.1 hj; omega) (Or.inl (by decide)))
      (dumpPath_ne _ _ _ _ _ _ (by decide) (by decide) (by omega)
        (by have := List.mem_range.1 hj; omega) (Or.inl (by decide))))]
  unfold collectAfterBackward
  rw [hsplit, List.foldl_append, List.foldl_cons]
  rw [foldl_files_keep _ _ _ (fun j hj w =>
    collect_backward_eff_other env F net j w _
      (dumpPath_ne _ _ _ _ _ _ (by decide) (by decide) (by omega)
        (by have := (hpost j hj).2; omega) (Or.inr (fun h => (hpost j hj).1 h.symm))))]
  have hb : (pre.foldl (fun w i => collect_backward_eff env F net i w)
      (collectAfterForward env F net w)).blobs =
      backwardBlobs net pre (collectAfterForward env F net w).blobs :=
    foldl_blobs _ _ (collect_backward_eff_blobs env F net) _ _
  unfold collect_backward_eff
  rw [if_pos hneed]
  have hw2 : (backwardStep net i (printLine (infoLine "Bwrd" i (net.layerAt i).type)
      (pre.foldl (fun w i => collect_backward_eff env F net i w)
        (collectAfterForward env F net w)))).blobs =
      net.Backward i (backwardBlobs net pre (collectAfterForward env F net w).blobs) := by
    rw [← hb]; rfl
  have := saveStep_files_self env F.collect_dir false "Bwrd" i (net.bottom0 i) Buf.diff
    (backwardStep net i (printLine (infoLine "Bwrd" i (net.layerAt i).type)
      (pre.foldl (fun w i => collect_backward_eff env F net i w)
        (collectAfterForward env F net w))))
    (by rw [hw2]; exact hcan) (by rw [hw2]; exact hshape)
  rw [hw2] at this
  exact this

/-- At the end of the loops of `collect` the reference dumps `Grad j` and
`Wght j` hold the gradient and the data of parameter `j`. -/
theorem collect_files_param (env : HarnessEnv) (F : Flags) (net : Net) (w : World)
    (hp : net.params.length ≤ 2 ^ 31) (j : Nat) (hj : j < net.params.length) :
    (((collectAfterParams env F net w).blobs (net.paramAt j)).cpu_diff.length =
        ((collectAfterParams env F net w).blobs (net.paramAt j)).count * sizeof_real_t →
      canWrite env (dumpPath F.collect_dir false "Grad" j)
        ((collectAfterParams env F net w).blobs (net.paramAt j)).count →
      (collectAfterParams env F net w).files (dumpPath F.collect_dir false "Grad" j) =
        some ((collectAfterParams env F net w).blobs (net.paramAt j)).cpu_diff) ∧
    (((collectAfterParams env F net w).blobs (net.paramAt j)).cpu_data.length =
        ((collectAfterParams env F net w).blobs (net.paramAt j)).count * sizeof_real_t →
      canWrite env (dumpPath F.collect_dir false "Wght" j)
        ((collectAfterParams env F net w).blobs (net.paramAt j)).count →
      (collectAfterParams env F net w).files (dumpPath F.collect_dir false "Wght" j) =
        some ((collectAfterParams env F net w).blobs (net.paramAt j)).cpu_data) := by
  obtain ⟨pre, post, hsplit⟩ := List.append_of_mem (List.mem_range.2 hj)
  obtain ⟨_, _, hpost⟩ := split_not_mem _ pre post j _ (Or.inl rfl) hsplit
  have hfinal : (collectAfterParams env F net w).blobs =
      (collectAfterBackward env F net w).blobs := by
    rw [collectAfterParams_blobs, collectAfterBackward_blobs]
  have hb : (pre.foldl (fun w j => collect_param_eff env F net j w)
      (collectAfterBackward env F net w)).blobs = (collectAfterBackward env F net w).blobs := by
    rw [foldl_blobs _ (fun _ b => b) (collect_param_eff_blobs env F net)]
    generalize pre = l
    induction l with
    | nil => rfl
    | cons a l ih => exact ih
  rw [hfinal]
  unfold collectAfterParams
  rw [hsplit, List.foldl_append, List.foldl_cons]
  constructor
  · intro hshape hcan
    rw [foldl_files_keep _ _ _ (fun k hk w =>
      collect_param_eff_other env F net k w _
        (dumpPath_ne _ _ _ _ _ _ (by decide) (by decide) (by omega)
          (by have := (hpost k hk).2; omega) (Or.inr (fun h => (hpost k hk).1 h.symm)))
        (dumpPath_ne _ _ _ _ _ _ (by decide) (by decide) (by omega)
          (by have := (hpost k hk).2; omega) (Or.inl (by decide))))]
    unfold collect_param_eff
    rw [saveStep_files_other _ _ _ _ _ _ _ _ _
      (dumpPath_ne _ _ _ _ _ _ (by decide) (by decide) (by omega) (by omega)
        (Or.inl (by decide)))]
    have := saveStep_files_self env F.collect_dir false "Grad" j (net.paramAt j) Buf.diff
      (pre.foldl (fun w j => collect_param_eff env F net j w)
        (collectAfterBackward env F net w))
      (by rw [hb]; exact hcan) (by rw [hb]; exact hshape)
    rw [hb] at this
    exact this
  · intro hshape hcan
    rw [foldl_files_keep _ _ _ (fun k hk w =>
      collect_param_eff_other env F net k w _
        (dumpPath_ne _ _ _ _ _ _ (by decide) (by decide) (by omega)
          (by have := (hpost k hk).2; omega) (Or.inl (by decide)))
        (dumpPath_ne _ _ _ _ _ _ (by decide) (by decide) (by omega)
          (by have := (hpost k hk).2; omega) (Or.inr (fun h => (hpost k hk).1 h.symm))))]
    unfold collect_param_eff
    have := saveStep_files_self env F.collect_dir false "Wght" j (net.paramAt j) Buf.data
      (saveStep env F.collect_dir false "Grad" j (net.paramAt j) Buf.diff
        (pre.foldl (fun w j => collect_param_eff env F net j w)
          (collectAfterBackward env F net w)))
      (by rw [saveStep_blobs, hb]; exact hcan) (by rw [saveStep_blobs, hb]; exact hshape)
    rw [saveStep_blobs, hb] at this
    exact this

theorem collect_backward_eff_skip (env : HarnessEnv) (F : Flags) (net : Net) (i : Nat)
    (w : World) (hneed : needsBackward (net.layerAt i) = false) :
    (collect_backward_eff env F net i w).files = w.files := by
  unfold collect_backward_eff
  rw [if_neg (by simp [hneed])]
  rfl

/-- The loops of `collect` write no dump `Bwrd i` for a layer whose first input
needs no gradient. -/
theorem collect_files_no_bwrd (env : HarnessEnv) (F : Flags) (net : Net) (w : World)
    (hn : net.layers.length ≤ 2 ^ 31) (hp : net.params.length ≤ 2 ^ 31)
    (i : Nat) (hi : i < net.layers.length) (hneed : needsBackward (net.layerAt i) = false) :
    (collectAfterParams env F net w).files (dumpPath F.collect_dir false "Bwrd" i) =
      w.files (dumpPath F.collect_dir false "Bwrd" i) := by
  unfold collectAfterParams
  rw [foldl_files_keep _ _ _ (fun j hj w =>
    collect_param_eff_other env F net j w _
      (dumpPath_ne _ _ _ _ _ _ (by decide) (by decide) (by omega)
        (by have := List.mem_range.1 hj; omega) (Or.inl (by decide)))
      (dumpPath_ne _ _ _ _ _ _ (by decide) (by decide) (by omega)
        (by have := List.mem_range.1 hj; omega) (Or.inl (by decide))))]
  unfold collectAfterBackward
  rw [foldl_files_keep _ _ _ (fun j hj w => by
    by_cases hji : j = i
    · subst hji
      rw [collect_backward_eff_skip env F net j w hneed]
    · exact collect_backward_eff_other env F net j w _
        (dumpPath_ne _ _ _ _ _ _ (by decide) (by decide) (by omega)
          (by have := List.mem_range.1 (List.mem_reverse.1 hj); omega)
          (Or.inr (fun h => hji h.symm))))]
  unfold collectAfterForward
  rw [foldl_files_keep _ _ _ (fun j hj w =>
    collect_forward_eff_other env F net j w _
      (dumpPath_ne _ _ _ _ _ _ (by decide) (by decide) (by omega)
        (by have := List.mem_range.1 hj; omega) (Or.inl (by decide)))),
    zeroParamDiffs_files]

/-- C9. Collect traversal. A run of `collect` that reaches the traversal (a
`DETERMINISTIC` build, a model given, a resolved device set, the info file
opened) on a well-formed net of at most `2^31` layers and parameters ends with
exit code 0 after exactly the calls of the spec, in its order: every parameter
gradient zeroed; for `i = 0..n-1` the forward step of layer `i` and the dump
`Fwrd i` of its first output; for `i = n-1..0` the backward step of layer `i`
and the dump `Bwrd i` of its first input gradient exactly when the
need-gradient list is non-empty with first entry true; for `j = 0..p-1` the
dumps `Grad j` and `Wght j`. The info file holds one `Fwrd` line per layer in
ascending order and then one `Bwrd` line per layer in descending order, and
every dump is written with the reference prefix into the collect directory.
The state the run leaves is that of these calls: zeroing sets the gradient of
every parameter to zero bytes and changes nothing else; the blobs at the end
are those the forward steps in ascending order and then the backward steps in
descending order make of the zeroed blobs; and every dump that gets into its
file in full holds, at the end of the run, the bytes the spec names: `REFFwrd i`
the first output of layer `i` as its forward step left it, `REFBwrd i` the
first input gradient as the backward step of layer `i` left it (the file is
not touched when the layer needs no gradient), `REFGrad j` and `REFWght j` the
gradient and the data of parameter `j`. -/
theorem collect_traversal (env : HarnessEnv) (F : Flags) (net : Net) (w : World)
    (gpus : List Int)
    (hdet : env.DETERMINISTIC = true)
    (hmodel : F.model.length > 0)
    (hgpus : get_gpus env.deviceCount F.gpu [] = Res.ok gpus)
    (hopen : env.fopen_write (infoPath F.collect_dir (decide (gpus.length ≠ 0))) = true)
    (hwf : net.wellFormed)
    (hn : net.layers.length ≤ 2 ^ 31) (hp : net.params.length ≤ 2 ^ 31) :
    ∃ w', collect env F net w = Exec.halted w' (Outcome.exit 0) ∧
      w'.steps =
        (harness_opened env F.collect_dir (decide (gpus.length ≠ 0))
          (harness_place gpus w)).steps ++ collectSpecSteps F net ∧
      w'.info = specInfoLines net ∧
      (∀ dir t p i b bf, Step.saveToFile dir t p i b bf ∈ collectSpecSteps F net →
        dir = F.collect_dir ∧ t = false) ∧
      (∀ b ∈ net.params,
        ((zeroParamDiffs net w).blobs b).cpu_diff =
          List.replicate ((w.blobs b).count * sizeof_real_t) 0) ∧
      (∀ b, ((zeroParamDiffs net w).blobs b).count = (w.blobs b).count ∧
        ((zeroParamDiffs net w).blobs b).cpu_data = (w.blobs b).cpu_data ∧
        (b ∉ net.params → (zeroParamDiffs net w).blobs b = w.blobs b)) ∧
      w'.blobs =
        backwardBlobs net (List.range net.layers.length).reverse
          (forwardBlobs net (List.range net.layers.length) (zeroParamDiffs net w).blobs) ∧
      (∀ pre i post, List.range net.layers.length = pre ++ i :: post →
        ∀ out,
          out = net.Forward i (forwardBlobs net pre (zeroParamDiffs net w).blobs)
            (net.top0 i) →
          out.cpu_data.length = out.count * sizeof_real_t →
          canWrite env (dumpPath F.collect_dir false "Fwrd" i) out.count →
          w'.files (dumpPath F.collect_dir false "Fwrd" i) = some out.cpu_data) ∧
      (∀ pre i post, (List.range net.layers.length).reverse = pre ++ i :: post →
        needsBackward (net.layerAt i) = true →
        ∀ out,
          out = net.Backward i
            (backwardBlobs net pre
              (forwardBlobs net (List.range net.layers.length) (zeroParamDiffs net w).blobs))
            (net.bottom0 i) →
          out.cpu_diff.length = out.count * sizeof_real_t →
          canWrite env (dumpPath F.collect_dir false "Bwrd" i) out.count →
          w'.files (dumpPath F.collect_dir false "Bwrd" i) = some out.cpu_diff) ∧
      (∀ i, i < net.layers.length → needsBackward (net.layerAt i) = false →
        w'.files (dumpPath F.collect_dir false "Bwrd" i) =
          w.files (dumpPath F.collect_dir false "Bwrd" i)) ∧
      (∀ j, j < net.params.length →
        ∀ b, b = w'.blobs (net.paramAt j) →
          (b.cpu_diff.length = b.count * sizeof_real_t →
            canWrite env (dumpPath F.collect_dir false "Grad" j) b.count →
            w'.files (dumpPath F.collect_dir false "Grad" j) = some b.cpu_diff) ∧
          (b.cpu_data.length = b.count * sizeof_real_t →
            canWrite env (dumpPath F.collect_dir false "Wght" j) b.count →
            w'.files (dumpPath F.collect_dir false "Wght" j) = some b.cpu_data)) := by
  obtain ⟨hsf, hsb, hsi, hso⟩ := harness_opened_fields env F.collect_dir
    (decide (gpus.length ≠ 0)) gpus w
  have hw1 : (harness_opened env F.collect_dir (decide (gpus.length ≠ 0))
      (harness_place gpus w)).infoOpen = true := by rw [hso]; exact hopen
  have hZ := zeroParamDiffs_blobs_congr net _ _ hsb
  have hrun : collect env F net w = Exec.halted
      { collectAfterParams env F net (harness_opened env F.collect_dir
          (decide (gpus.length ≠ 0)) (harness_place gpus w)) with
        infoOpen := false,
        steps := (collectAfterParams env F net (harness_opened env F.collect_dir
          (decide (gpus.length ≠ 0)) (harness_place gpus w))).steps ++ [Step.fclose_info] }
      (Outcome.exit 0) := by
    unfold collect
    rw [if_neg (by simp [hdet]), if_neg (not_not.2 hmodel)]
    simp only [hgpus]
    rw [harness_open_running _ _ _ _ hopen]
    simp only [Exec.andThen]
    rw [collect_traverse_eq env F net hwf _ hw1]
  obtain ⟨hst, hinfo⟩ := collectAfterParams_steps env F net
    (harness_opened env F.collect_dir (decide (gpus.length ≠ 0)) (harness_place gpus w))
  refine ⟨_, hrun, hst, ?_, ?_, ?_, ?_, ?_, ?_, ?_, ?_, ?_⟩
  · show (collectAfterParams env F net _).info = _
    rw [hinfo, hsi]
    rfl
  · intro dir t p i b bf hmem
    simpa [Step.savesAs] using collectSpecSteps_savesAs F net _ hmem
  · intro b hb
    unfold zeroParamDiffs
    rw [zeroParamDiffs_blobs, if_pos hb]
  · intro b
    unfold zeroParamDiffs
    rw [zeroParamDiffs_blobs]
    by_cases hb : b ∈ net.params
    · rw [if_pos hb]
      exact ⟨rfl, rfl, fun h => absurd hb h⟩
    · rw [if_neg hb]
      exact ⟨rfl, rfl, fun _ => rfl⟩
  · show (collectAfterParams env F net _).blobs = _
    rw [collectAfterParams_blobs, hZ]
  · intro pre i post hsplit out hout hshape hcan
    subst hout
    show (collectAfterParams env F net _).files _ = _
    rw [← hZ] at hshape hcan ⊢
    exact collect_files_fwrd env F net _ hn hp pre post i hsplit hshape hcan
  · intro pre i post hsplit hneed out hout hshape hcan
    subst hout
    show (collectAfterParams env F net _).files _ = _
    rw [← hZ, ← collectAfterForward_blobs env F net] at hshape hcan ⊢
    exact collect_files_bwrd env F net _ hn hp pre post i hsplit hneed hshape hcan
  · intro i hi hneed
    show (collectAfterParams env F net _).files _ = _
    rw [collect_files_no_bwrd env F net _ hn hp i hi hneed, hsf]
  · intro j hj b hb
    subst hb
    exact collect_files_param env F net _ hp j hj

/-- Witness for C9: the sample net of two layers and one parameter. The run
returns 0 after the calls of the spec, and leaves in `REFFwrd0000.bin` and
`REFFwrd0001.bin` the first outputs of the two layers, in `REFBwrd0001.bin` the
first input gradient of layer 1, and in `REFGrad0000.bin` and
`REFWght0000.bin` the zeroed gradient and the data of the parameter. -/
theorem collect_traversal_witness :
    ∃ w', collect sampleHarnessEnv { model := "m.prototxt" } sampleNet sampleWorld =
        Exec.halted w' (Outcome.exit 0) ∧
      w'.steps =
        (harness_opened sampleHarnessEnv "collect_out" (decide (([] : List Int).length ≠ 0))
          (harness_place [] sampleWorld)).steps ++
          collectSpecSteps { model := "m.prototxt" } sampleNet ∧
      w'.info = specInfoLines sampleNet ∧
      w'.files "collect_out/REFFwrd0000.bin" = some [1, 0, 0, 0] ∧
      w'.files "collect_out/REFFwrd0001.bin" = some [2, 0, 0, 0] ∧
      w'.files "collect_out/REFBwrd0001.bin" = some [9, 9, 9, 9] ∧
      w'.files "collect_out/REFGrad0000.bin" = some [0, 0, 0, 0] ∧
      w'.files "collect_out/REFWght0000.bin" = some [0, 0, 0, 0] :=
  let ⟨w', h1, h2, h3, _, _, _, hb, hf, hbw, _, hpar⟩ :=
    collect_traversal sampleHarnessEnv { model := "m.prototxt" } sampleNet sampleWorld []
      rfl (by decide) (by decide) rfl (by decide) (by decide) (by decide)
  ⟨w', h1, h2, h3,
    hf [] 0 [1] rfl _ rfl rfl ⟨rfl, by decide, by decide⟩,
    hf [0] 1 [] rfl _ rfl rfl ⟨rfl, by decide, by decide⟩,
    hbw [] 1 [0] rfl rfl _ rfl rfl ⟨rfl, by decide, by decide⟩,
    ((hpar 0 (by decide) _ rfl).1 (by rw [hb]; rfl)
      (by rw [hb]; exact ⟨rfl, by decide, by decide⟩)).trans (by rw [hb]; rfl),
    ((hpar 0 (by decide) _ rfl).2 (by rw [hb]; rfl)
      (by rw [hb]; exact ⟨rfl, by decide, by decide⟩)).trans (by rw [hb]; rfl)⟩

/-! ## compare: the run -/

theorem compare_forward_run (env : HarnessEnv) (F : Flags) (net : Net) (hwf : net.wellFormed)
    (i : Nat) (hi : i < net.layers.length) (w : World) (hw : w.infoOpen = true) :
    compare_forward env F net i w = Exec.running (compare_forward_eff env F net i w) ∧
      (compare_forward_eff env F net i w).infoOpen = true := by
  have hget : net.layers[i]? = some net.layers[i] := List.getElem?_eq_getElem hi
  have hl := layerAt_of_getElem? net i _ hget
  have htop := (hwf _ (List.getElem_mem hi)).1
  unfold compare_forward
  rw [hget]
  simp only [fprintf_info, hw, if_true, Exec.andThen]
  constructor
  · cases ht : net.layers[i].top_vec with
    | nil => exact absurd ht htop
    | cons t ts =>
      simp only [compare_forward_eff, refDumpPath, Net.top0, hl, ht, List.headD_cons]
  · simpa [compare_forward_eff, loadStep, saveStep, forwardStep, printLine] using hw

theorem compare_backward_run (env : HarnessEnv) (F : Flags) (net : Net) (hwf : net.wellFormed)
    (i : Nat) (hi : i < net.layers.length) (w : World) (hw : w.infoOpen = true) :
    compare_backward env F net i w = Exec.running (compare_backward_eff env F net i w) ∧
      (compare_backward_eff env F net i w).infoOpen = true := by
  have hget : net.layers[i]? = some net.layers[i] := List.getElem?_eq_getElem hi
  have hl := layerAt_of_getElem? net i _ hget
  have hbot := (hwf _ (List.getElem_mem hi)).2
  unfold compare_backward
  rw [hget]
  simp only [fprintf_info, hw, if_true, Exec.andThen]
  unfold compare_backward_eff
  rw [hl]
  by_cases hn : needsBackward net.layers[i] = true
  · rw [if_pos hn, if_pos hn]
    cases hb : net.layers[i].bottom_vec with
    | nil => exact absurd hb (hbot hn)
    | cons b bs =>
      refine ⟨by simp only [refDumpPath, Net.bottom0, hl, hb, List.headD_cons], ?_⟩
      simpa [loadStep, saveStep, backwardStep, printLine] using hw
  · rw [if_neg hn, if_neg hn]
    exact ⟨rfl, by simpa [backwardStep, printLine] using hw⟩

theorem compare_param_run (env : HarnessEnv) (F : Flags) (net : Net)
    (j : Nat) (hj : j < net.params.length) (w : World) (hw : w.infoOpen = true) :
    compare_param env F net j w = Exec.running (compare_param_eff env F net j w) ∧
      (compare_param_eff env F net j w).infoOpen = true := by
  have hget : net.params[j]? = some net.params[j] := List.getElem?_eq_getElem hj
  unfold compare_param
  rw [hget]
  refine ⟨by simp [compare_param_eff, Net.paramAt, hget], ?_⟩
  simpa [compare_param_eff, saveStep] using hw

theorem compare_forward_eff_steps (env : HarnessEnv) (F : Flags) (net : Net) (i : Nat)
    (w : World) :
    (compare_forward_eff env F net i w).steps = w.steps ++ compareSpecForward F net i := by
  simp [compare_forward_eff, loadStep, saveStep, forwardStep, printLine, compareSpecForward]

theorem compare_backward_eff_steps (env : HarnessEnv) (F : Flags) (net : Net) (i : Nat)
    (w : World) :
    (compare_backward_eff env F net i w).steps = w.steps ++ compareSpecBackward F net i := by
  unfold compare_backward_eff compareSpecBackward
  by_cases hn : needsBackward (net.layerAt i) = true
  · rw [if_pos hn, if_pos ((needsBackward_iff _).1 hn)]
    simp [loadStep, saveStep, backwardStep, printLine]
  · rw [if_neg hn, if_neg (fun h => hn ((needsBackward_iff _).2 h))]
    simp [backwardStep, printLine]

theorem compare_param_eff_steps (env : HarnessEnv) (F : Flags) (net : Net) (j : Nat)
    (w : World) :
    (compare_param_eff env F net j w).steps = w.steps ++ compareSpecParam F net j := by
  simp [compare_param_eff, saveStep, compareSpecParam]

/-- The traversal of `compare` from a state with the info file open: it does
not end the run, makes the calls of the spec, and goes through the state left
by the forward loop. -/
theorem compare_traverse_run (env : HarnessEnv) (F : Flags) (net : Net)
    (hwf : net.wellFormed) (w : World) (hw : w.infoOpen = true) :
    ∃ w', compare_traverse env F net w = Exec.running w' ∧
      w'.steps = w.steps ++ compareSpecSteps F net ∧
      forLoop (List.range net.layers.length) (compare_forward env F net)
        (zeroParamDiffs net w) = Exec.running (compareAfterForward env F net w) ∧
      forLoop (List.range net.layers.length).reverse (compare_backward env F net)
        (compareAfterForward env F net w) =
          Exec.running ((List.range net.layers.length).reverse.foldl
            (fun w i => compare_backward_eff env F net i w)
            (compareAfterForward env F net w)) := by
  obtain ⟨z1, _, z3⟩ := zeroParamDiffs_fields net w
  have hz : (zeroParamDiffs net w).infoOpen = true := by rw [z3, hw]
  obtain ⟨f1, f2⟩ := forLoop_pure (compare_forward env F net) (compare_forward_eff env F net)
    (fun w => w.infoOpen = true) (List.range net.layers.length)
    (fun i hi w hw => compare_forward_run env F net hwf i (List.mem_range.1 hi) w hw)
    (zeroParamDiffs net w) hz
  obtain ⟨b1, b2⟩ := forLoop_pure (compare_backward env F net) (compare_backward_eff env F net)
    (fun w => w.infoOpen = true) (List.range net.layers.length).reverse
    (fun i hi w hw =>
      compare_backward_run env F net hwf i (List.mem_range.1 (List.mem_reverse.1 hi)) w hw)
    _ f2
  obtain ⟨p1, p2⟩ := forLoop_pure (compare_param env F net) (compare_param_eff env F net)
    (fun w => w.infoOpen = true) (List.range net.params.length)
    (fun j hj w hw => compare_param_run env F net j (List.mem_range.1 hj) w hw)
    _ b2
  have main : ∃ w', compare_traverse env F net w = Exec.running w' ∧
      w'.steps = w.steps ++ compareSpecSteps F net := by
    unfold compare_traverse
    rw [f1]
    simp only [Exec.andThen]
    rw [b1]
    simp only [Exec.andThen]
    rw [p1]
    simp only [Exec.andThen, fclose_info]
    rw [if_pos p2]
    refine ⟨_, rfl, ?_⟩
    simp only
    rw [foldl_steps _ _ (fun i w => compare_param_eff_steps env F net i w),
      foldl_steps _ _ (fun i w => compare_backward_eff_steps env F net i w),
      foldl_steps _ _ (fun i w => compare_forward_eff_steps env F net i w), z1]
    simp [compareSpecSteps]
  obtain ⟨w', m1, m2⟩ := main
  exact ⟨w', m1, m2, f1, b1⟩

/-! ## Target and reference paths never meet -/

theorem zeroPad_digits (w n : Nat) : ∀ c ∈ zeroPad w (utoa n), isDigit c = true := by
  intro c hc
  unfold zeroPad at hc
  rcases List.mem_append.1 hc with h | h
  · rw [(List.mem_replicate.1 h).2]; decide
  · exact utoa_all (fun c => isDigit c = true) (fun d hd => (digitOf_facts d hd).1) n c h

theorem pathTag_eq (X pfx r D : List Char) (hp : pfx.length = 3) (hr : r.length = 4)
    (hlast : r.reverse.head?.map isDigit = some false)
    (hD : ∀ c ∈ D, isDigit c = true) :
    pathTag (X ++ pfx ++ r ++ D ++ ".bin".data) = r.reverse ++ pfx.reverse := by
  have hbin : ".bin".data.reverse = ['n', 'i', 'b', '.'] := by decide
  unfold pathTag
  simp only [List.reverse_append, hbin, List.append_assoc]
  have hdrop : List.drop 4 (['n', 'i', 'b', '.'] ++
      (D.reverse ++ (r.reverse ++ (pfx.reverse ++ X.reverse)))) =
      D.reverse ++ (r.reverse ++ (pfx.reverse ++ X.reverse)) := List.drop_left' rfl
  rw [hdrop, List.dropWhile_append_of_pos (fun a ha => hD a (List.mem_reverse.1 ha))]
  cases hrr : r.reverse with
  | nil => rw [hrr] at hlast; simp at hlast
  | cons c t =>
    rw [hrr] at hlast
    have hc : ¬ (isDigit c = true) := by simpa using hlast
    rw [List.cons_append, List.dropWhile_cons_of_neg hc, ← List.cons_append, ← hrr,
      ← List.append_assoc]
    exact List.take_left' (by simp [hp, hr])

theorem roles_shape : ∀ r ∈ dumpRoles,
    r.data.length = 4 ∧ r.data.reverse.head?.map isDigit = some false := by
  decide

theorem tgtDumpPath_data (F : Flags) (r : String) (hr : r ∈ dumpRoles) (j : Int)
    (h0 : 0 ≤ j) (h1 : j < 2 ^ 31) :
    (tgtDumpPath F r j).data =
      (c_str F.compare_output_dir ++ ['/']) ++ "TGT".data ++ r.data ++
        zeroPad 4 (utoa j.toNat) ++ ".bin".data := by
  unfold tgtDumpPath
  rw [dumpPath_data, getFileName_role_data true r hr j h0 h1]
  simp [List.append_assoc]

/-- When the directory of the reference dumps and a dump name fit the buffer
of `FILENAME_MAX` bytes, the path `compare` loads a reference dump from is the
path `collect` writes it to. -/
theorem refDumpPath_eq (F : Flags) (hfit : F.collect_dir.utf8ByteSize + 23 ≤ FILENAME_MAX)
    (r : String) (hr : r ∈ dumpRoles) (i : Int) (h0 : 0 ≤ i) (h1 : i < 2 ^ 31) :
    refDumpPath F r i = dumpPath F.collect_dir false r i := by
  unfold refDumpPath getBinFilePath dumpPath snprintf
  congr 1
  apply List.take_of_length_le
  rw [getFileName_role_data false r hr i h0 h1]
  have hlen : (utoa i.toNat).length ≤ 10 := utoa_length_le 9 i.toNat (by omega)
  have hz := zeroPad_length_le 4 (utoa i.toNat)
  have h4 := (roles_shape r hr).1
  have hn : (c_str F.collect_dir).length = F.collect_dir.utf8ByteSize := c_str_length _
  have e1 : (if false = true then "TGT" else "REF").data.length = 3 := rfl
  have e2 : ".bin".data.length = 4 := rfl
  have e3 : "/".data.length = 1 := rfl
  simp only [List.length_append, hn, e1, e2, e3, h4]
  unfold FILENAME_MAX at hfit ⊢
  omega

theorem refDumpPath_data (F : Flags) (hfit : F.collect_dir.utf8ByteSize + 23 ≤ FILENAME_MAX)
    (r : String) (hr : r ∈ dumpRoles) (i : Int) (h0 : 0 ≤ i) (h1 : i < 2 ^ 31) :
    (refDumpPath F r i).data =
      (c_str F.collect_dir ++ ['/']) ++ "REF".data ++ r.data ++
        zeroPad 4 (utoa i.toNat) ++ ".bin".data := by
  rw [refDumpPath_eq F hfit r hr i h0 h1, dumpPath_data,
    getFileName_role_data false r hr i h0 h1]
  simp [List.append_assoc]

/-- No target dump `compare` writes has the path of a reference dump it
loads, whatever the two directories are. -/
theorem tgt_ne_ref (F : Flags) (hfit : F.collect_dir.utf8ByteSize + 23 ≤ FILENAME_MAX)
    (r1 r2 : String) (hr1 : r1 ∈ dumpRoles) (hr2 : r2 ∈ dumpRoles) (j i : Int)
    (hj : 0 ≤ j ∧ j < 2 ^ 31) (hi : 0 ≤ i ∧ i < 2 ^ 31) :
    tgtDumpPath F r1 j ≠ refDumpPath F r2 i := by
  intro h
  have hd := congrArg (fun s : String => pathTag s.data) h
  simp only [tgtDumpPath_data F r1 hr1 j hj.1 hj.2,
    refDumpPath_data F hfit r2 hr2 i hi.1 hi.2] at hd
  rw [pathTag_eq _ "TGT".data r1.data _ rfl (roles_shape r1 hr1).1 (roles_shape r1 hr1).2
      (zeroPad_digits 4 _),
    pathTag_eq _ "REF".data r2.data _ rfl (roles_shape r2 hr2).1 (roles_shape r2 hr2).2
      (zeroPad_digits 4 _)] at hd
  have := (List.append_inj hd (by
    simp [(roles_shape r1 hr1).1, (roles_shape r2 hr2).1])).2
  exact absurd this (by decide)

/-! ## compare: reference files are left alone, outputs are re-grounded -/

theorem saveStep_files_ref (env : HarnessEnv) (F : Flags)
    (hfit : F.collect_dir.utf8ByteSize + 23 ≤ FILENAME_MAX) (r : String) (hr : r ∈ dumpRoles)
    (j : Nat) (hj : j < 2 ^ 31) (b : Nat) (bf : Buf) (w : World) (p : String)
    (hp : isRefPath F p) :
    (saveStep env F.compare_output_dir true r j b bf w).files p = w.files p := by
  obtain ⟨r2, hr2, i, hi0, hi1, rfl⟩ := hp
  have hne : refDumpPath F r2 i ≠ tgtDumpPath F r j := fun h =>
    tgt_ne_ref F hfit r r2 hr hr2 j i ⟨by omega, by exact_mod_cast hj⟩ ⟨hi0, hi1⟩ h.symm
  exact saveStep_files_other _ _ _ _ _ _ _ _ _ hne

theorem compare_forward_eff_files (env : HarnessEnv) (F : Flags) (net : Net)
    (hfit : F.collect_dir.utf8ByteSize + 23 ≤ FILENAME_MAX) (i : Nat) (hi : i < 2 ^ 31) (w : World)
    (p : String) (hp : isRefPath F p) :
    (compare_forward_eff env F net i w).files p = w.files p := by
  unfold compare_forward_eff
  show (saveStep env F.compare_output_dir true "Fwrd" i (net.top0 i) Buf.data _).files p = _
  rw [saveStep_files_ref env F hfit "Fwrd" (by decide) i hi _ _ _ p hp]
  rfl

theorem compare_backward_eff_files (env : HarnessEnv) (F : Flags) (net : Net)
    (hfit : F.collect_dir.utf8ByteSize + 23 ≤ FILENAME_MAX) (i : Nat) (hi : i < 2 ^ 31) (w : World)
    (p : String) (hp : isRefPath F p) :
    (compare_backward_eff env F net i w).files p = w.files p := by
  unfold compare_backward_eff
  split
  · show (saveStep env F.compare_output_dir true "Bwrd" i (net.bottom0 i) Buf.diff _).files p = _
    rw [saveStep_files_ref env F hfit "Bwrd" (by decide) i hi _ _ _ p hp]
    rfl
  · rfl

theorem foldl_files_ref (eff : Nat → World → World) (p : String)
    (idx : List Nat) (bound : Nat) (hidx : ∀ j ∈ idx, j < bound)
    (h : ∀ j, j < bound → ∀ w, (eff j w).files p = w.files p) :
    ∀ w, (idx.foldl (fun w j => eff j w) w).files p = w.files p := by
  induction idx with
  | nil => intro w; rfl
  | cons j rest ih =>
    intro w
    rw [List.foldl_cons, ih (fun k hk => hidx k (List.mem_cons_of_mem _ hk)),
      h j (hidx j (List.mem_cons_self _ _))]

theorem loadFromFile_exact (files : Files) (path : String) (data content : List Nat)
    (count : Nat) (hfile : files path = some content)
    (hlen : content.length = count * sizeof_real_t)
    (hshape : data.length = count * sizeof_real_t) :
    loadFromFile files path data count = (true, content) := by
  unfold loadFromFile
  rw [hfile]
  simp only [← hlen, Nat.min_self, List.take_length, decide_True]
  rw [List.drop_of_length_le (by omega)]
  simp

/-- One pass of the forward loop of `compare`: the first output of layer `i`
is what `loadFromFile` makes of the output the forward step computed, read from
the reference dump `Fwrd i` as the pass found it. -/
theorem compare_forward_eff_blob (env : HarnessEnv) (F : Flags) (net : Net)
    (hfit : F.collect_dir.utf8ByteSize + 23 ≤ FILENAME_MAX) (i : Nat) (hi : i < 2 ^ 31)
    (wb : World) :
    (compare_forward_eff env F net i wb).blobs (net.top0 i) =
      (net.Forward i wb.blobs (net.top0 i)).setBuffer Buf.data
        (loadFromFile wb.files (refDumpPath F "Fwrd" i)
          (net.Forward i wb.blobs (net.top0 i)).cpu_data
          (net.Forward i wb.blobs (net.top0 i)).count).2 := by
  have hisref : isRefPath F (refDumpPath F "Fwrd" i) :=
    ⟨"Fwrd", by decide, i, by omega, by exact_mod_cast hi, rfl⟩
  have hf : (saveStep env F.compare_output_dir true "Fwrd" i (net.top0 i) Buf.data
      (forwardStep net i (printLine (infoLine "Fwrd" i (net.layerAt i).type) wb))).files
      (refDumpPath F "Fwrd" i) = wb.files (refDumpPath F "Fwrd" i) := by
    rw [saveStep_files_ref env F hfit "Fwrd" (by decide) i hi _ _ _ _ hisref]
    rfl
  unfold compare_forward_eff loadStep
  simp only [if_true]
  show Blob.setBuffer (net.Forward i wb.blobs (net.top0 i)) Buf.data
    (loadFromFile _ (refDumpPath F "Fwrd" i)
      (net.Forward i wb.blobs (net.top0 i)).cpu_data
      (net.Forward i wb.blobs (net.top0 i)).count).2 = _
  unfold loadFromFile
  rw [hf]

/-- One pass of the backward loop of `compare` for a layer whose first input
needs a gradient: the first input gradient is what `loadFromFile` makes of the
gradient the backward step computed, read from the reference dump `Bwrd i` as
the pass found it. -/
theorem compare_backward_eff_blob (env : HarnessEnv) (F : Flags) (net : Net)
    (hfit : F.collect_dir.utf8ByteSize + 23 ≤ FILENAME_MAX) (i : Nat) (hi : i < 2 ^ 31)
    (wb : World) (hneed : needsBackward (net.layerAt i) = true) :
    (compare_backward_eff env F net i wb).blobs (net.bottom0 i) =
      (net.Backward i wb.blobs (net.bottom0 i)).setBuffer Buf.diff
        (loadFromFile wb.files (refDumpPath F "Bwrd" i)
          (net.Backward i wb.blobs (net.bottom0 i)).cpu_diff
          (net.Backward i wb.blobs (net.bottom0 i)).count).2 := by
  have hisref : isRefPath F (refDumpPath F "Bwrd" i) :=
    ⟨"Bwrd", by decide, i, by omega, by exact_mod_cast hi, rfl⟩
  have hf : (saveStep env F.compare_output_dir true "Bwrd" i (net.bottom0 i) Buf.diff
      (backwardStep net i (printLine (infoLine "Bwrd" i (net.layerAt i).type) wb))).files
      (refDumpPath F "Bwrd" i) = wb.files (refDumpPath F "Bwrd" i) := by
    rw [saveStep_files_ref env F hfit "Bwrd" (by decide) i hi _ _ _ _ hisref]
    rfl
  unfold compare_backward_eff
  rw [if_pos hneed]
  unfold loadStep
  simp only [if_true]
  show Blob.setBuffer (net.Backward i wb.blobs (net.bottom0 i)) Buf.diff
    (loadFromFile _ (refDumpPath F "Bwrd" i)
      (net.Backward i wb.blobs (net.bottom0 i)).cpu_diff
      (net.Backward i wb.blobs (net.bottom0 i)).count).2 = _
  unfold loadFromFile
  rw [hf]

theorem record_foldl_steps (keys : List String) : ∀ w : World,
    (keys.foldl (fun w key => w.record (Step.report_invalid_layer key)) w).steps =
      w.steps ++ keys.map Step.report_invalid_layer := by
  induction keys with
  | nil => intro w; simp
  | cons k ks ih =>
    intro w
    rw [List.foldl_cons, ih]
    simp [World.record]

theorem compare_report_steps (env : HarnessEnv) (F : Flags) (w : World) :
    (compare_report env F w).steps = w.steps ++ compareReportSteps env F := by
  unfold compare_report compareReportSteps
  dsimp only
  split
  · rw [record_foldl_steps]
    simp [World.record]
  · simp [World.record]

theorem foldl_split (eff : Nat → World → World) (pre : List Nat) (i : Nat) (post : List Nat)
    (w : World) :
    (pre ++ i :: post).foldl (fun w j => eff j w) w =
      post.foldl (fun w j => eff j w) (stateAfter eff pre i w) := by
  rw [List.foldl_append, List.foldl_cons]
  rfl

theorem compareAfterForward_files (env : HarnessEnv) (F : Flags) (net : Net)
    (hfit : F.collect_dir.utf8ByteSize + 23 ≤ FILENAME_MAX) (hn : net.layers.length ≤ 2 ^ 31)
    (w : World) (p : String) (hp : isRefPath F p) :
    (compareAfterForward env F net w).files p = w.files p := by
  unfold compareAfterForward
  rw [foldl_files_ref (compare_forward_eff env F net) p _ net.layers.length
    (fun j hj => List.mem_range.1 hj)
    (fun j hj w => compare_forward_eff_files env F net hfit j (by omega) w p hp),
    zeroParamDiffs_files]

theorem writeFile_result (canOpen : Bool) (room flushed : Nat) (path : String)
    (data : List Nat) (count : Nat) (files : Files) :
    ((writeFile canOpen room flushed path data count files).1 = true ↔
      canOpen = true ∧ count * sizeof_real_t ≤ room) := by
  unfold writeFile
  cases canOpen
  · simp
  · simp only [not_true_eq_false, if_false, decide_eq_true_eq, true_and]
    exact min_eq_left_iff

theorem writeFile_content (room flushed : Nat) (path : String)
    (data : List Nat) (count : Nat) (files : Files) :
    (writeFile true room flushed path data count files).2 path =
      some (data.take (min (min (count * sizeof_real_t) room) flushed)) := by
  unfold writeFile
  simp

theorem loadFromFile_result (files : Files) (path : String) (data : List Nat) (count : Nat) :
    ((loadFromFile files path data count).1 = true ↔
      ∃ content, files path = some content ∧ count * sizeof_real_t ≤ content.length) := by
  unfold loadFromFile
  cases h : files path with
  | none => simp
  | some content =>
    simp only [decide_eq_true_eq, Option.some.injEq, exists_eq_left']
    exact min_eq_left_iff

/-- C11 (amended). Tensor dump codec round trip. For a buffer of `count`
elements (`count * 4` bytes), `saveToFile` returns true exactly when the file
could be opened and `fwrite` took all `count * 4` bytes; the result of `fclose`
is not looked at. Once opened, the file holds the bytes of the buffer that
`fwrite` took and the stream got into the file by the time it was closed: a
prefix of the buffer, with no header. When `saveToFile` returns true and the
stream got every byte into the file, the file holds exactly the `count * 4`
bytes of the buffer, and `loadFromFile` on that file with the same count
returns true and fills a buffer of `count` elements with the same bytes.
`loadFromFile` returns true only for a file that can be opened and holds at
least `count * 4` bytes: it returns false when the file cannot be opened or is
shorter. -/
theorem dump_codec_round_trip (fopen_write : String → Bool) (fwrite_room : String → Nat)
    (fclose_flushed : String → Nat)
    (file_path : String) (is_target : Bool) (pfx : String) (id : Int)
    (data : List Nat) (count : Nat) (files : Files)
    (hshape : data.length = count * sizeof_real_t) :
    ((saveToFile fopen_write fwrite_room fclose_flushed file_path is_target pfx id data count
        files).1 = true ↔
      fopen_write (dumpPath file_path is_target pfx id) = true ∧
      count * sizeof_real_t ≤ fwrite_room (dumpPath file_path is_target pfx id)) ∧
    (fopen_write (dumpPath file_path is_target pfx id) = true →
      (saveToFile fopen_write fwrite_room fclose_flushed file_path is_target pfx id data count
          files).2 (dumpPath file_path is_target pfx id) =
        some (data.take (min (min (count * sizeof_real_t)
          (fwrite_room (dumpPath file_path is_target pfx id)))
          (fclose_flushed (dumpPath file_path is_target pfx id))))) ∧
    ((saveToFile fopen_write fwrite_room fclose_flushed file_path is_target pfx id data count
        files).1 = true →
      count * sizeof_real_t ≤ fclose_flushed (dumpPath file_path is_target pfx id) →
      (saveToFile fopen_write fwrite_room fclose_flushed file_path is_target pfx id data count
          files).2 (dumpPath file_path is_target pfx id) = some data ∧
      data.length = count * 4 ∧
      ∀ buffer : List Nat, buffer.length = count * sizeof_real_t →
        loadFromFile
          (saveToFile fopen_write fwrite_room fclose_flushed file_path is_target pfx id data
            count files).2
          (dumpPath file_path is_target pfx id) buffer count = (true, data)) ∧
    (∀ (fs : Files) (path : String) (buffer : List Nat),
      ((loadFromFile fs path buffer count).1 = true ↔
        ∃ content, fs path = some content ∧ count * 4 ≤ content.length) ∧
      (fs path = none → (loadFromFile fs path buffer count).1 = false) ∧
      (∀ content, fs path = some content → content.length < count * 4 →
        (loadFromFile fs path buffer count).1 = false)) := by
  have h4 : sizeof_real_t = 4 := rfl
  have hsave : saveToFile fopen_write fwrite_room fclose_flushed file_path is_target pfx id
      data count files =
      writeFile (fopen_write (dumpPath file_path is_target pfx id))
        (fwrite_room (dumpPath file_path is_target pfx id))
        (fclose_flushed (dumpPath file_path is_target pfx id))
        (dumpPath file_path is_target pfx id) data count files := rfl
  refine ⟨?_, ?_, ?_, ?_⟩
  · rw [hsave]
    exact writeFile_result _ _ _ _ _ _ _
  · intro hopen
    rw [hsave, hopen]
    exact writeFile_content _ _ _ _ _ _
  · intro hok hflush
    have hres := (writeFile_result _ _ _ _ data count files).1 (hsave ▸ hok)
    have hfile : (saveToFile fopen_write fwrite_room fclose_flushed file_path is_target pfx id
        data count files).2 (dumpPath file_path is_target pfx id) = some data := by
      rw [hsave, hres.1]
      exact writeFile_exact _ _ _ _ _ _ hres.2 hflush hshape
    refine ⟨hfile, by rw [hshape, h4], ?_⟩
    intro buffer hbuf
    exact loadFromFile_exact _ _ buffer data count hfile hshape hbuf
  · intro fs path buffer
    have hiff := loadFromFile_result fs path buffer count
    rw [h4] at hiff
    refine ⟨hiff, ?_, ?_⟩
    · intro hnone
      cases hb : (loadFromFile fs path buffer count).1 with
      | false => rfl
      | true =>
        obtain ⟨c, hc, _⟩ := hiff.1 hb
        rw [hnone] at hc
        cases hc
    · intro content hc hlt
      cases hb : (loadFromFile fs path buffer count).1 with
      | false => rfl
      | true =>
        obtain ⟨c, hc2, hle⟩ := hiff.1 hb
        rw [hc] at hc2
        cases hc2
        omega

/-- Witness for C11: a two-element buffer saved as `REFFwrd0003.bin` and
loaded back. -/
theorem dump_codec_round_trip_witness :
    loadFromFile
        (saveToFile (fun _ => true) (fun _ => 100) (fun _ => 100) "out" false "Fwrd" 3
          [1, 2, 3, 4, 5, 6, 7, 8] 2 (fun _ => none)).2
        "out/REFFwrd0003.bin" [0, 0, 0, 0, 0, 0, 0, 0] 2 =
      (true, [1, 2, 3, 4, 5, 6, 7, 8]) :=
  ((dump_codec_round_trip (fun _ => true) (fun _ => 100) (fun _ => 100) "out" false "Fwrd" 3
    [1, 2, 3, 4, 5, 6, 7, 8] 2 (fun _ => none) (by decide)).2.2.1 (by decide) (by decide)).2.2
    [0, 0, 0, 0, 0, 0, 0, 0] (by decide)

/-- Counterexample to C11 as stated: on a disk where `fwrite` takes the eight
bytes of a two-element buffer into the stream and closing the file gets none
of them into it, `saveToFile` returns true, the file is empty, and
`loadFromFile` on it with the same count returns false and reproduces nothing
of the buffer. -/
theorem dump_codec_round_trip_counterexample :
    (saveToFile (fun _ => true) (fun _ => 100) (fun _ => 0) "out" false "Fwrd" 3
      [1, 2, 3, 4, 5, 6, 7, 8] 2 (fun _ => none)).1 = true ∧
    (saveToFile (fun _ => true) (fun _ => 100) (fun _ => 0) "out" false "Fwrd" 3
      [1, 2, 3, 4, 5, 6, 7, 8] 2 (fun _ => none)).2 "out/REFFwrd0003.bin" = some [] ∧
    loadFromFile
        (saveToFile (fun _ => true) (fun _ => 100) (fun _ => 0) "out" false "Fwrd" 3
          [1, 2, 3, 4, 5, 6, 7, 8] 2 (fun _ => none)).2
        "out/REFFwrd0003.bin" [0, 0, 0, 0, 0, 0, 0, 0] 2 =
      (false, [0, 0, 0, 0, 0, 0, 0, 0]) := by
  decide

/-! ## compare: a reference dump that cannot be loaded -/

/-- A run of `compare` that reaches the traversal returns 0 after the calls of
the spec, whatever the files hold and whether or not dumps can be written. -/
theorem compare_run_exit (env : HarnessEnv) (F : Flags) (net : Net) (w : World)
    (gpus : List Int)
    (hdet : env.DETERMINISTIC = true)
    (hmodel : F.model.length > 0)
    (hgpus : get_gpus env.deviceCount F.gpu [] = Res.ok gpus)
    (hopen : env.fopen_write (infoPath F.compare_output_dir (decide (gpus.length ≠ 0))) = true)
    (hwf : net.wellFormed) :
    ∃ w', compare env F net w = Exec.halted w' (Outcome.exit 0) ∧
      w'.steps = (compareStart env F gpus w).steps ++ compareSpecSteps F net ++
        compareReportSteps env F := by
  have hw1 : (compareStart env F gpus w).infoOpen = true := by
    rw [compareStart, (harness_opened_fields env _ _ gpus w).2.2.2]
    exact hopen
  obtain ⟨w', h1, h2, _, _⟩ := compare_traverse_run env F net hwf _ hw1
  refine ⟨compare_report env F w', ?_, ?_⟩
  · unfold compare
    rw [if_neg (by simp [hdet]), if_neg (not_not.2 hmodel)]
    simp only [hgpus]
    rw [harness_open_running _ _ _ _ hopen]
    simp only [Exec.andThen]
    have h1' : compare_traverse env F net
        (harness_opened env F.compare_output_dir (decide (gpus.length ≠ 0))
          (harness_place gpus w)) = Exec.running w' := h1
    rw [h1']
  · rw [compare_report_steps, h2]

theorem loadFromFile_missing (files : Files) (path : String) (data : List Nat) (count : Nat)
    (h : files path = none) : loadFromFile files path data count = (false, data) := by
  unfold loadFromFile
  rw [h]

theorem loadFromFile_short (files : Files) (path : String) (data content : List Nat)
    (count : Nat) (h : files path = some content)
    (hlt : content.length < count * sizeof_real_t) :
    loadFromFile files path data count = (false, content ++ data.drop content.length) := by
  unfold loadFromFile
  rw [h]
  simp only [Nat.min_eq_right (Nat.le_of_lt hlt), List.take_length]
  rw [decide_eq_false (by omega)]

/-- What a call of `loadFromFile` that returns false leaves in the buffer: the
buffer as it was when the file cannot be opened, and the bytes of the file over
the front of the buffer when the file is too short. -/
theorem loadFromFile_failed (files : Files) (path : String) (data : List Nat) (count : Nat)
    (hfail : (loadFromFile files path data count).1 = false) :
    (files path = none ∧ (loadFromFile files path data count).2 = data) ∨
    (∃ content, files path = some content ∧ content.length < count * sizeof_real_t ∧
      (loadFromFile files path data count).2 = content ++ data.drop content.length) := by
  cases h : files path with
  | none =>
    left
    rw [loadFromFile_missing _ _ _ _ h]
    exact ⟨rfl, rfl⟩
  | some content =>
    right
    have hlt : content.length < count * sizeof_real_t := by
      by_contra hge
      have : (loadFromFile files path data count).1 = true :=
        (loadFromFile_result files path data count).2 ⟨content, h, by omega⟩
      rw [hfail] at this
      cases this
    rw [loadFromFile_short _ _ _ content _ h hlt]
    exact ⟨content, rfl, hlt, rfl⟩

/-- C12, as stated, fails: with no reference dump on disk, `compare` on the
sample net does not end fatally at layer 0. `loadFromFile` returns false, the
output of layer 0 stays the locally computed `[1, 0, 0, 0]`, the forward step
of layer 1 and all later calls are made, and the run returns 0. -/
theorem compare_missing_reference_counterexample :
    (loadFromFile sampleWorldNoRef.files "collect_out/REFFwrd0000.bin" [1, 0, 0, 0] 1).1 =
      false ∧
    (compare sampleHarnessEnv { model := "m.prototxt" } sampleNet sampleWorldNoRef).outcome =
      some (Outcome.exit 0) ∧
    (compare sampleHarnessEnv { model := "m.prototxt" } sampleNet sampleWorldNoRef).world.steps =
      [Step.set_mode SolverMode.CPU, Step.fopen_info "compare_out/CPUInfo.txt",
       Step.caffe_set_diff 2,
       Step.fprintf_info "Fwrd0000 Data\n", Step.Forward 0,
       Step.saveToFile "compare_out" true "Fwrd" 0 0 Buf.data,
       Step.loadFromFile "collect_out/REFFwrd0000.bin" 0 Buf.data,
       Step.fprintf_info "Fwrd0001 InnerProduct\n", Step.Forward 1,
       Step.saveToFile "compare_out" true "Fwrd" 1 1 Buf.data,
       Step.loadFromFile "collect_out/REFFwrd0001.bin" 1 Buf.data,
       Step.fprintf_info "Bwrd0001 InnerProduct\n", Step.Backward 1,
       Step.saveToFile "compare_out" true "Bwrd" 1 0 Buf.diff,
       Step.loadFromFile "collect_out/REFBwrd0001.bin" 0 Buf.diff,
       Step.fprintf_info "Bwrd0000 Data\n", Step.Backward 0,
       Step.saveToFile "compare_out" true "Grad" 0 2 Buf.diff,
       Step.saveToFile "compare_out" true "Wght" 0 2 Buf.data,
       Step.fclose_info, Step.proceedWithCompare "compare_out/CPUInfo.txt",
       Step.report_all_correct] ∧
    ((compare sampleHarnessEnv { model := "m.prototxt" } sampleNet
      sampleWorldNoRef).world.blobs 0).cpu_data = [1, 0, 0, 0] := by
  decide

/-- C12, amended. A run of `compare` that reaches the traversal makes all the
calls of the spec and returns 0 whatever the files hold and whether or not the
dumps can be written: neither a reference dump that cannot be loaded nor a
target dump that cannot be written ends the run. When `loadFromFile` returns
false for the reference dump `Fwrd i` (or `Bwrd i`), either the dump cannot be
opened and the first output (the first input gradient) of layer `i` keeps the
locally computed values, or the dump is shorter than the blob and its bytes
lie over the front of the locally computed values, the rest of which stays; in
both cases the rest of the loop runs from that state. -/
theorem compare_missing_reference (env : HarnessEnv) (F : Flags) (net : Net) (w : World)
    (gpus : List Int)
    (hdet : env.DETERMINISTIC = true)
    (hmodel : F.model.length > 0)
    (hgpus : get_gpus env.deviceCount F.gpu [] = Res.ok gpus)
    (hopen : env.fopen_write (infoPath F.compare_output_dir (decide (gpus.length ≠ 0))) = true)
    (hwf : net.wellFormed)
    (hfit : F.collect_dir.utf8ByteSize + 23 ≤ FILENAME_MAX)
    (hn : net.layers.length ≤ 2 ^ 31) :
    (∃ w', compare env F net w = Exec.halted w' (Outcome.exit 0) ∧
      w'.steps = (compareStart env F gpus w).steps ++ compareSpecSteps F net ++
        compareReportSteps env F) ∧
    (∀ (pre : List Nat) (i : Nat) (post : List Nat),
      List.range net.layers.length = pre ++ i :: post →
      ∀ out : Blob,
        out = net.Forward i
          (stateBefore (compare_forward_eff env F net) pre
            (zeroParamDiffs net (compareStart env F gpus w))).blobs (net.top0 i) →
        (loadFromFile w.files (refDumpPath F "Fwrd" i) out.cpu_data out.count).1 = false →
        ((w.files (refDumpPath F "Fwrd" i) = none ∧
            (stateAfter (compare_forward_eff env F net) pre i
              (zeroParamDiffs net (compareStart env F gpus w))).blobs (net.top0 i) = out) ∨
          (∃ content, w.files (refDumpPath F "Fwrd" i) = some content ∧
            content.length < out.count * sizeof_real_t ∧
            (stateAfter (compare_forward_eff env F net) pre i
              (zeroParamDiffs net (compareStart env F gpus w))).blobs (net.top0 i) =
              { out with cpu_data := content ++ out.cpu_data.drop content.length })) ∧
        compareAfterForward env F net (compareStart env F gpus w) =
          post.foldl (fun w j => compare_forward_eff env F net j w)
            (stateAfter (compare_forward_eff env F net) pre i
              (zeroParamDiffs net (compareStart env F gpus w)))) ∧
    (∀ (pre : List Nat) (i : Nat) (post : List Nat),
      (List.range net.layers.length).reverse = pre ++ i :: post →
      needsBackward (net.layerAt i) = true →
      ∀ out : Blob,
        out = net.Backward i
          (stateBefore (compare_backward_eff env F net) pre
            (compareAfterForward env F net (compareStart env F gpus w))).blobs
          (net.bottom0 i) →
        (loadFromFile w.files (refDumpPath F "Bwrd" i) out.cpu_diff out.count).1 = false →
        ((w.files (refDumpPath F "Bwrd" i) = none ∧
            (stateAfter (compare_backward_eff env F net) pre i
              (compareAfterForward env F net (compareStart env F gpus w))).blobs
              (net.bottom0 i) = out) ∨
          (∃ content, w.files (refDumpPath F "Bwrd" i) = some content ∧
            content.length < out.count * sizeof_real_t ∧
            (stateAfter (compare_backward_eff env F net) pre i
              (compareAfterForward env F net (compareStart env F gpus w))).blobs
              (net.bottom0 i) =
              { out with cpu_diff := content ++ out.cpu_diff.drop content.length })) ∧
        (List.range net.layers.length).reverse.foldl
            (fun w j => compare_backward_eff env F net j w)
            (compareAfterForward env F net (compareStart env F gpus w)) =
          post.foldl (fun w j => compare_backward_eff env F net j w)
            (stateAfter (compare_backward_eff env F net) pre i
              (compareAfterForward env F net (compareStart env F gpus w)))) := by
  have hfiles1 : (compareStart env F gpus w).files = w.files :=
    (harness_opened_fields env _ _ gpus w).1
  refine ⟨compare_run_exit env F net w gpus hdet hmodel hgpus hopen hwf, ?_, ?_⟩
  · intro pre i post hsplit out hout hfail
    have hmem : ∀ j ∈ pre ++ i :: post, j < net.layers.length := by
      intro j hj
      rw [← hsplit] at hj
      exact List.mem_range.1 hj
    have hi : i < 2 ^ 31 := by
      have := hmem i (by simp)
      omega
    have hisref : isRefPath F (refDumpPath F "Fwrd" i) :=
      ⟨"Fwrd", by decide, i, by omega, by exact_mod_cast hi, rfl⟩
    have hfb : (stateBefore (compare_forward_eff env F net) pre
        (zeroParamDiffs net (compareStart env F gpus w))).files (refDumpPath F "Fwrd" i) =
        w.files (refDumpPath F "Fwrd" i) := by
      unfold stateBefore
      rw [foldl_files_ref (compare_forward_eff env F net) _ pre net.layers.length
        (fun j hj => hmem j (List.mem_append_left _ hj))
        (fun j hj w => compare_forward_eff_files env F net hfit j (by omega) w _ hisref),
        zeroParamDiffs_files, hfiles1]
    have hblob := compare_forward_eff_blob env F net hfit i hi
      (stateBefore (compare_forward_eff env F net) pre
        (zeroParamDiffs net (compareStart env F gpus w)))
    have hload : ∀ (d : List Nat) (c : Nat),
        loadFromFile (stateBefore (compare_forward_eff env F net) pre
          (zeroParamDiffs net (compareStart env F gpus w))).files (refDumpPath F "Fwrd" i) d c =
        loadFromFile w.files (refDumpPath F "Fwrd" i) d c := by
      intro d c
      unfold loadFromFile
      rw [hfb]
    rw [hload, ← hout] at hblob
    refine ⟨?_, ?_⟩
    · rcases loadFromFile_failed _ _ _ _ hfail with ⟨hnone, hbuf⟩ | ⟨content, hsome, hlt, hbuf⟩
      · left
        refine ⟨hnone, ?_⟩
        show (compare_forward_eff env F net i _).blobs (net.top0 i) = out
        rw [hblob, hbuf]
        rfl
      · right
        refine ⟨content, hsome, hlt, ?_⟩
        show (compare_forward_eff env F net i _).blobs (net.top0 i) = _
        rw [hblob, hbuf]
        rfl
    · unfold compareAfterForward
      rw [hsplit, foldl_split]
  · intro pre i post hsplit hneed out hout hfail
    have hmem : ∀ j ∈ pre ++ i :: post, j < net.layers.length := by
      intro j hj
      rw [← hsplit] at hj
      exact List.mem_range.1 (List.mem_reverse.1 hj)
    have hi : i < 2 ^ 31 := by
      have := hmem i (by simp)
      omega
    have hisref : isRefPath F (refDumpPath F "Bwrd" i) :=
      ⟨"Bwrd", by decide, i, by omega, by exact_mod_cast hi, rfl⟩
    have hfb : (stateBefore (compare_backward_eff env F net) pre
        (compareAfterForward env F net (compareStart env F gpus w))).files
        (refDumpPath F "Bwrd" i) = w.files (refDumpPath F "Bwrd" i) := by
      unfold stateBefore
      rw [foldl_files_ref (compare_backward_eff env F net) _ pre net.layers.length
        (fun j hj => hmem j (List.mem_append_left _ hj))
        (fun j hj w => compare_backward_eff_files env F net hfit j (by omega) w _ hisref),
        compareAfterForward_files env F net hfit hn _ _ hisref, hfiles1]
    have hblob := compare_backward_eff_blob env F net hfit i hi
      (stateBefore (compare_backward_eff env F net) pre
        (compareAfterForward env F net (compareStart env F gpus w))) hneed
    have hload : ∀ (d : List Nat) (c : Nat),
        loadFromFile (stateBefore (compare_backward_eff env F net) pre
          (compareAfterForward env F net (compareStart env F gpus w))).files
          (refDumpPath F "Bwrd" i) d c =
        loadFromFile w.files (refDumpPath F "Bwrd" i) d c := by
      intro d c
      unfold loadFromFile
      rw [hfb]
    rw [hload, ← hout] at hblob
    refine ⟨?_, ?_⟩
    · rcases loadFromFile_failed _ _ _ _ hfail with ⟨hnone, hbuf⟩ | ⟨content, hsome, hlt, hbuf⟩
      · left
        refine ⟨hnone, ?_⟩
        show (compare_backward_eff env F net i _).blobs (net.bottom0 i) = out
        rw [hblob, hbuf]
        rfl
      · right
        refine ⟨content, hsome, hlt, ?_⟩
        show (compare_backward_eff env F net i _).blobs (net.bottom0 i) = _
        rw [hblob, hbuf]
        rfl
    · rw [hsplit, foldl_split]

/-- Witness for C12: a reference dump `REFFwrd0000.bin` of two bytes and no
dump file that can be written; the run returns 0, and the first forward pass
leaves the two bytes over the front of the local output of layer 0 and the
rest of the run goes on from there. -/
theorem compare_missing_reference_witness :
    (∃ w', compare sampleHarnessEnvNoWrite { model := "m.prototxt" } sampleNet
        sampleWorldShortRef = Exec.halted w' (Outcome.exit 0)) ∧
    (stateAfter (compare_forward_eff sampleHarnessEnvNoWrite { model := "m.prototxt" } sampleNet)
        [] 0 (zeroParamDiffs sampleNet
          (compareStart sampleHarnessEnvNoWrite { model := "m.prototxt" } []
            sampleWorldShortRef))).blobs 0 = ⟨1, [10, 11, 0, 0], [7, 7, 7, 7]⟩ :=
  have h := compare_missing_reference sampleHarnessEnvNoWrite { model := "m.prototxt" }
    sampleNet sampleWorldShortRef [] rfl (by decide) (by decide) (by decide) (by decide)
    (by decide) (by decide)
  ⟨h.1.imp (fun _ hw => hw.1),
    ((h.2.1 [] 0 [1] (by decide) ⟨1, [1, 0, 0, 0], [7, 7, 7, 7]⟩ (by decide)
      (by decide)).1.elim (fun hn => absurd hn.1 (by decide))
      (fun ⟨_, hsome, _, hb⟩ => hb.trans (by
        cases Option.some.inj (hsome.symm.trans (show sampleWorldShortRef.files
          (refDumpPath { model := "m.prototxt" } "Fwrd" 0) = some [10, 11] by decide))
        rfl)))⟩

/-! ## compare: the report -/

theorem compareSpecSteps_no_report (F : Flags) (net : Net) :
    ∀ s ∈ compareSpecSteps F net, Step.isReport s = false := by
  intro s hs
  simp only [compareSpecSteps, List.mem_append, List.mem_map, List.mem_flatMap,
    List.mem_singleton] at hs
  rcases hs with (((⟨_, _, h⟩ | ⟨_, _, h⟩) | ⟨_, _, h⟩) | ⟨_, _, h⟩) | h
  · subst h; rfl
  · simp only [compareSpecForward, List.mem_cons, List.mem_singleton, List.not_mem_nil,
      or_false] at h
    rcases h with h | h | h | h <;> subst h <;> rfl
  · simp only [compareSpecBackward, List.mem_append, List.mem_cons, List.mem_singleton,
      List.not_mem_nil, or_false] at h
    rcases h with (h | h) | h
    · subst h; rfl
    · subst h; rfl
    · split at h
      · simp only [List.mem_cons, List.mem_singleton, List.not_mem_nil, or_false] at h
        rcases h with h | h <;> subst h <;> rfl
      · simp at h
  · simp only [compareSpecParam, List.mem_cons, List.mem_singleton, List.not_mem_nil,
      or_false] at h
    rcases h with h | h <;> subst h <;> rfl
  · subst h; rfl

theorem compareStart_steps (env : HarnessEnv) (F : Flags) (gpus : List Int) (w : World) :
    ∃ placed, (compareStart env F gpus w).steps =
        w.steps ++ placed ++
          [Step.fopen_info (infoPath F.compare_output_dir (decide (gpus.length ≠ 0)))] ∧
      ∀ s ∈ placed, Step.isReport s = false ∧ ∀ p, s ≠ Step.fopen_info p ∧
        s ≠ Step.proceedWithCompare p := by
  unfold compareStart harness_opened harness_fopen harness_place World.record
  cases gpus with
  | nil =>
    by_cases hd : env.dir_exists F.compare_output_dir = true
    · exact ⟨[Step.set_mode SolverMode.CPU], by simp [hd], by simp [Step.isReport]⟩
    · exact ⟨[Step.set_mode SolverMode.CPU, Step.create_directory F.compare_output_dir],
        by simp [hd], by simp [Step.isReport]⟩
  | cons g gs =>
    by_cases hd : env.dir_exists F.compare_output_dir = true
    · exact ⟨[Step.SetDevice g, Step.set_mode SolverMode.GPU], by simp [hd],
        by simp [Step.isReport]⟩
    · exact ⟨[Step.SetDevice g, Step.set_mode SolverMode.GPU,
        Step.create_directory F.compare_output_dir], by simp [hd], by simp [Step.isReport]⟩

/-- C13. Compare outcome reporting. A run of `compare` that reaches the report
(in a build with `DETERMINISTIC`) returns 0 whatever error dictionary the
offline comparison returns; it reports that all layers work if and only if the
dictionary is empty, and otherwise reports exactly the keys of the dictionary
as failing layers. -/
theorem compare_outcome_reporting (env : HarnessEnv) (F : Flags) (net : Net) (w : World)
    (gpus : List Int)
    (hdet : env.DETERMINISTIC = true)
    (hmodel : F.model.length > 0)
    (hgpus : get_gpus env.deviceCount F.gpu [] = Res.ok gpus)
    (hopen : env.fopen_write (infoPath F.compare_output_dir (decide (gpus.length ≠ 0))) = true)
    (hwf : net.wellFormed)
    (hfresh : w.steps = []) :
    ∃ w', compare env F net w = Exec.halted w' (Outcome.exit 0) ∧
      (Step.report_all_correct ∈ w'.steps ↔
        env.proceedWithCompare (F.compare_output_dir ++ "/" ++ "CPUInfo.txt") = []) ∧
      (∀ key, Step.report_invalid_layer key ∈ w'.steps ↔
        key ∈ env.proceedWithCompare (F.compare_output_dir ++ "/" ++ "CPUInfo.txt")) ∧
      w'.steps.filter Step.isReport =
        (if env.proceedWithCompare (F.compare_output_dir ++ "/" ++ "CPUInfo.txt") = [] then
          [Step.report_all_correct]
         else (env.proceedWithCompare (F.compare_output_dir ++ "/" ++ "CPUInfo.txt")).map
          Step.report_invalid_layer) := by
  obtain ⟨w', h1, h2⟩ := compare_run_exit env F net w gpus hdet hmodel hgpus hopen hwf
  obtain ⟨placed, hp1, hp2⟩ := compareStart_steps env F gpus w
  have hnr : ∀ s ∈ (compareStart env F gpus w).steps ++ compareSpecSteps F net,
      Step.isReport s = false := by
    intro s hs
    rw [hp1, hfresh] at hs
    simp only [List.nil_append, List.mem_append, List.mem_singleton] at hs
    rcases hs with (hs | hs) | hs
    · exact (hp2 s hs).1
    · subst hs; rfl
    · exact compareSpecSteps_no_report F net s hs
  have hfilter : w'.steps.filter Step.isReport =
      (compareReportSteps env F).filter Step.isReport := by
    rw [h2, List.filter_append, List.filter_eq_nil_iff.2 (fun s hs => by simp [hnr s hs])]
    rfl
  have hmem : ∀ s, Step.isReport s = true → (s ∈ w'.steps ↔ s ∈ compareReportSteps env F) := by
    intro s hs
    rw [h2, List.mem_append]
    constructor
    · rintro (h | h)
      · rw [hnr s h] at hs
        cases hs
      · exact h
    · exact Or.inr
  refine ⟨w', h1, ?_, ?_, ?_⟩
  · rw [hmem Step.report_all_correct rfl]
    unfold compareReportSteps
    cases hk : env.proceedWithCompare (F.compare_output_dir ++ "/" ++ "CPUInfo.txt") with
    | nil => simp
    | cons k ks => simp
  · intro key
    rw [hmem (Step.report_invalid_layer key) rfl]
    unfold compareReportSteps
    cases hk : env.proceedWithCompare (F.compare_output_dir ++ "/" ++ "CPUInfo.txt") with
    | nil => simp
    | cons k ks => simp
  · rw [hfilter]
    unfold compareReportSteps
    cases hk : env.proceedWithCompare (F.compare_output_dir ++ "/" ++ "CPUInfo.txt") with
    | nil => simp [Step.isReport]
    | cons k ks =>
      have hall : ∀ s ∈ (k :: ks).map Step.report_invalid_layer, Step.isReport s = true := by
        intro s hs
        obtain ⟨x, _, rfl⟩ := List.mem_map.1 hs
        rfl
      simp only [List.length_cons, gt_iff_lt, Nat.zero_lt_succ, if_true, List.filter_cons,
        Step.isReport, Bool.false_eq_true, if_false, if_neg (List.cons_ne_nil k ks)]
      exact List.filter_eq_self.2 hall

/-- Witness for C13: a comparison that finds one failing layer; the run reports
it and returns 0. -/
theorem compare_outcome_reporting_witness :
    ∃ w', compare sampleHarnessEnvFailing { model := "m.prototxt" } sampleNet sampleWorld =
        Exec.halted w' (Outcome.exit 0) ∧
      w'.steps.filter Step.isReport = [Step.report_invalid_layer "ip1"] :=
  let ⟨w', h1, _, _, h4⟩ :=
    compare_outcome_reporting sampleHarnessEnvFailing { model := "m.prototxt" } sampleNet
      sampleWorld [] rfl (by decide) (by decide) rfl (by decide) rfl
  ⟨w', h1, h4⟩

/-! ## Directory-creation failure -/

theorem andThen_runningOrUndefined (e : Exec) (f : World → Exec)
    (he : e.runningOrUndefined) (hf : ∀ w, (f w).runningOrUndefined) :
    (e.andThen f).runningOrUndefined := by
  cases e with
  | running w => exact hf w
  | halted w o =>
    rcases he with h | h
    · cases h
    · exact Or.inr h

theorem forLoop_runningOrUndefined (body : Nat → World → Exec)
    (hbody : ∀ i w, (body i w).runningOrUndefined) (idx : List Nat) :
    ∀ w, (forLoop idx body w).runningOrUndefined := by
  induction idx with
  | nil => intro w; exact Or.inl rfl
  | cons i rest ih =>
    intro w
    rw [forLoop_cons]
    exact andThen_runningOrUndefined _ _ (hbody i w) ih

theorem fprintf_info_runningOrUndefined (line : String) (w : World) :
    (fprintf_info line w).runningOrUndefined := by
  unfold fprintf_info
  split
  · exact Or.inl rfl
  · exact Or.inr rfl

theorem traverse_runningOrUndefined (env : HarnessEnv) (F : Flags) (net : Net) (w : World) :
    (collect_traverse env F net w).runningOrUndefined ∧
    (compare_traverse env F net w).runningOrUndefined := by
  have hclose : ∀ w, (fclose_info w).runningOrUndefined := by
    intro w
    unfold fclose_info
    split
    · exact Or.inl rfl
    · exact Or.inr rfl
  have hcf : ∀ i w, (collect_forward env F net i w).runningOrUndefined := by
    intro i w
    unfold collect_forward
    split
    · exact Or.inr rfl
    · apply andThen_runningOrUndefined _ _ (fprintf_info_runningOrUndefined _ _)
      intro w1
      dsimp only
      split
      · exact Or.inr rfl
      · exact Or.inl rfl
  have hcb : ∀ i w, (collect_backward env F net i w).runningOrUndefined := by
    intro i w
    unfold collect_backward
    split
    · exact Or.inr rfl
    · apply andThen_runningOrUndefined _ _ (fprintf_info_runningOrUndefined _ _)
      intro w1
      dsimp only
      split
      · split
        · exact Or.inr rfl
        · exact Or.inl rfl
      · exact Or.inl rfl
  have hcp : ∀ i w, (collect_param env F net i w).runningOrUndefined := by
    intro i w
    unfold collect_param
    split
    · exact Or.inr rfl
    · exact Or.inl rfl
  have hmf : ∀ i w, (compare_forward env F net i w).runningOrUndefined := by
    intro i w
    unfold compare_forward
    split
    · exact Or.inr rfl
    · apply andThen_runningOrUndefined _ _ (fprintf_info_runningOrUndefined _ _)
      intro w1
      dsimp only
      split
      · exact Or.inr rfl
      · exact Or.inl rfl
  have hmb : ∀ i w, (compare_backward env F net i w).runningOrUndefined := by
    intro i w
    unfold compare_backward
    split
    · exact Or.inr rfl
    · apply andThen_runningOrUndefined _ _ (fprintf_info_runningOrUndefined _ _)
      intro w1
      dsimp only
      split
      · split
        · exact Or.inr rfl
        · exact Or.inl rfl
      · exact Or.inl rfl
  have hmp : ∀ i w, (compare_param env F net i w).runningOrUndefined := by
    intro i w
    unfold compare_param
    split
    · exact Or.inr rfl
    · exact Or.inl rfl
  constructor
  · unfold collect_traverse
    exact andThen_runningOrUndefined _ _
      (andThen_runningOrUndefined _ _
        (andThen_runningOrUndefined _ _ (forLoop_runningOrUndefined _ hcf _ _)
          (forLoop_runningOrUndefined _ hcb _))
        (forLoop_runningOrUndefined _ hcp _)) hclose
  · unfold compare_traverse
    exact andThen_runningOrUndefined _ _
      (andThen_runningOrUndefined _ _
        (andThen_runningOrUndefined _ _ (forLoop_runningOrUndefined _ hmf _ _)
          (forLoop_runningOrUndefined _ hmb _))
        (forLoop_runningOrUndefined _ hmp _)) hclose

theorem harness_open_outcome (env : HarnessEnv) (dir : String) (g : Bool) (w : World) :
    (∃ w1, harness_open env dir g w = Exec.running w1) ∨
    (∃ w1, harness_open env dir g w = Exec.halted w1 Outcome.fatal) := by
  unfold harness_open harness_mkdir
  split
  · split
    · exact Or.inr ⟨_, rfl⟩
    · exact Or.inl ⟨_, rfl⟩
    · exact Or.inl ⟨_, rfl⟩
  · exact Or.inl ⟨_, rfl⟩

/-- In a build with `DETERMINISTIC`, no run of `collect` or `compare` returns
exit code 1, whatever the file system answers. -/
theorem harness_never_returns_one (env : HarnessEnv) (F : Flags) (net : Net) (w : World)
    (hdet : env.DETERMINISTIC = true) :
    (collect env F net w).outcome ≠ some (Outcome.exit 1) ∧
    (compare env F net w).outcome ≠ some (Outcome.exit 1) := by
  constructor
  · unfold collect
    rw [if_neg (by simp [hdet])]
    split
    · simp [Exec.outcome]
    · split
      · simp [Exec.outcome]
      · rename_i gpus _
        dsimp only
        rcases harness_open_outcome env F.collect_dir (decide (gpus.length ≠ 0))
          (harness_place gpus w) with ⟨w1, h1⟩ | ⟨w1, h1⟩
        · rw [h1]
          simp only [Exec.andThen]
          have h := (traverse_runningOrUndefined env F net w1).1
          split
          · simp [Exec.outcome]
          · rename_i w2 o heq
            rw [heq] at h
            rcases h with h | h
            · cases h
            · simp only [Exec.outcome, Option.some.injEq] at h
              subst h
              simp [Exec.outcome]
        · rw [h1]
          simp [Exec.andThen, Exec.outcome]
  · unfold compare
    rw [if_neg (by simp [hdet])]
    split
    · simp [Exec.outcome]
    · split
      · simp [Exec.outcome]
      · rename_i gpus _
        dsimp only
        rcases harness_open_outcome env F.compare_output_dir (decide (gpus.length ≠ 0))
          (harness_place gpus w) with ⟨w1, h1⟩ | ⟨w1, h1⟩
        · rw [h1]
          simp only [Exec.andThen]
          have h := (traverse_runningOrUndefined env F net w1).2
          split
          · simp [Exec.outcome]
          · rename_i w2 o heq
            rw [heq] at h
            rcases h with h | h
            · cases h
            · simp only [Exec.outcome, Option.some.injEq] at h
              subst h
              simp [Exec.outcome]
        · rw [h1]
          simp [Exec.andThen, Exec.outcome]

/-- The directory step of a run whose output directory does not exist and
cannot be created: `create_directory` throws, and the run ends there. -/
theorem harness_open_throws (env : HarnessEnv) (dir : String) (g : Bool) (w : World)
    (hex : env.dir_exists dir = false)
    (hthrow : env.create_directory dir = CreateResult.throws) :
    harness_open env dir g w =
      Exec.halted (w.record (Step.create_directory dir)) Outcome.fatal := by
  unfold harness_open harness_mkdir
  rw [if_pos (by simp [hex]), hthrow]
  rfl

theorem harness_place_fields (gpus : List Int) (w : World) :
    (harness_place gpus w).steps = w.steps ++ placementSteps gpus ∧
    (harness_place gpus w).files = w.files ∧
    (harness_place gpus w).blobs = w.blobs ∧
    (harness_place gpus w).info = w.info ∧
    (harness_place gpus w).infoOpen = w.infoOpen := by
  unfold harness_place placementSteps World.record
  cases gpus <;> simp

/-- C14, amended. In a run of `collect` or `compare` that gets as far as the
output directory (a `DETERMINISTIC` build, a model given, a resolved device
set), when the directory does not exist and cannot be created,
`create_directory` throws `filesystem_error`, nothing catches it, and the
process is terminated: the run does not return exit code 1. It ends after the
mode is selected and `create_directory` is called, with no forward or backward
step made, no gradient zeroed, no dump written and the info file neither
opened nor written. Whatever the file system answers, no run of `collect` or
`compare` in such a build returns exit code 1. -/
theorem directory_creation_failure (env : HarnessEnv) (F : Flags) (net : Net) (w : World)
    (gpus : List Int)
    (hdet : env.DETERMINISTIC = true)
    (hmodel : F.model.length > 0)
    (hgpus : get_gpus env.deviceCount F.gpu [] = Res.ok gpus) :
    (env.dir_exists F.collect_dir = false →
      env.create_directory F.collect_dir = CreateResult.throws →
      ∃ w', collect env F net w = Exec.halted w' Outcome.fatal ∧
        w'.steps = w.steps ++ placementSteps gpus ++ [Step.create_directory F.collect_dir] ∧
        w'.files = w.files ∧ w'.blobs = w.blobs ∧ w'.info = w.info ∧
        w'.infoOpen = w.infoOpen) ∧
    (env.dir_exists F.compare_output_dir = false →
      env.create_directory F.compare_output_dir = CreateResult.throws →
      ∃ w', compare env F net w = Exec.halted w' Outcome.fatal ∧
        w'.steps =
          w.steps ++ placementSteps gpus ++ [Step.create_directory F.compare_output_dir] ∧
        w'.files = w.files ∧ w'.blobs = w.blobs ∧ w'.info = w.info ∧
        w'.infoOpen = w.infoOpen) ∧
    (collect env F net w).outcome ≠ some (Outcome.exit 1) ∧
    (compare env F net w).outcome ≠ some (Outcome.exit 1) := by
  obtain ⟨p1, p2, p3, p4, p5⟩ := harness_place_fields gpus w
  refine ⟨?_, ?_, harness_never_returns_one env F net w hdet⟩
  · intro hex hthrow
    refine ⟨(harness_place gpus w).record (Step.create_directory F.collect_dir), ?_, ?_,
      p2, p3, p4, p5⟩
    · unfold collect
      rw [if_neg (by simp [hdet]), if_neg (not_not.2 hmodel)]
      simp only [hgpus]
      rw [harness_open_throws env _ _ _ hex hthrow]
      rfl
    · show (harness_place gpus w).steps ++ _ = _
      rw [p1]
  · intro hex hthrow
    refine ⟨(harness_place gpus w).record (Step.create_directory F.compare_output_dir), ?_, ?_,
      p2, p3, p4, p5⟩
    · unfold compare
      rw [if_neg (by simp [hdet]), if_neg (not_not.2 hmodel)]
      simp only [hgpus]
      rw [harness_open_throws env _ _ _ hex hthrow]
      rfl
    · show (harness_place gpus w).steps ++ _ = _
      rw [p1]

/-- Witness for C14: the sample run of `collect` on a disk where `collect_out`
does not exist and cannot be created ends with the process terminated, after
the mode is selected and `create_directory` is called. -/
theorem directory_creation_failure_witness :
    ∃ w', collect sampleHarnessEnvNoDir { model := "m.prototxt" } sampleNet sampleWorld =
        Exec.halted w' Outcome.fatal ∧
      w'.steps = [Step.set_mode SolverMode.CPU, Step.create_directory "collect_out"] :=
  let ⟨w', h1, h2, _⟩ :=
    (directory_creation_failure sampleHarnessEnvNoDir { model := "m.prototxt" } sampleNet
      sampleWorld [] rfl (by decide) (by decide)).1 rfl rfl
  ⟨w', h1, h2⟩

/-- Counterexample to C14 as stated: with an output directory that does not
exist and cannot be created, the sample runs of `collect` and `compare` do not
return exit code 1; they end with the process terminated by the exception
`create_directory` throws. -/
theorem directory_creation_failure_counterexample :
    (collect sampleHarnessEnvNoDir { model := "m.prototxt" } sampleNet sampleWorld).outcome =
      some Outcome.fatal ∧
    decide ((collect sampleHarnessEnvNoDir { model := "m.prototxt" } sampleNet
      sampleWorld).outcome = some (Outcome.exit 1)) = false ∧
    (compare sampleHarnessEnvNoDir { model := "m.prototxt" } sampleNet sampleWorld).outcome =
      some Outcome.fatal ∧
    decide ((compare sampleHarnessEnvNoDir { model := "m.prototxt" } sampleNet
      sampleWorld).outcome = some (Outcome.exit 1)) = false ∧
    (collect sampleHarnessEnvNoDir { model := "m.prototxt" } sampleNet sampleWorld).world.steps =
      [Step.set_mode SolverMode.CPU, Step.create_directory "collect_out"] ∧
    (compare sampleHarnessEnvNoDir { model := "m.prototxt" } sampleNet sampleWorld).world.steps =
      [Step.set_mode SolverMode.CPU, Step.create_directory "compare_out"] := by
  decide

/-! ## train: device placement -/

theorem empty_append_mk (l : List Char) : "" ++ String.mk l = String.mk l := by
  apply String.ext
  rw [String.data_append]
  rfl

theorem train_gpu_flag_config (FLAGS_gpu : String) (cfg : SolverParameter)
    (hflag : FLAGS_gpu = "") (hmode : cfg.solver_mode = SolverMode.GPU) :
    train_gpu_flag FLAGS_gpu cfg =
      deviceSpec [match cfg.device_id with | some d => d | none => 0] := by
  subst hflag
  unfold train_gpu_flag
  rw [if_pos ⟨rfl, hmode⟩]
  cases cfg.device_id <;> exact empty_append_mk _

theorem train_placement_filter (env : Env) (F : Flags) (sp : SolverParameter)
    (gpus : List Int) (a b : SolverAction)
    (hsolver : F.solver.length > 0)
    (hexcl : F.snapshot.length = 0 ∨ F.weights.length = 0)
    (hparse : env.ReadSolverParameter F.solver = some sp)
    (hgpus : get_gpus env.deviceCount
      (train_gpu_flag F.gpu (env.use_flags sp F.solver F.engine F.level F.stage)) [] =
        Res.ok gpus)
    (hint : GetRequestedAction F.sigint_effect = Res.ok a)
    (hhup : GetRequestedAction F.sighup_effect = Res.ok b) :
    (train env F).trace.filter isPlacement =
      (train_place (env.use_flags sp F.solver F.engine F.level F.stage) gpus).2 ∧
    Event.CreateSolver (train_place (env.use_flags sp F.solver F.engine F.level F.stage) gpus).1 ∈
      (train env F).trace := by
  rw [train_run_eq env F sp gpus a b hsolver hexcl hparse hgpus hint hhup]
  constructor
  · have hroc : (restore_or_copy F (env.num_test_nets
        (train_place (env.use_flags sp F.solver F.engine F.level F.stage) gpus).1)).filter
        isPlacement = [] := by
      rw [List.filter_eq_nil_iff]
      intro e he
      rcases restore_or_copy_mem F _ e he with ⟨h1, _⟩ | ⟨⟨r, n, h1⟩, _⟩ <;> subst h1 <;>
        simp [isPlacement]
    have hdis : (train_dispatch env.USE_MLSL F gpus).trace.filter isPlacement = [] := by
      rcases train_dispatch_trace_cases env.USE_MLSL F gpus with h | h | h | h | h <;>
        rw [h] <;> simp [isPlacement]
    have hpl : (train_place (env.use_flags sp F.solver F.engine F.level F.stage) gpus).2.filter
        isPlacement =
        (train_place (env.use_flags sp F.solver F.engine F.level F.stage) gpus).2 := by
      cases gpus <;> simp [train_place, isPlacement]
    simp only [List.filter_append, hroc, hdis, hpl, List.append_nil]
    simp [isPlacement]
  · simp

/-- C15. Device placement in `train`. With a non-empty device flag the device
set is resolved from the flag, whatever the configuration says. With an empty
flag and a configuration asking for GPU mode it is the single `device_id` of
the configuration when the field is set and `[0]` otherwise; with an empty flag
and a configuration asking for CPU mode it is empty. A run that resolves the
device set `gpus` selects CPU mode if and only if `gpus` is empty; otherwise it
selects the first device of `gpus` and GPU mode, sets the solver count to the
size of `gpus`, and constructs the solver from the configuration with
`device_id` overwritten by the first device. -/
theorem train_device_placement (env : Env) (F : Flags) (sp : SolverParameter)
    (a b : SolverAction)
    (hsolver : F.solver.length > 0)
    (hexcl : F.snapshot.length = 0 ∨ F.weights.length = 0)
    (hparse : env.ReadSolverParameter F.solver = some sp)
    (hint : GetRequestedAction F.sigint_effect = Res.ok a)
    (hhup : GetRequestedAction F.sighup_effect = Res.ok b) :
    (F.gpu ≠ "" → train_gpu_flag F.gpu (train_config env F sp) = F.gpu) ∧
    (F.gpu = "" → (train_config env F sp).solver_mode = SolverMode.GPU →
      ∀ d, (train_config env F sp).device_id = some d → fitsInt32 d →
        get_gpus env.deviceCount (train_gpu_flag F.gpu (train_config env F sp)) [] =
          Res.ok [d]) ∧
    (F.gpu = "" → (train_config env F sp).solver_mode = SolverMode.GPU →
      (train_config env F sp).device_id = none →
        get_gpus env.deviceCount (train_gpu_flag F.gpu (train_config env F sp)) [] =
          Res.ok [0]) ∧
    (F.gpu = "" → (train_config env F sp).solver_mode = SolverMode.CPU →
      get_gpus env.deviceCount (train_gpu_flag F.gpu (train_config env F sp)) [] =
        Res.ok []) ∧
    (∀ gpus, get_gpus env.deviceCount (train_gpu_flag F.gpu (train_config env F sp)) [] =
        Res.ok gpus →
      (Event.set_mode SolverMode.CPU ∈ (train env F).trace ↔ gpus = []) ∧
      (gpus = [] →
        (train env F).trace.filter isPlacement = [Event.set_mode SolverMode.CPU] ∧
        Event.CreateSolver (train_config env F sp) ∈ (train env F).trace) ∧
      (∀ g0 rest, gpus = g0 :: rest →
        (train env F).trace.filter isPlacement =
          [Event.SetDevice g0, Event.set_mode SolverMode.GPU,
           Event.set_solver_count gpus.length] ∧
        Event.CreateSolver { train_config env F sp with device_id := some g0 } ∈
          (train env F).trace)) := by
  refine ⟨?_, ?_, ?_, ?_, ?_⟩
  · intro hne
    unfold train_gpu_flag
    have : ¬ F.gpu.length = 0 := fun h => hne ((string_length_zero _).1 h)
    rw [if_neg (fun h => this h.1)]
  · intro hflag hmode d hd hfit
    rw [train_gpu_flag_config _ _ hflag hmode, hd]
    exact get_gpus_deviceSpec _ [d] (by simpa using hfit)
  · intro hflag hmode hd
    rw [train_gpu_flag_config _ _ hflag hmode, hd]
    exact get_gpus_deviceSpec _ [0] (by decide)
  · intro hflag hmode
    unfold train_gpu_flag
    rw [if_neg (by simp [hmode]), hflag]
    exact get_gpus_empty _
  · intro gpus hgpus
    obtain ⟨hf, hc⟩ := train_placement_filter env F sp gpus a b hsolver hexcl hparse hgpus
      hint hhup
    have hmemf : ∀ e, isPlacement e = true →
        (e ∈ (train env F).trace ↔
          e ∈ (train_place (env.use_flags sp F.solver F.engine F.level F.stage) gpus).2) := by
      intro e he
      rw [← hf, List.mem_filter]
      simp [he]
    refine ⟨?_, ?_, ?_⟩
    · rw [hmemf (Event.set_mode SolverMode.CPU) rfl]
      cases gpus <;> simp [train_place]
    · intro hnil
      subst hnil
      exact ⟨hf, hc⟩
    · intro g0 rest hcons
      subst hcons
      exact ⟨hf, hc⟩

/-- Witness for C15: an empty flag and a configuration asking for GPU mode on
device 3. -/
theorem train_device_placement_witness :
    get_gpus sampleEnvGpu.deviceCount
        (train_gpu_flag "" (train_config sampleEnvGpu { solver := "s.prototxt" }
          ⟨SolverMode.GPU, some 3, 0⟩)) [] = Res.ok [3] :=
  (train_device_placement sampleEnvGpu { solver := "s.prototxt" } ⟨SolverMode.GPU, some 3, 0⟩
    SolverAction.STOP SolverAction.SNAPSHOT (by decide) (by decide) rfl (by decide)
    (by decide)).2.1 rfl rfl 3 rfl (by decide)

/-! ## train: an unsupported transport name -/

/-- C16, as stated, fails: with the unsupported transport name `tcp` and a
checkpoint, `train` parses the configuration, selects the mode, builds the
signal handler, constructs the solver and restores the checkpoint, and only
then returns 1; with weights instead of a checkpoint it transplants them
first. -/
theorem train_unsupported_transport_counterexample :
    train sampleEnv { solver := "s.prototxt", param_server := "tcp", snapshot := "it.state" } =
      ⟨[Event.ReadProtoFromTextFile "s.prototxt", Event.set_mode SolverMode.CPU,
        Event.SignalHandler SolverAction.STOP SolverAction.SNAPSHOT,
        Event.CreateSolver ⟨SolverMode.CPU, none, 0⟩, Event.SetActionFunction,
        Event.Restore "it.state"], Outcome.exit 1⟩ ∧
    train sampleEnv { solver := "s.prototxt", param_server := "tcp", weights := "w" } =
      ⟨[Event.ReadProtoFromTextFile "s.prototxt", Event.set_mode SolverMode.CPU,
        Event.SignalHandler SolverAction.STOP SolverAction.SNAPSHOT,
        Event.CreateSolver ⟨SolverMode.CPU, none, 0⟩, Event.SetActionFunction,
        Event.CopyTrainedLayersFrom NetRef.net "w",
        Event.CopyTrainedLayersFrom (NetRef.test_net 0) "w"], Outcome.exit 1⟩ := by
  decide

/-- C16, amended. For a run of `train` that reaches the strategy choice with a
non-empty transport name that is not the one compiled into the build, the name
is checked last: the run consists of the parse, the device placement, the
signal handler, the construction of the solver and the restore of the
checkpoint or the transplant of the weights, and then returns 1 without running
a synchronizer or `Solve()`. -/
theorem train_unsupported_transport (env : Env) (F : Flags) (sp : SolverParameter)
    (gpus : List Int) (a b : SolverAction)
    (hsolver : F.solver.length > 0)
    (hexcl : F.snapshot.length = 0 ∨ F.weights.length = 0)
    (hparse : env.ReadSolverParameter F.solver = some sp)
    (hgpus : get_gpus env.deviceCount (train_gpu_flag F.gpu (train_config env F sp)) [] =
      Res.ok gpus)
    (hint : GetRequestedAction F.sigint_effect = Res.ok a)
    (hhup : GetRequestedAction F.sighup_effect = Res.ok b)
    (hps : F.param_server ≠ "")
    (hbad : F.param_server ≠ compiledTransport env.USE_MLSL) :
    train env F =
      ⟨[Event.ReadProtoFromTextFile F.solver] ++ (train_place (train_config env F sp) gpus).2 ++
          [Event.SignalHandler a b,
           Event.CreateSolver (train_place (train_config env F sp) gpus).1,
           Event.SetActionFunction] ++
          restore_or_copy F (env.num_test_nets (train_place (train_config env F sp) gpus).1),
        Outcome.exit 1⟩ ∧
    (F.snapshot ≠ "" → Event.Restore F.snapshot ∈ (train env F).trace) ∧
    (F.snapshot = "" → F.weights ≠ "" →
      ∃ name, Event.CopyTrainedLayersFrom NetRef.net name ∈ (train env F).trace) ∧
    (train env F).trace.filter isStrategy = [] := by
  have hdis : train_dispatch env.USE_MLSL F gpus = ⟨[], Outcome.exit 1⟩ := by
    unfold train_dispatch
    rw [if_pos hps]
    cases hm : env.USE_MLSL
    · have h3 : F.param_server ≠ "mpi" := by simpa [compiledTransport, hm] using hbad
      simp [h3]
    · have h3 : F.param_server ≠ "mlsl" := by simpa [compiledTransport, hm] using hbad
      simp [h3]
  have hrun := train_run_eq env F sp gpus a b hsolver hexcl hparse hgpus hint hhup
  rw [hdis] at hrun
  simp only [List.append_nil] at hrun
  have hrun' : train env F =
      ⟨[Event.ReadProtoFromTextFile F.solver] ++ (train_place (train_config env F sp) gpus).2 ++
          [Event.SignalHandler a b,
           Event.CreateSolver (train_place (train_config env F sp) gpus).1,
           Event.SetActionFunction] ++
          restore_or_copy F (env.num_test_nets (train_place (train_config env F sp) gpus).1),
        Outcome.exit 1⟩ := hrun
  refine ⟨hrun', ?_, ?_, ?_⟩
  · intro hs
    have hs1 : F.snapshot.length ≠ 0 := fun h => hs ((string_length_zero _).1 h)
    rw [hrun']
    simp [restore_or_copy, hs1]
  · intro hs hw
    have hs0 : F.snapshot.length = 0 := (string_length_zero _).2 hs
    have hw1 : F.weights.length ≠ 0 := fun h => hw ((string_length_zero _).1 h)
    rw [hrun']
    obtain ⟨t, ts, hsplit⟩ : ∃ t ts, (boost_split is_any_of_comma F.weights.data).map String.mk =
        t :: ts := by
      cases hb : boost_split is_any_of_comma F.weights.data with
      | nil => exact absurd hb (boost_split_ne_nil _ _)
      | cons t ts => exact ⟨String.mk t, ts.map String.mk, by simp⟩
    refine ⟨t, ?_⟩
    simp only [restore_or_copy, hs0, hw1, ne_eq, not_true_eq_false, if_false, not_false_eq_true,
      if_true, CopyLayers_log, hsplit, List.flatMap_cons, copyEventsOf]
    simp
  · obtain ⟨pre, hpre, htr⟩ :=
      train_reaches_dispatch env F sp gpus a b hsolver hexcl hparse hgpus hint hhup
    rw [htr, hdis]
    simp only [List.append_nil, List.filter_eq_nil_iff]
    intro e he
    simp [hpre e he]

/-- Witness for C16: the transport name `tcp` in the default build, with a
checkpoint to restore. -/
theorem train_unsupported_transport_witness :
    (train sampleEnv
      { solver := "s.prototxt", param_server := "tcp", snapshot := "it.state" }).outcome =
        Outcome.exit 1 ∧
    Event.Restore "it.state" ∈ (train sampleEnv
      { solver := "s.prototxt", param_server := "tcp", snapshot := "it.state" }).trace :=
  ⟨congrArg Run.outcome
    (train_unsupported_transport sampleEnv
      { solver := "s.prototxt", param_server := "tcp", snapshot := "it.state" }
      ⟨SolverMode.CPU, none, 0⟩ [] SolverAction.STOP SolverAction.SNAPSHOT
      (by decide) (by decide) rfl (by decide) (by decide) (by decide) (by decide)
      (by decide)).1,
   (train_unsupported_transport sampleEnv
      { solver := "s.prototxt", param_server := "tcp", snapshot := "it.state" }
      ⟨SolverMode.CPU, none, 0⟩ [] SolverAction.STOP SolverAction.SNAPSHOT
      (by decide) (by decide) rfl (by decide) (by decide) (by decide) (by decide)
      (by decide)).2.1 (by decide)⟩

/-! ## Command registry -/

theorem GetBrewFunction_unknown (name : String) (h : name ∉ commandNames) :
    GetBrewFunction name = Res.fatal := by
  simp only [commandNames, List.mem_cons, List.mem_singleton, List.not_mem_nil, or_false,
    not_or] at h
  obtain ⟨h1, h2, h3, h4, h5, h6, h7⟩ := h
  simp only [GetBrewFunction, g_brew_map, List.lookup, beq_eq_false_iff_ne.2 h1,
    beq_eq_false_iff_ne.2 h2, beq_eq_false_iff_ne.2 h3, beq_eq_false_iff_ne.2 h4,
    beq_eq_false_iff_ne.2 h5, beq_eq_false_iff_ne.2 h6, beq_eq_false_iff_ne.2 h7]

theorem GetBrewFunction_known (name : String) (f : BrewFunction)
    (h : GetBrewFunction name = Res.ok f) : name ∈ commandNames := by
  by_contra hn
  rw [GetBrewFunction_unknown name hn] at h
  cases h

/-- C17. Command registry. `GetBrewFunction` returns the function registered
under a name for each of the seven commands `train`, `test`, `time`,
`data_server`, `device_query`, `collect` and `compare`, matched exactly and
with case, and is fatal for every other name. When `main` is given exactly one
positional argument that names a registered command, and the function of the
command returns, the exit code of the process is the value it returned. -/
theorem command_registry (WITH_PYTHON_LAYER : Bool) (call : BrewFunction → CallResult) :
    GetBrewFunction "train" = Res.ok BrewFunction.train ∧
    GetBrewFunction "test" = Res.ok BrewFunction.test ∧
    GetBrewFunction "time" = Res.ok BrewFunction.time ∧
    GetBrewFunction "data_server" = Res.ok BrewFunction.data_server ∧
    GetBrewFunction "device_query" = Res.ok BrewFunction.device_query ∧
    GetBrewFunction "collect" = Res.ok BrewFunction.collect ∧
    GetBrewFunction "compare" = Res.ok BrewFunction.compare ∧
    (∀ name, (∃ f, GetBrewFunction name = Res.ok f) ↔ name ∈ commandNames) ∧
    (∀ name, name ∉ commandNames → GetBrewFunction name = Res.fatal) ∧
    GetBrewFunction "Train" = Res.fatal ∧
    (∀ (argv0 name : String) (f : BrewFunction) (ret : Int),
      GetBrewFunction name = Res.ok f → call f = CallResult.returned ret →
        main WITH_PYTHON_LAYER call [argv0, name] = Outcome.exit ret) ∧
    (∀ (argv0 name : String), name ∉ commandNames →
      main WITH_PYTHON_LAYER call [argv0, name] = Outcome.fatal) := by
  refine ⟨by decide, by decide, by decide, by decide, by decide, by decide, by decide,
    ?_, GetBrewFunction_unknown, by decide, ?_, ?_⟩
  · intro name
    constructor
    · rintro ⟨f, hf⟩
      exact GetBrewFunction_known name f hf
    · intro h
      simp only [commandNames, List.mem_cons, List.mem_singleton, List.not_mem_nil,
        or_false] at h
      rcases h with h | h | h | h | h | h | h <;> subst h
      · exact ⟨BrewFunction.train, by decide⟩
      · exact ⟨BrewFunction.test, by decide⟩
      · exact ⟨BrewFunction.time, by decide⟩
      · exact ⟨BrewFunction.data_server, by decide⟩
      · exact ⟨BrewFunction.device_query, by decide⟩
      · exact ⟨BrewFunction.collect, by decide⟩
      · exact ⟨BrewFunction.compare, by decide⟩
  · intro argv0 name f ret hf hc
    simp only [main, hf, hc]
  · intro argv0 name hn
    simp only [main, GetBrewFunction_unknown name hn]

/-- Witness for C17: `main` called with the one argument `collect`, whose
function returns 7. -/
theorem command_registry_witness :
    main false (fun _ => CallResult.returned 7) ["caffe", "collect"] = Outcome.exit 7 :=
  (command_registry false (fun _ => CallResult.returned 7)).2.2.2.2.2.2.2.2.2.2.1
    "caffe" "collect" BrewFunction.collect 7 (by decide) rfl

/-! ## compare: the info file handed to the comparison -/

theorem compareSpecSteps_no_info (F : Flags) (net : Net) :
    ∀ s ∈ compareSpecSteps F net, Step.namesInfoFile s = false := by
  intro s hs
  simp only [compareSpecSteps, List.mem_append, List.mem_map, List.mem_flatMap,
    List.mem_singleton] at hs
  rcases hs with (((⟨_, _, h⟩ | ⟨_, _, h⟩) | ⟨_, _, h⟩) | ⟨_, _, h⟩) | h
  · subst h; rfl
  · simp only [compareSpecForward, List.mem_cons, List.mem_singleton, List.not_mem_nil,
      or_false] at h
    rcases h with h | h | h | h <;> subst h <;> rfl
  · simp only [compareSpecBackward, List.mem_append, List.mem_cons, List.mem_singleton,
      List.not_mem_nil, or_false] at h
    rcases h with (h | h) | h
    · subst h; rfl
    · subst h; rfl
    · split at h
      · simp only [List.mem_cons, List.mem_singleton, List.not_mem_nil, or_false] at h
        rcases h with h | h <;> subst h <;> rfl
      · simp at h
  · simp only [compareSpecParam, List.mem_cons, List.mem_singleton, List.not_mem_nil,
      or_false] at h
    rcases h with h | h <;> subst h <;> rfl
  · subst h; rfl

theorem compareReportSteps_info (env : HarnessEnv) (F : Flags) (s : Step)
    (hs : s ∈ compareReportSteps env F) (hn : Step.namesInfoFile s = true) :
    s = Step.proceedWithCompare (F.compare_output_dir ++ "/" ++ "CPUInfo.txt") := by
  unfold compareReportSteps at hs
  rcases List.mem_cons.1 hs with h | h
  · exact h
  · exfalso
    split at h
    · obtain ⟨k, _, rfl⟩ := List.mem_map.1 h
      cases hn
    · simp only [List.mem_singleton] at h
      subst h
      cases hn

theorem infoPath_cpu_iff (dir : String) (gpus : List Int) :
    infoPath dir (decide (gpus.length ≠ 0)) = dir ++ "/" ++ "CPUInfo.txt" ↔ gpus = [] := by
  cases gpus with
  | nil => simp [infoPath]
  | cons g gs =>
    simp only [infoPath, List.length_cons, ne_eq, Nat.succ_ne_zero, not_false_eq_true,
      decide_True, if_true]
    constructor
    · intro h
      have hd := congrArg String.data h
      simp only [String.data_append] at hd
      have := List.append_cancel_left hd
      exact absurd this (by decide)
    · intro h
      cases h

/-- C18. Info-log path handed to the comparator. In a run of `compare` that
reaches the report, the only path passed to `proceedWithCompare` is
`<compare_output_dir>/CPUInfo.txt`, whatever the device set, while the only
info file the run opens is `<compare_output_dir>/GPUInfo.txt` for a non-empty
device set and `<compare_output_dir>/CPUInfo.txt` for an empty one; the
comparator is given the file the run wrote if and only if the device set is
empty. -/
theorem compare_info_path (env : HarnessEnv) (F : Flags) (net : Net) (w : World)
    (gpus : List Int)
    (hdet : env.DETERMINISTIC = true)
    (hmodel : F.model.length > 0)
    (hgpus : get_gpus env.deviceCount F.gpu [] = Res.ok gpus)
    (hopen : env.fopen_write (infoPath F.compare_output_dir (decide (gpus.length ≠ 0))) = true)
    (hwf : net.wellFormed)
    (hfresh : w.steps = []) :
    ∃ w', compare env F net w = Exec.halted w' (Outcome.exit 0) ∧
      (∀ p, Step.proceedWithCompare p ∈ w'.steps ↔
        p = F.compare_output_dir ++ "/" ++ "CPUInfo.txt") ∧
      (∀ p, Step.fopen_info p ∈ w'.steps ↔
        p = infoPath F.compare_output_dir (decide (gpus.length ≠ 0))) ∧
      (gpus ≠ [] → infoPath F.compare_output_dir (decide (gpus.length ≠ 0)) =
        F.compare_output_dir ++ "/" ++ "GPUInfo.txt") ∧
      (gpus = [] → infoPath F.compare_output_dir (decide (gpus.length ≠ 0)) =
        F.compare_output_dir ++ "/" ++ "CPUInfo.txt") ∧
      (infoPath F.compare_output_dir (decide (gpus.length ≠ 0)) =
        F.compare_output_dir ++ "/" ++ "CPUInfo.txt" ↔ gpus = []) := by
  obtain ⟨w', h1, h2⟩ := compare_run_exit env F net w gpus hdet hmodel hgpus hopen hwf
  obtain ⟨placed, hp1, hp2⟩ := compareStart_steps env F gpus w
  refine ⟨w', h1, ?_, ?_, ?_, ?_, infoPath_cpu_iff _ gpus⟩
  · intro p
    rw [h2, hp1, hfresh]
    simp only [List.nil_append, List.mem_append, List.mem_singleton]
    constructor
    · rintro (((h | h) | h) | h)
      · exact absurd rfl ((hp2 _ h).2 p).2
      · cases h
      · have := compareSpecSteps_no_info F net _ h
        cases this
      · have := compareReportSteps_info env F _ h rfl
        exact Step.proceedWithCompare.inj this
    · intro hp
      subst hp
      exact Or.inr (List.mem_cons_self _ _)
  · intro p
    rw [h2, hp1, hfresh]
    simp only [List.nil_append, List.mem_append, List.mem_singleton]
    constructor
    · rintro (((h | h) | h) | h)
      · exact absurd rfl ((hp2 _ h).2 p).1
      · exact Step.fopen_info.inj h
      · have := compareSpecSteps_no_info F net _ h
        cases this
      · have := compareReportSteps_info env F _ h rfl
        cases this
    · intro hp
      subst hp
      exact Or.inl (Or.inl (Or.inr rfl))
  · intro hne
    cases gpus with
    | nil => exact absurd rfl hne
    | cons g gs => simp [infoPath]
  · intro he
    subst he
    simp [infoPath]

/-- Witness for C18: with two devices the run opens `GPUInfo.txt`, and not the
`CPUInfo.txt` it hands to the comparison. -/
theorem compare_info_path_witness :
    decide (infoPath "compare_out" (decide (([0, 1] : List Int).length ≠ 0)) =
      "compare_out" ++ "/" ++ "CPUInfo.txt") = false :=
  let ⟨_, _, _, _, _, _, h6⟩ :=
    compare_info_path sampleHarnessEnvGpu { model := "m.prototxt", gpu := "0,1" } sampleNet
      sampleWorld [0, 1] rfl (by decide) (by decide) (by decide) (by decide) rfl
  decide_eq_false (fun h => absurd (h6.1 h) (by decide))

end Caffe
